import Mathlib

/-!
Verification of the jarvis-recipes-server recipe-extraction and job pipeline.

Python strings are embedded as `List Char`; Python `None`-able values as
`Option`; machine floats that the code only ever builds from decimal literals
are embedded exactly as rationals / structured decimals (noted at each use).
Collaborator calls (HTTP fetch, BeautifulSoup DOM queries, the OCR service,
the text-generation service, `json.loads`) are oracle inputs: the functions
below embed the repository's own logic over those inputs.
-/

set_option linter.unusedVariables false
set_option maxRecDepth 4000000

namespace Jarvis

/-- Python strings, embedded as lists of characters. -/
abbrev Str := List Char

/-- Python's whitespace class: the character set matched by `\s` in `re`
patterns over `str`, and stripped by `str.strip()` (Unicode whitespace). -/
def isPyWs (c : Char) : Bool :=
  c.toNat = 32 || c.toNat = 9 || c.toNat = 10 || c.toNat = 13 ||
  c.toNat = 11 || c.toNat = 12 ||
  c.toNat = 28 || c.toNat = 29 || c.toNat = 30 || c.toNat = 31 ||
  c.toNat = 0x85 || c.toNat = 0xa0 || c.toNat = 0x1680 ||
  (0x2000 ≤ c.toNat && c.toNat ≤ 0x200a) ||
  c.toNat = 0x2028 || c.toNat = 0x2029 || c.toNat = 0x202f ||
  c.toNat = 0x205f || c.toNat = 0x3000

/-- ASCII decimal digit (model of `\d`; the source's inputs are ASCII). -/
def isDigit10 (c : Char) : Bool := '0' ≤ c && c ≤ '9'

/-- Accumulating splitter: walks the string keeping the (reversed) token under
construction; emits a token at each whitespace boundary. -/
def wsTokensGo : Str → Option Str → List Str
  | [], none => []
  | [], some t => [t.reverse]
  | c :: rest, none =>
      if isPyWs c then wsTokensGo rest none else wsTokensGo rest (some [c])
  | c :: rest, some t =>
      if isPyWs c then t.reverse :: wsTokensGo rest none
      else wsTokensGo rest (some (c :: t))

/-- Maximal whitespace-free tokens of a string, in order (empty runs dropped). -/
def wsTokens (s : Str) : List Str := wsTokensGo s none

/-- Join tokens with single spaces. -/
def joinSp : List Str → Str
  | [] => []
  | [t] => t
  | t :: ts => t ++ ' ' :: joinSp ts

/-- Embedding of `_clean_text` / `parsing_utils.clean_text`:
`re.sub(r"\s+", " ", text or "").strip()`, realized as splitting into
whitespace-free tokens and re-joining them with single spaces (extensionally
the same operation). -/
def clean_text (s : Str) : Str := joinSp (wsTokens s)

/-- Embedding of `FRACTION_MAP` (url_recipe_parser.py, lines 532-551). -/
def FRACTION_MAP : List (Char × Str) :=
  [ ('¼', "1/4".toList), ('½', "1/2".toList), ('¾', "3/4".toList),
    ('⅐', "1/7".toList), ('⅑', "1/9".toList), ('⅒', "1/10".toList),
    ('⅓', "1/3".toList), ('⅔', "2/3".toList), ('⅕', "1/5".toList),
    ('⅖', "2/5".toList), ('⅗', "3/5".toList), ('⅘', "4/5".toList),
    ('⅙', "1/6".toList), ('⅚', "5/6".toList), ('⅛', "1/8".toList),
    ('⅜', "3/8".toList), ('⅝', "5/8".toList), ('⅞', "7/8".toList) ]

/-- Membership in `fraction_chars = "".join(FRACTION_MAP.keys())`. -/
def isFracGlyph (c : Char) : Bool := (FRACTION_MAP.map Prod.fst).contains c

/-- Embedding of `re.sub(rf"(\d)([{fraction_chars}])", r"\1 \2", s)`:
insert a space between a digit and an attached fraction glyph, scanning
left to right over non-overlapping matches. -/
def insertSpaces : Str → Str
  | [] => []
  | [c] => [c]
  | a :: b :: rest =>
      if isDigit10 a && isFracGlyph b then a :: ' ' :: b :: insertSpaces rest
      else a :: insertSpaces (b :: rest)

/-- Python `s.replace(k, v)` for a single-character needle `k`. -/
def replaceChar (k : Char) (v : Str) (s : Str) : Str :=
  s.flatMap (fun c => if c = k then v else [c])

/-- The `for k, v in FRACTION_MAP.items(): s = s.replace(k, v)` loop. -/
def replaceFracs (s : Str) : Str :=
  FRACTION_MAP.foldl (fun acc p => replaceChar p.1 p.2 acc) s

/-- Character for a single decimal digit value. -/
def digitToChar : Nat → Char
  | 0 => '0' | 1 => '1' | 2 => '2' | 3 => '3' | 4 => '4'
  | 5 => '5' | 6 => '6' | 7 => '7' | 8 => '8' | _ => '9'

/-- Decimal digit value of a character. -/
def charToDigit (c : Char) : Nat := c.toNat - 48

/-- Little-endian decimal digits by fuel-driven division (the fuel, the
number itself, bounds the digit count); structurally recursive, so the
kernel can evaluate it (unlike `Nat.digits`). -/
def natDigitsGo : Nat → Nat → List Nat
  | 0, _ => []
  | _ + 1, 0 => []
  | fuel + 1, n + 1 => (n + 1) % 10 :: natDigitsGo fuel ((n + 1) / 10)

/-- Decimal rendering of a natural number (empty for 0). -/
def natToChars (n : Nat) : Str := ((natDigitsGo n n).map digitToChar).reverse

/-- Decimal rendering of a natural number ("0" for 0): Python `str` of an int. -/
def natToCharsC (n : Nat) : Str := if n = 0 then ['0'] else natToChars n

/-- Value of a string of decimal digit characters. -/
def charsToNat (ds : Str) : Nat := Nat.ofDigits 10 ((ds.map charToDigit).reverse)

/-- Strip trailing `'0'` characters. -/
def stripZerosRight (ds : Str) : Str := (ds.reverse.dropWhile (· = '0')).reverse

/-- Unsigned part of `re.fullmatch(r"\d+(\.\d+)?", t)`: the integer-part
digits and the optional fractional-part digits. -/
def matchNumCore (t : Str) : Option (Str × Option Str) :=
  if t.takeWhile isDigit10 = [] then none
  else
    match t.dropWhile isDigit10 with
    | [] => some (t.takeWhile isDigit10, none)
    | '.' :: u =>
        if u.takeWhile isDigit10 = [] ∨ u.dropWhile isDigit10 ≠ [] then none
        else some (t.takeWhile isDigit10, some (u.takeWhile isDigit10))
    | _ => none

/-- Embedding of `re.fullmatch(r"-?\d+(\.\d+)?", s)`: an optional minus sign,
the integer-part digits, and the optional fractional-part digits. -/
def matchNumeric (s : Str) : Option (Bool × Str × Option Str) :=
  match s with
  | [] => none
  | c :: t =>
      if c = '-' then (matchNumCore t).map (fun p => (true, p.1, p.2))
      else (matchNumCore (c :: t)).map (fun p => (false, p.1, p.2))

/-- Embedding of the numeric-canonicalization tail of
`normalize_fraction_display`: on a fullmatch of `-?\d+(\.\d+)?` the source runs
`num = float(s); s = str(int(num)) if num.is_integer() else str(num)`.
The float is modelled exactly by its decimal parts: `is_integer` holds iff the
fractional digits are all zero, `str(int(num))` renders the signed integer
part canonically, and `str(num)` renders sign, canonical integer part and the
fractional digits with trailing zeros stripped (Python's shortest-roundtrip
float repr on these inputs). -/
def canonNum (s : Str) : Str :=
  match matchNumeric s with
  | none => s
  | some (neg, ip, fp) =>
      let fpd := fp.getD []
      if fpd.all (· = '0') = true then
        let n := charsToNat ip
        if neg = true ∧ n ≠ 0 then '-' :: natToCharsC n else natToCharsC n
      else
        (if neg = true then ['-'] else []) ++ natToCharsC (charsToNat ip) ++
          '.' :: stripZerosRight fpd

/-- Embedding of `normalize_fraction_display` (parsing_utils.py lines 27-48,
duplicated as `_normalize_fraction_display` in url_recipe_parser.py lines
554-574): `None`/empty passthrough, spacing digit-attached fraction glyphs,
mapping glyphs to ASCII `n/d`, whitespace collapsing, numeric
canonicalization, and the final `return s or None`. -/
def normalize_fraction_display : Option Str → Option Str
  | none => none
  | some q =>
      if q = [] then some [] else
      let s := canonNum (clean_text (replaceFracs (insertSpaces q)))
      if s = [] then none else some s

/-! ### OCR quality gate (ocr_quality.py) -/

/-- Python line-break characters recognized by `str.splitlines`. -/
def isLineBreak (c : Char) : Bool :=
  c.toNat = 10 || c.toNat = 13 || c.toNat = 11 || c.toNat = 12 ||
  c.toNat = 28 || c.toNat = 29 || c.toNat = 30 || c.toNat = 0x85 ||
  c.toNat = 0x2028 || c.toNat = 0x2029

/-- Worker for `pySplitlines`; `acc` is the reversed current line. -/
def splitlinesGo : Str → Str → List Str
  | [], acc => if acc = [] then [] else [acc.reverse]
  | '\r' :: '\n' :: rest, acc => acc.reverse :: splitlinesGo rest []
  | c :: rest, acc =>
      if isLineBreak c then acc.reverse :: splitlinesGo rest []
      else splitlinesGo rest (c :: acc)

/-- Python `str.splitlines()`. -/
def pySplitlines (s : Str) : List Str := splitlinesGo s []

/-- Python `str.strip()`. -/
def pyStrip (s : Str) : Str :=
  ((s.dropWhile isPyWs).reverse.dropWhile isPyWs).reverse

/-- ASCII lower-casing of one character (Python `str.lower` on the ASCII
range, which is all the quality gate's keywords need). -/
def toLowerCh (c : Char) : Char :=
  if 65 ≤ c.toNat ∧ c.toNat ≤ 90 then Char.ofNat (c.toNat + 32) else c

/-- Python `str.lower()` (ASCII range). -/
def pyLower (s : Str) : Str := s.map toLowerCh

/-- Does `hay` start with `needle`? -/
def startsWithStr : Str → Str → Bool
  | _, [] => true
  | [], _ :: _ => false
  | h :: t, n :: m => h = n && startsWithStr t m

/-- Python `needle in hay` substring test. -/
def strContains : Str → Str → Bool
  | hay, needle =>
    startsWithStr hay needle ||
      (match hay with
       | [] => false
       | _ :: t => strContains t needle)

/-- ASCII letter (`[A-Za-z]`). -/
def isAsciiAlpha (c : Char) : Bool :=
  (65 ≤ c.toNat && c.toNat ≤ 90) || (97 ≤ c.toNat && c.toNat ≤ 122)

/-- ASCII vowel (`[AEIOUaeiou]`). -/
def isVowel (c : Char) : Bool :=
  c = 'A' || c = 'E' || c = 'I' || c = 'O' || c = 'U' ||
  c = 'a' || c = 'e' || c = 'i' || c = 'o' || c = 'u'

/-- Worker for `alphaRuns`; `acc` is the reversed current letter run. -/
def alphaRunsGo : Str → Option Str → List Str
  | [], none => []
  | [], some t => [t.reverse]
  | c :: rest, none =>
      if isAsciiAlpha c then alphaRunsGo rest (some [c]) else alphaRunsGo rest none
  | c :: rest, some t =>
      if isAsciiAlpha c then alphaRunsGo rest (some (c :: t))
      else t.reverse :: alphaRunsGo rest none

/-- Maximal runs of ASCII letters: `re.findall(r"[A-Za-z]+", text)`. -/
def alphaRuns (s : Str) : List Str := alphaRunsGo s none

/-- Result of `_gibberish_flags` (ocr_quality.py lines 5-29).  The ratios are
kept as exact numerator/denominator pairs (`alpha_ratio = alpha_chars /
total_chars`, 0 when the text is empty, and `vowel_ratio = vowels /
token_chars`); the source computes them as floats only to compare them
against the fixed thresholds 0.65 and 0.30, which is embedded exactly by
cross-multiplication. -/
structure GibFlags where
  alpha_chars : Nat
  total_chars : Nat
  vowels : Nat
  token_chars : Nat
  token_count : Nat
  vowelful_tokens : Nat
  is_gibberish : Bool
deriving Repr, DecidableEq

/-- Is `alpha_chars / total_chars < 0.65` (with ratio 0 for empty text)? -/
def alphaRatioLow (alpha_chars total_chars : Nat) : Bool :=
  total_chars = 0 || 100 * alpha_chars < 65 * total_chars

/-- Embedding of `_gibberish_flags` (ocr_quality.py lines 5-29):
`tokens = re.findall(r"[A-Za-z]{2,}", text)` is the list of maximal letter
runs of length at least 2; `token_chars` is their total length `or 1`. -/
def gibberish_flags (text : Str) : GibFlags :=
  let alpha_chars := (text.filter isAsciiAlpha).length
  let total_chars := text.length
  let tokens := (alphaRuns text).filter (fun t => 2 ≤ t.length)
  let token_chars_sum := (tokens.map List.length).sum
  let token_chars := if token_chars_sum = 0 then 1 else token_chars_sum
  let vowels := (tokens.map (fun t => (t.filter isVowel).length)).sum
  let vowelful_tokens := (tokens.filter (fun t => t.any isVowel)).length
  let is_gibberish : Bool :=
    alphaRatioLow alpha_chars total_chars ||
      100 * vowels < 30 * token_chars ||
      vowelful_tokens < 20 || tokens.length < 50
  { alpha_chars := alpha_chars
    total_chars := total_chars
    vowels := vowels
    token_chars := token_chars
    token_count := tokens.length
    vowelful_tokens := vowelful_tokens
    is_gibberish := is_gibberish }

/-- The stripped non-blank lines of the text (ocr_quality.py line 33). -/
def qualityLines (text : Str) : List Str :=
  ((pySplitlines text).map pyStrip).filter (fun l => l ≠ [])

/-- Keyword set of the soft score (ocr_quality.py line 44). -/
def qualityKeywords : List Str :=
  ["ingredients".toList, "directions".toList, "instructions".toList,
   "method".toList, "serves".toList, "yield".toList]

/-- One line of the `ingredient_like` test (ocr_quality.py line 48):
`re.search(r"^\s*[\d\-\/\.\s]+[a-zA-Z]?", ln)`.  The `^`-anchored search
succeeds exactly when the line starts with a character of the class
(digit, minus, slash, dot or whitespace); the optional trailing letter
matches emptily. -/
def ingredient_like_line (ln : Str) : Bool :=
  match ln with
  | [] => false
  | c :: _ => isDigit10 c || c = '-' || c = '/' || c = '.' || isPyWs c

/-- One line of the `step_like` test (ocr_quality.py line 52):
`re.match(r"^\s*\d+[\).\s]", ln)` — optional whitespace, one or more digits,
then a closing parenthesis, a dot, or a whitespace character. -/
def step_like_line (ln : Str) : Bool :=
  let t := ln.dropWhile isPyWs
  let ds := t.takeWhile isDigit10
  if ds = [] then false
  else
    match t.dropWhile isDigit10 with
    | [] => false
    | c :: _ => c = ')' || c = '.' || isPyWs c

/-- The 0-4 soft score of `score_quality` (ocr_quality.py lines 40-54). -/
def softScore (text : Str) (mean_confidence : Option ℚ) : Nat :=
  let lines := qualityLines text
  let s1 : Nat := match mean_confidence with
    | some conf => if (50 : ℚ) ≤ conf then 1 else 0
    | none => 0
  let kwLines :=
    (lines.filter (fun ln => qualityKeywords.any (fun kw => strContains (pyLower ln) kw))).length
  let s2 : Nat := if 2 ≤ kwLines then 1 else 0
  let s3 : Nat := if lines.any ingredient_like_line then 1 else 0
  let s4 : Nat := if lines.any step_like_line then 1 else 0
  s1 + s2 + s3 + s4

/-- Result dictionary of `score_quality` (ocr_quality.py lines 56-68). -/
structure QualityResult where
  char_count : Nat
  line_count : Nat
  hard_fail : Bool
  gibberish : Bool
  flags : GibFlags
  score : Nat
  pass_gate : Bool
deriving Repr, DecidableEq

/-- Embedding of `score_quality` (ocr_quality.py lines 32-68).  The returned
`hard_fail` field is `hard_fail or gibberish` as in the source (line 59);
`pass_gate` uses the local `hard_fail` (the character/line floors). -/
def score_quality (text : Str) (mean_confidence : Option ℚ) : QualityResult :=
  let char_count := text.length
  let line_count := (qualityLines text).length
  let hard_fail : Bool := char_count < 500 || line_count < 10
  let gib := gibberish_flags text
  let score := softScore text mean_confidence
  { char_count := char_count
    line_count := line_count
    hard_fail := hard_fail || gib.is_gibberish
    gibberish := gib.is_gibberish
    flags := gib
    score := score
    pass_gate := !hard_fail && 2 ≤ score && !gib.is_gibberish }

/-- Concrete OCR text used to exercise the quality gate: 12 non-blank lines,
more than 500 characters, two keyword lines, a quantity-looking line and a
numbered-step line. -/
def c7text : Str :=
  ("ingredients for the apple banana orange lemon dinner party\n" ++
   "directions for the simple kitchen method follow here nicely\n" ++
   "one two three four five six seven eight nine ten eleven\n" ++
   "red green blue yellow purple orange pink brown black white\n" ++
   "apple banana cherry grape lemon lime mango melon peach pear\n" ++
   "water sugar flour butter salt pepper basil thyme sage mint\n" ++
   "stir whisk fold beat knead roll slice dice chop mince\n" ++
   "oven stove plate bowl spoon fork knife cup pan pot\n" ++
   "serve warm with fresh cream and a little honey drizzle\n" ++
   "enjoy this simple treat with family and friends tonight\n" ++
   "1 cup sugar and 2 cups flour\n" ++
   "1. mix the sugar with the flour").toList

/-- Concrete mostly-numeric OCR text whose alphabetic ratio is far below
0.65. -/
def c7low : Str := "12345 6789 000 111 222\n333 444".toList

/-! ### Ingredient line splitting (url_recipe_parser.py lines 577-668,
duplicated in url_parsing/ingredient_parser.py lines 19-117) -/

/-- Embedding of `COMMON_UNITS` (url_recipe_parser.py lines 480-518). -/
def COMMON_UNITS : List Str :=
  ["tsp".toList, "teaspoon".toList, "tbsp".toList, "tablespoon".toList,
   "c".toList, "cup".toList, "oz".toList, "ounce".toList, "fl".toList,
   "fl-oz".toList, "pint".toList, "pt".toList, "quart".toList, "qt".toList,
   "gallon".toList, "gal".toList, "g".toList, "gram".toList, "kg".toList,
   "lb".toList, "lbs".toList, "pound".toList, "ml".toList, "l".toList,
   "liter".toList, "litre".toList, "stick".toList, "clove".toList,
   "slice".toList, "can".toList, "package".toList, "pkg".toList,
   "packet".toList, "bunch".toList, "head".toList, "ear".toList,
   "piece".toList]

/-- Strip a given character from both ends (Python `str.strip(ch)`). -/
def stripCharBoth (ch : Char) (s : Str) : Str :=
  ((s.dropWhile (· = ch)).reverse.dropWhile (· = ch)).reverse

/-- Embedding of `_normalize_unit_token`: lowercase, strip periods, strip a
trailing `s`. -/
def normalize_unit_token (u : Str) : Str :=
  let token := stripCharBoth '.' (pyLower u)
  match token.getLast? with
  | some 's' => token.dropLast
  | _ => token

/-- Embedding of `_is_known_unit`. -/
def is_known_unit (u : Str) : Bool := COMMON_UNITS.contains (normalize_unit_token u)

/-- Quantifier kind of a single-character-class regex element. -/
inductive RKind where
  | one
  | star
  | plus
deriving Repr, DecidableEq

/-- A regex element: a character class with a quantifier.  The ingredient
regexes are sequences of such elements. -/
structure RItem where
  p : Char → Bool
  kind : RKind

/-- Greedy attempt for a starred class: try consuming `n` characters (n
descending from the maximal class run), matching the continuation `k` on the
rest; mirrors the backtracking order of Python's `re`. -/
def tryStar (k : Str → Option (List Str)) (s : Str) : Nat → Option (Str × List Str)
  | 0 => (k s).map (fun gs => ([], gs))
  | n + 1 =>
      match k (s.drop (n + 1)) with
      | some gs => some (s.take (n + 1), gs)
      | none => tryStar k s n

/-- Greedy attempt for a `+`-quantified class: as `tryStar` but at least one
character must be consumed. -/
def tryPlus (k : Str → Option (List Str)) (s : Str) : Nat → Option (Str × List Str)
  | 0 => none
  | n + 1 =>
      match k (s.drop (n + 1)) with
      | some gs => some (s.take (n + 1), gs)
      | none => tryPlus k s n

/-- Backtracking matcher for a sequence of single-character-class elements,
anchored at the start and required to reach the end of the string (Python's
`$`, which also matches just before one final newline).  Returns the list of
substrings consumed by each element. -/
def matchItems : List RItem → Str → Option (List Str)
  | [], s => if s = [] ∨ s = ['\n'] then some [] else none
  | it :: rest, s =>
      match it.kind with
      | RKind.one =>
          match s with
          | [] => none
          | c :: t =>
              if it.p c then (matchItems rest t).map (fun gs => [c] :: gs)
              else none
      | RKind.star =>
          (tryStar (matchItems rest) s ((s.takeWhile it.p).length)).map
            (fun r => r.1 :: r.2)
      | RKind.plus =>
          (tryPlus (matchItems rest) s ((s.takeWhile it.p).length)).map
            (fun r => r.1 :: r.2)

/-- The quantity character class `[\d\s\/\.\-+{fraction_chars}]`. -/
def isQtyChar (c : Char) : Bool :=
  isDigit10 c || isPyWs c || c = '/' || c = '.' || c = '-' || c = '+' ||
    isFracGlyph c

/-- The class `[A-Za-z\.]`. -/
def isAlphaDot (c : Char) : Bool := isAsciiAlpha c || c = '.'

/-- The `.` class (any character except a newline; `DOTALL` is off). -/
def isDotAny (c : Char) : Bool := c.toNat ≠ 10

/-- Elements of `quantity_unit_re`:
`^\s*([\d\s\/\.\-+F]+)\s+([A-Za-z][A-Za-z\.]*)\s+(.*)$`. -/
def quantity_unit_items : List RItem :=
  [⟨isPyWs, RKind.star⟩, ⟨isQtyChar, RKind.plus⟩, ⟨isPyWs, RKind.plus⟩,
   ⟨isAsciiAlpha, RKind.one⟩, ⟨isAlphaDot, RKind.star⟩, ⟨isPyWs, RKind.plus⟩,
   ⟨isDotAny, RKind.star⟩]

/-- Elements of `quantity_only_re`: `^\s*([\d\s\/\.\-+F]+)\s+(.*)$`. -/
def quantity_only_items : List RItem :=
  [⟨isPyWs, RKind.star⟩, ⟨isQtyChar, RKind.plus⟩, ⟨isPyWs, RKind.plus⟩,
   ⟨isDotAny, RKind.star⟩]

/-- `quantity_unit_re.match(s)`, returning the three capture groups. -/
def matchQuantityUnit (s : Str) : Option (Str × Str × Str) :=
  match matchItems quantity_unit_items s with
  | some [_, g1, _, g3, g4, _, g6] => some (g1, g3 ++ g4, g6)
  | _ => none

/-- `quantity_only_re.match(s)`, returning the two capture groups. -/
def matchQuantityOnly (s : Str) : Option (Str × Str) :=
  match matchItems quantity_only_items s with
  | some [_, g1, _, g3] => some (g1, g3)
  | _ => none

/-- Match of `\s*\([^)]*\)\s*` at the start of `s`, returning its length. -/
def matchParen (s : Str) : Option Nat :=
  let w1 := s.takeWhile isPyWs
  match s.dropWhile isPyWs with
  | '(' :: r2 =>
      match r2.dropWhile (fun c => !(c = ')')) with
      | ')' :: r3 =>
          some (w1.length + 1 + (r2.takeWhile (fun c => !(c = ')'))).length +
            1 + (r3.takeWhile isPyWs).length)
      | _ => none
  | _ => none

/-- Fuel-driven worker for `subParen` (the fuel is the string length; each
step consumes at least one character). -/
def subParenGo : Nat → Str → Str
  | 0, s => s
  | _ + 1, [] => []
  | fuel + 1, c :: rest =>
      match matchParen (c :: rest) with
      | some n => ' ' :: subParenGo fuel ((c :: rest).drop n)
      | none => c :: subParenGo fuel rest

/-- `re.sub(r"\s*\([^)]*\)\s*", " ", s)`: left-to-right non-overlapping
replacement. -/
def subParen (s : Str) : Str := subParenGo s.length s

/-- Match of `\s*X\s*` at the start of `s` for a single character `X`,
returning its length. -/
def matchCharWs (ch : Char) (s : Str) : Option Nat :=
  let w1 := s.takeWhile isPyWs
  match s.dropWhile isPyWs with
  | c :: r2 =>
      if c = ch then some (w1.length + 1 + (r2.takeWhile isPyWs).length)
      else none
  | [] => none

/-- Fuel-driven worker for `subCharWs`. -/
def subCharWsGo (ch : Char) : Nat → Str → Str
  | 0, s => s
  | _ + 1, [] => []
  | fuel + 1, c :: rest =>
      match matchCharWs ch (c :: rest) with
      | some n => ' ' :: subCharWsGo ch fuel ((c :: rest).drop n)
      | none => c :: subCharWsGo ch fuel rest

/-- `re.sub(rf"\s*{X}\s*", " ", s)` for a single character `X`. -/
def subCharWs (ch : Char) (s : Str) : Str := subCharWsGo ch s.length s

/-- Embedding of the nested `clean_name` helper (url_recipe_parser.py lines
584-599): whitespace collapse, removal of parenthesised asides and stray
parentheses, trailing `" )"` strip, and removal of a leading `"recipe "`. -/
def clean_name (text : Str) : Str :=
  let c1 := clean_text text
  let c2 := subParen c1
  let c3 := subCharWs ')' c2
  let c4 := subCharWs '(' c3
  let c5 := clean_text c4
  let c6 := (c5.reverse.dropWhile (fun c => c = ' ' || c = ')')).reverse
  if startsWithStr (pyLower c6) ("recipe ".toList) then c6.drop 7 else c6

/-- Embedding of `ParsedIngredient` (url_recipe_parser.py lines 22-25). -/
structure ParsedIngredient where
  text : Str
  quantity_display : Option Str := none
  unit : Option Str := none
deriving Repr, DecidableEq

/-- Embedding of the nested `split_line` helper (url_recipe_parser.py lines
601-623 and ingredient_parser.py lines 40-61): quantity+unit+name first,
accepted only when the unit token is recognized; then quantity+name; then
name only. -/
def split_line (line : Str) : ParsedIngredient :=
  let raw := clean_text line
  if raw = [] then { text := raw }
  else
    let viaUnit : Option ParsedIngredient :=
      match matchQuantityUnit raw with
      | some (g1, g2, g3) =>
          let unit := clean_text g2
          if is_known_unit unit then
            some { text := clean_name g3
                   quantity_display := normalize_fraction_display (some (clean_text g1))
                   unit := some unit }
          else none
      | none => none
    match viaUnit with
    | some r => r
    | none =>
        match matchQuantityOnly raw with
        | some (g1, g2) =>
            { text := clean_name g2
              quantity_display := normalize_fraction_display (some (clean_text g1))
              unit := none }
        | none => { text := clean_name raw }

/-! ### JSON values, parse results, and the job state machine
(parse_job_service.py, api/routes/recipes.py, queue_worker.py) -/

/-- JSON values (the shape of `job_data` / `result_json` payloads).  Integer
numbers are embedded as `num`; float numbers (OCR confidences, quality
ratios) as exact rationals via `rat`. -/
inductive Json where
  | null
  | bool (b : Bool)
  | num (n : Int)
  | rat (q : ℚ)
  | str (s : Str)
  | arr (xs : List Json)
  | obj (fields : List (Str × Json))
deriving Repr

/-- Python `d.get(k)` on a JSON object (`None` i.e. `null` when absent). -/
def Json.get : Json → Str → Json
  | Json.obj fs, k =>
      match fs.find? (fun p => decide (p.1 = k)) with
      | some p => p.2
      | none => Json.null
  | _, _ => Json.null

/-- Python truthiness of a JSON value. -/
def Json.truthy : Json → Bool
  | Json.null => false
  | Json.bool b => b
  | Json.num n => decide (n ≠ 0)
  | Json.rat q => decide (q ≠ 0)
  | Json.str s => decide (s ≠ [])
  | Json.arr [] => false
  | Json.arr (_ :: _) => true
  | Json.obj [] => false
  | Json.obj (_ :: _) => true

/-- Python `a or b`. -/
def jor (a b : Json) : Json := if a.truthy then a else b

/-- Python `a + b` on JSON numbers (the only case the job pipeline reaches;
any other operand types would raise `TypeError`). -/
def jAdd : Json → Json → Json
  | Json.num a, Json.num b => Json.num (a + b)
  | _, _ => Json.null

/-- Elements of a JSON array (the pipeline only iterates actual lists). -/
def Json.items : Json → List Json
  | Json.arr xs => xs
  | _ => []

/-- String content of a JSON string (the pipeline only splits actual
strings). -/
def Json.asStr : Json → Str
  | Json.str s => s
  | _ => []

/-- Optional string to JSON. -/
def optStrJson : Option Str → Json
  | none => Json.null
  | some s => Json.str s

/-- Optional integer to JSON. -/
def optIntJson : Option Int → Json
  | none => Json.null
  | some n => Json.num n

/-- Embedding of `ParsedRecipe` (url_recipe_parser.py lines 28-38). -/
structure ParsedRecipe where
  title : Str
  description : Option Str := none
  source_url : Option Str := none
  image_url : Option Str := none
  tags : List Str := []
  servings : Option Int := none
  estimated_time_minutes : Option Int := none
  ingredients : List ParsedIngredient := []
  steps : List Str := []
  notes : List Str := []
deriving Repr, DecidableEq

/-- Embedding of `ParseResult` (url_recipe_parser.py lines 41-50). -/
structure ParseResult where
  success : Bool
  recipe : Option ParsedRecipe := none
  used_llm : Bool := false
  parser_strategy : Option Str := none
  warnings : List Str := []
  error_code : Option Str := none
  error_message : Option Str := none
  next_action : Option Str := none
  next_action_reason : Option Str := none
deriving Repr, DecidableEq

/-- Pydantic serialization of a `ParsedIngredient`. -/
def parsedIngredientToJson (i : ParsedIngredient) : Json :=
  Json.obj [("text".toList, Json.str i.text),
            ("quantity_display".toList, optStrJson i.quantity_display),
            ("unit".toList, optStrJson i.unit)]

/-- Pydantic serialization of a `ParsedRecipe`. -/
def parsedRecipeToJson (r : ParsedRecipe) : Json :=
  Json.obj [("title".toList, Json.str r.title),
            ("description".toList, optStrJson r.description),
            ("source_url".toList, optStrJson r.source_url),
            ("image_url".toList, optStrJson r.image_url),
            ("tags".toList, Json.arr (r.tags.map Json.str)),
            ("servings".toList, optIntJson r.servings),
            ("estimated_time_minutes".toList, optIntJson r.estimated_time_minutes),
            ("ingredients".toList, Json.arr (r.ingredients.map parsedIngredientToJson)),
            ("steps".toList, Json.arr (r.steps.map Json.str)),
            ("notes".toList, Json.arr (r.notes.map Json.str))]

/-- The payload `json.loads(result.model_dump_json())` of
`mark_complete` (parse_job_service.py line 164). -/
def parseResultToJson (res : ParseResult) : Json :=
  Json.obj [("success".toList, Json.bool res.success),
            ("recipe".toList,
              match res.recipe with
              | none => Json.null
              | some r => parsedRecipeToJson r),
            ("used_llm".toList, Json.bool res.used_llm),
            ("parser_strategy".toList, optStrJson res.parser_strategy),
            ("warnings".toList, Json.arr (res.warnings.map Json.str)),
            ("error_code".toList, optStrJson res.error_code),
            ("error_message".toList, optStrJson res.error_message),
            ("next_action".toList, optStrJson res.next_action),
            ("next_action_reason".toList, optStrJson res.next_action_reason)]

/-- The unit vocabulary local to `_split_qty_unit`
(parse_job_service.py lines 16-56). -/
def splitQtyUnits : List Str :=
  ["cup".toList, "cups".toList, "teaspoon".toList, "teaspoons".toList,
   "tsp".toList, "tbsp".toList, "tablespoon".toList, "tablespoons".toList,
   "ounce".toList, "ounces".toList, "oz".toList, "pound".toList,
   "pounds".toList, "lb".toList, "lbs".toList, "gram".toList, "grams".toList,
   "g".toList, "kg".toList, "milliliter".toList, "milliliters".toList,
   "ml".toList, "liter".toList, "liters".toList, "l".toList, "pinch".toList,
   "pinches".toList, "clove".toList, "cloves".toList, "can".toList,
   "cans".toList, "package".toList, "packages".toList, "stick".toList,
   "sticks".toList, "slice".toList, "slices".toList, "piece".toList,
   "pieces".toList]

/-- Strip any of the given characters from both ends (`str.strip(".,")`). -/
def stripChars (chs : List Char) (s : Str) : Str :=
  ((s.dropWhile (fun c => chs.contains c)).reverse.dropWhile
      (fun c => chs.contains c)).reverse

/-- Strip any of the given characters from the right (`str.rstrip(".,")`). -/
def rstripChars (chs : List Char) (s : Str) : Str :=
  (s.reverse.dropWhile (fun c => chs.contains c)).reverse

/-- The nested `_should_split` helper (parse_job_service.py lines 64-67):
empty quantity parts are allowed, otherwise the part must start with a digit
or a slash (`re.match(r"^[0-9/]", qty_part)`). -/
def shouldSplitQty (qty_part : Str) : Bool :=
  match qty_part with
  | [] => true
  | c :: _ => isDigit10 c || c = '/'

/-- The `for idx, tok in enumerate(tokens[:3])` loop of `_split_qty_unit`
(parse_job_service.py lines 69-75); `continue` on a unit hit whose prefix
fails `_should_split`. -/
def splitQtyScan (tokens : List Str) : List (Nat × Str) → Option (Option Str × Str)
  | [] => none
  | (idx, tok) :: rest =>
      let tok_clean := stripChars ['.', ','] (pyLower tok)
      if splitQtyUnits.contains tok_clean then
        let qty_part := pyStrip (joinSp (tokens.take idx))
        if shouldSplitQty qty_part then
          some ((if qty_part = [] then none else some qty_part),
            rstripChars ['.', ','] tok)
        else splitQtyScan tokens rest
      else splitQtyScan tokens rest

/-- Embedding of `_split_qty_unit` (parse_job_service.py lines 15-83).
`raw_tokens`/`tokens`: parentheses and commas are blanked and the string is
whitespace-split (which produces no empty tokens, so the source's
`[t for t in raw_tokens if t]` filter is the identity). -/
def _split_qty_unit (qty : Str) : Option Str × Option Str :=
  if qty = [] then (none, none)
  else
    let tokens := wsTokens (qty.map
      (fun c => if c = '(' || c = ')' || c = ',' then ' ' else c))
    if tokens.length < 2 then (some qty, none)
    else
      match splitQtyScan tokens (tokens.take 3).enum with
      | some (qp, u) => (qp, some u)
      | none =>
          match tokens.getLast? with
          | some last_raw =>
              let last_clean := stripChars ['.', ','] (pyLower last_raw)
              if splitQtyUnits.contains last_clean then
                let qty_part := pyStrip (joinSp tokens.dropLast)
                if shouldSplitQty qty_part then
                  ((if qty_part = [] then none else some qty_part),
                    some (rstripChars ['.', ','] last_raw))
                else (some qty, none)
              else (some qty, none)
          | none => (some qty, none)

/-- Embedding of `RecipeParseJobStatus` (parse_job_service.py lines 86-93). -/
inductive JobStatus where
  | PENDING
  | RUNNING
  | COMPLETE
  | ERROR
  | CANCELED
  | COMMITTED
  | ABANDONED
deriving Repr, DecidableEq

/-- A `RecipeParseJob` row (db fields touched by the state machine).
Timestamps are abstract instants (`Nat`); each transition takes the current
instant `now` in place of `datetime.utcnow()`. -/
structure Job where
  id : Str
  user_id : Str
  job_type : Str
  url : Option Str := none
  use_llm_fallback : Bool := true
  job_data : Option Json := none
  status : JobStatus
  attempts : Nat := 0
  result_json : Option Json := none
  error_code : Option Str := none
  error_message : Option Str := none
  started_at : Option Nat := none
  completed_at : Option Nat := none
  committed_at : Option Nat := none
  abandoned_at : Option Nat := none
  canceled_at : Option Nat := none
deriving Repr

/-- The guard set shared by `mark_running` / `mark_complete` / `mark_error`
(parse_job_service.py lines 150, 160, 231). -/
def guardedStatuses : List JobStatus :=
  [JobStatus.CANCELED, JobStatus.COMMITTED, JobStatus.ABANDONED]

/-- Embedding of `mark_running` (parse_job_service.py lines 149-156). -/
def mark_running (now : Nat) (job : Job) : Job :=
  if guardedStatuses.contains job.status then job
  else { job with status := JobStatus.RUNNING, started_at := some now,
                  attempts := job.attempts + 1 }

/-- Embedding of the nested `_recipe_dict_to_draft`
(parse_job_service.py lines 166-205). -/
def _recipe_dict_to_draft (recipe : Json) (source_type : Str) : Json :=
  let ingredients := (jor (recipe.get "ingredients".toList) (Json.arr [])).items.map
    (fun ing =>
      let qty_val := jor (ing.get "quantity_display".toList) (ing.get "quantity".toList)
      let split := if qty_val.truthy then _split_qty_unit qty_val.asStr
                   else (none, none)
      Json.obj
        [("name".toList,
           jor (jor (jor (ing.get "text".toList) (ing.get "name".toList))
             (ing.get "label".toList)) (Json.str [])),
         ("quantity".toList,
           jor (jor (optStrJson split.1) (ing.get "quantity_display".toList))
             (ing.get "quantity".toList)),
         ("unit".toList, jor (ing.get "unit".toList) (optStrJson split.2)),
         ("notes".toList, Json.null)])
  let est_time := jor (jor (jor (jor (recipe.get "estimated_time_minutes".toList)
    (recipe.get "total_time_minutes".toList)) (recipe.get "cook_time_minutes".toList))
    (recipe.get "totalTime".toList)) (Json.num 0)
  let prep_time := jor (jor (recipe.get "prep_time_minutes".toList)
    (recipe.get "prepTime".toList)) (Json.num 0)
  let cook_time := jor (jor (recipe.get "cook_time_minutes".toList)
    (recipe.get "cookTime".toList)) est_time
  let total_time := jor (recipe.get "total_time_minutes".toList)
    (if prep_time.truthy || cook_time.truthy then jAdd prep_time cook_time
     else est_time)
  let source_obj := jor (recipe.get "source".toList) (Json.obj [])
  Json.obj
    [("title".toList, jor (recipe.get "title".toList) (Json.str "Untitled".toList)),
     ("description".toList, recipe.get "description".toList),
     ("ingredients".toList, Json.arr ingredients),
     ("steps".toList, jor (recipe.get "steps".toList) (Json.arr [])),
     ("prep_time_minutes".toList, prep_time),
     ("cook_time_minutes".toList, cook_time),
     ("total_time_minutes".toList, total_time),
     ("servings".toList, recipe.get "servings".toList),
     ("tags".toList, jor (recipe.get "tags".toList) (Json.arr [])),
     ("source".toList, Json.obj
       [("type".toList, jor (source_obj.get "type".toList) (Json.str source_type)),
        ("source_url".toList, jor (source_obj.get "source_url".toList)
          (recipe.get "source_url".toList)),
        ("image_url".toList, jor (source_obj.get "image_url".toList)
          (recipe.get "image_url".toList))])]

/-- The `result_json` written by `mark_complete`
(parse_job_service.py lines 207-225). -/
def markCompleteResultJson (job : Job) (result : ParseResult) : Json :=
  let payload := parseResultToJson result
  if job.job_type = "url".toList ∨ job.job_type = "ingestion".toList ∨
      job.job_type = "image".toList then
    let recipe := jor (jor (payload.get "recipe".toList)
      (payload.get "recipe_draft".toList)) (Json.obj [])
    let source_type : Str :=
      if job.job_type = "url".toList ∨ job.job_type = "ingestion".toList
      then "url".toList else "ocr".toList
    let recipe_draft := _recipe_dict_to_draft recipe source_type
    let pipe := jor (payload.get "pipeline".toList) (Json.obj [])
    Json.obj
      [("recipe_draft".toList, recipe_draft),
       ("pipeline".toList, Json.obj
         [("parser_strategy".toList,
            jor (pipe.get "parser_strategy".toList) (payload.get "parser_strategy".toList)),
          ("used_llm".toList,
            jor (pipe.get "used_llm".toList) (payload.get "used_llm".toList)),
          ("warnings".toList,
            jor (jor (pipe.get "warnings".toList) (payload.get "warnings".toList))
              (Json.arr [])),
          ("source_url".toList,
            if recipe.truthy then recipe.get "source_url".toList else Json.null),
          ("error_code".toList,
            jor (pipe.get "error_code".toList) (payload.get "error_code".toList)),
          ("error_message".toList,
            jor (pipe.get "error_message".toList) (payload.get "error_message".toList)),
          ("raw_pipeline".toList, if pipe.truthy then pipe else Json.null)])]
  else payload

/-- Embedding of `mark_complete` (parse_job_service.py lines 159-227). -/
def mark_complete (now : Nat) (job : Job) (result : ParseResult) : Job :=
  if guardedStatuses.contains job.status then job
  else { job with status := JobStatus.COMPLETE, completed_at := some now,
                  result_json := some (markCompleteResultJson job result) }

/-- Embedding of `mark_error` (parse_job_service.py lines 230-238). -/
def mark_error (now : Nat) (job : Job) (error_code error_message : Str) : Job :=
  if guardedStatuses.contains job.status then job
  else { job with status := JobStatus.ERROR, completed_at := some now,
                  error_code := some error_code,
                  error_message := some error_message }

/-- Embedding of `mark_committed` (parse_job_service.py lines 241-247). -/
def mark_committed (now : Nat) (job : Job) : Job :=
  if job.status = JobStatus.COMPLETE then
    { job with status := JobStatus.COMMITTED, committed_at := some now }
  else job

/-- Embedding of `mark_canceled` (parse_job_service.py lines 250-257):
returns whether the cancellation was applied, together with the row. -/
def mark_canceled (now : Nat) (job : Job) : Bool × Job :=
  if job.status = JobStatus.PENDING ∨ job.status = JobStatus.RUNNING then
    (true, { job with status := JobStatus.CANCELED, canceled_at := some now })
  else (false, job)

/-- HTTP outcome of the cancel endpoint. -/
inductive CancelOutcome where
  | ok (echoedStatus : JobStatus)
  | notFound
  | conflict409
deriving Repr, DecidableEq

/-- Embedding of `cancel_parse_job` (api/routes/recipes.py lines 353-393):
the state of the job row after the request is returned alongside the HTTP
outcome; the `ok` outcome echoes `job.status` as read after the
`mark_canceled` call. -/
def cancel_parse_job (now : Nat) (job : Option Job) : CancelOutcome × Option Job :=
  match job with
  | none => (CancelOutcome.notFound, none)
  | some j =>
      if j.status = JobStatus.COMPLETE then
        let r := mark_canceled now j
        (CancelOutcome.ok r.2.status, some r.2)
      else if j.status = JobStatus.ERROR ∨ j.status = JobStatus.COMMITTED ∨
          j.status = JobStatus.ABANDONED ∨ j.status = JobStatus.CANCELED then
        (CancelOutcome.conflict409, some j)
      else
        let r := mark_canceled now j
        if r.1 then (CancelOutcome.ok r.2.status, some r.2)
        else (CancelOutcome.conflict409, some r.2)

/-! ### Worker retry decisions (queue_worker.py) -/

/-- The fixed retryable error-code set (queue_worker.py lines 509 and 572). -/
def RETRYABLE_CODES : List Str :=
  ["llm_timeout".toList, "llm_failed".toList, "fetch_failed".toList]

/-- Python `result.error_code in {"llm_timeout", "llm_failed", "fetch_failed"}`. -/
def retryableCode (result : ParseResult) : Bool :=
  match result.error_code with
  | some c => RETRYABLE_CODES.contains c
  | none => false

/-- Python `x or default` for an optional string field. -/
def orDefault (o : Option Str) (d : Str) : Str :=
  match o with
  | some s => if s = [] then d else s
  | none => d

/-- What a worker does with a finished parse attempt. `reenqueue` is the
path that resets the job to PENDING (keeping `job_data`) and calls
`enqueue_job`; `completeThenError` is the ingestion path that stores the
full result via `mark_complete` and then overwrites status/error fields with
ERROR so the client can read the `next_action` suggestion. -/
inductive WorkerAction where
  | markComplete
  | reenqueue (error_code error_message : Option Str)
  | markError (code msg : Str)
  | completeThenError (code msg : Str)
deriving Repr, DecidableEq

/-- Embedding of the result handling of `_process_url_job`
(queue_worker.py lines 566-585; the surrounding `except` clause that maps a
raised exception to `worker_error` is a collaborator-failure path outside
this decision). -/
def _process_url_job (job : Job) (max_retries : Nat) (result : ParseResult) :
    WorkerAction :=
  if result.success then WorkerAction.markComplete
  else
    if job.attempts < max_retries ∧ retryableCode result then
      WorkerAction.reenqueue result.error_code result.error_message
    else
      WorkerAction.markError (orDefault result.error_code "parse_failed".toList)
        (orDefault result.error_message "Parse failed".toList)

/-- Python truthiness of `result.next_action`. -/
def nextActionTruthy (result : ParseResult) : Bool :=
  match result.next_action with
  | some s => s ≠ []
  | none => false

/-- The `is_encoding_error` test of `_process_ingestion_job`
(queue_worker.py lines 501-504). -/
def isEncodingError (result : ParseResult) : Bool :=
  result.error_code = some "fetch_failed".toList &&
    (result.warnings.contains "encoding_error".toList ||
      result.next_action = some "webview_extract".toList)

/-- Embedding of the result handling of `_process_ingestion_job`
(queue_worker.py lines 494-532; payload validation and the `except` clause
are outside this decision). -/
def _process_ingestion_job (job : Job) (max_retries : Nat)
    (result : ParseResult) : WorkerAction :=
  if result.success then WorkerAction.markComplete
  else
    if ¬ (isEncodingError result = true) ∧ result.next_action = none ∧
        job.attempts < max_retries ∧ retryableCode result then
      WorkerAction.reenqueue result.error_code result.error_message
    else
      if nextActionTruthy result then
        WorkerAction.completeThenError
          (orDefault result.error_code "parse_failed".toList)
          (orDefault result.error_message "Parse failed".toList)
      else
        WorkerAction.markError (orDefault result.error_code "parse_failed".toList)
          (orDefault result.error_message "Parse failed".toList)

/-! ### URL recipe extraction (url_recipe_parser.py): the schema.org
extractor, the heuristic extractor, the LLM fallback tail, and the
`parse_recipe_from_url` strategy chain -/

/-- A raised Python exception, as `parse_recipe_from_url` and its callees
can produce one: `typeError`/`attributeError` from text operations on
non-string JSON values, `valueError`/`timeout`/`jsonDecodeError` and the
generic `otherError` from the LLM collaborator, and pydantic
`ValidationError` (a `ValueError` subclass) from `ParsedRecipe(**...)`. -/
inductive PyExn where
  | typeError (msg : Str)
  | attributeError (msg : Str)
  | valueError (msg : Str)
  | validationError
  | timeout (msg : Str)
  | jsonDecodeError
  | otherError (msg : Str)
deriving Repr, DecidableEq

deriving instance DecidableEq for Except

/-- Python `int()` truncation of a rational toward zero. -/
def ratTruncToInt (q : ℚ) : Int :=
  if q.num < 0 then -(Int.ofNat ((-q.num).toNat / q.den))
  else Int.ofNat (q.num.toNat / q.den)

/-- The Python type name of a decoded JSON value. -/
def pyTypeName : Json → Str
  | Json.null => "NoneType".toList
  | Json.bool _ => "bool".toList
  | Json.num _ => "int".toList
  | Json.rat _ => "float".toList
  | Json.str _ => "str".toList
  | Json.arr _ => "list".toList
  | Json.obj _ => "dict".toList

/-- `d.get(k)` distinguishing an absent key (`none`) from a present one
(needed where the source distinguishes defaults from explicit nulls). -/
def Json.getOpt : Json → Str → Option Json
  | Json.obj fs, k => (fs.find? (fun p => decide (p.1 = k))).map Prod.snd
  | _, _ => none

/-- Python truthiness of an `Optional[str]` (`None` and `""` are falsy). -/
def optTruthy : Option Str → Bool
  | none => false
  | some s => decide (s ≠ [])

/-- `_clean_text` applied to a JSON value: a `TypeError` from `re.sub`
unless the value is a string. -/
def cleanTextJson : Json → Except PyExn Str
  | Json.str s => Except.ok (clean_text s)
  | j => Except.error (PyExn.typeError
      ("expected string or bytes-like object, got ".toList ++
        '\'' :: pyTypeName j ++ ['\'']))

/-- `split_line` applied to a JSON value (its first step is `_clean_text`,
so a non-string raises). -/
def splitLineJson : Json → Except PyExn ParsedIngredient
  | Json.str s => Except.ok (split_line s)
  | j => Except.error (PyExn.typeError
      ("expected string or bytes-like object, got ".toList ++
        '\'' :: pyTypeName j ++ ['\'']))

/-- Embedding of `_extract_image` (url_recipe_parser.py lines 450-457):
first string of a list, the string itself, else `None`. -/
def firstStr : List Json → Option Str
  | [] => none
  | Json.str s :: _ => some s
  | _ :: rest => firstStr rest

/-- Embedding of `_extract_image` (url_recipe_parser.py lines 450-457). -/
def _extract_image : Json → Option Str
  | Json.str s => some s
  | Json.arr xs => firstStr xs
  | _ => none

/-- One optional group `(?:(\d+)X)?` of the ISO-8601 duration regex at the
current position: the maximal digit run followed by the marker letter, or
an unmatched group leaving the position unchanged (the greedy `\d+` cannot
backtrack into a successful match because the character after a shorter
run is still a digit, not the marker). -/
def matchNumSuffix (mark : Char) (s : Str) : Option Nat × Str :=
  let ds := s.takeWhile isDigit10
  match ds, s.dropWhile isDigit10 with
  | _ :: _, c :: rest => if c = mark then (some (charsToNat ds), rest) else (none, s)
  | _, _ => (none, s)

/-- Embedding of `_parse_iso8601_duration` (url_recipe_parser.py lines
225-238): `re.match(r"PT?(?:(\d+)H)?(?:(\d+)M)?(?:(\d+)S)?", duration)`
followed by `total_minutes or None`. -/
def _parse_iso8601_duration (duration : Str) : Option Int :=
  if duration = [] then none
  else
    match duration with
    | 'P' :: r0 =>
        let r1 := match r0 with
          | 'T' :: r => r
          | _ => r0
        let h := matchNumSuffix 'H' r1
        let m := matchNumSuffix 'M' h.2
        let s := matchNumSuffix 'S' m.2
        let total : Nat := h.1.getD 0 * 60 + m.1.getD 0 +
          (if 30 ≤ s.1.getD 0 then 1 else 0)
        if total = 0 then none else some (Int.ofNat total)
    | _ => none

/-- `re.search(r"(\d+)\s*(min|minute|minutes)", value, flags=re.I)`: the
leftmost maximal digit run followed by optional whitespace and `min`
(the first alternative always matches when any does).  A start inside a
digit run reaches the same post-run check, so the scan may skip whole
runs. -/
def searchMinGo : Str → Option Nat
  | [] => none
  | c :: rest =>
      if isDigit10 c then
        let ds := (c :: rest).takeWhile isDigit10
        let after := ((c :: rest).dropWhile isDigit10).dropWhile isPyWs
        if startsWithStr (pyLower after) ("min".toList) then some (charsToNat ds)
        else searchMinGo rest
      else searchMinGo rest

/-- Embedding of `_parse_minutes` (url_recipe_parser.py lines 241-253).
`isinstance(value, (int, float))` also accepts booleans (`bool` is an `int`
subclass) and `int()` truncates a float toward zero. -/
def _parse_minutes : Json → Option Int
  | Json.null => none
  | Json.bool b => some (if b then 1 else 0)
  | Json.num n => some n
  | Json.rat q => some (ratTruncToInt q)
  | Json.str s =>
      match _parse_iso8601_duration s with
      | some m => some m
      | none => (searchMinGo s).map Int.ofNat
  | _ => none

/-- `re.search(r"\d+", value)`: the first maximal digit run. -/
def firstDigitRun : Str → Option Nat
  | [] => none
  | c :: rest =>
      if isDigit10 c then some (charsToNat ((c :: rest).takeWhile isDigit10))
      else firstDigitRun rest

/-- Embedding of `_parse_servings` (url_recipe_parser.py lines 256-265). -/
def _parse_servings : Json → Option Int
  | Json.null => none
  | Json.bool b => some (if b then 1 else 0)
  | Json.num n => some n
  | Json.rat q => some (ratTruncToInt q)
  | Json.str s => (firstDigitRun s).map Int.ofNat
  | _ => none

/-- One scan step of the `_parse_servings_from_text` patterns
(url_recipe_parser.py lines 271-275): the literal keyword, then either
`\s+(\d+)` (`colon = false`, the `serves` pattern) or `[s]?:\s*(\d+)`
(`colon = true`, the `serve[s]?:` and `yield[s]?:` patterns).  The greedy
`\s*`/`\s+` cannot backtrack into a digit. -/
def searchKeyDigits (lit : Str) (colon : Bool) : Str → Option Nat
  | [] => none
  | c :: rest =>
      let s := c :: rest
      let attempt : Option Nat :=
        if startsWithStr s lit then
          let after := s.drop lit.length
          if colon then
            match (if startsWithStr after ("s:".toList) then some (after.drop 2)
                   else if startsWithStr after (":".toList) then some (after.drop 1)
                   else none) with
            | some a2 =>
                let ds := (a2.dropWhile isPyWs).takeWhile isDigit10
                if ds = [] then none else some (charsToNat ds)
            | none => none
          else
            let ws := after.takeWhile isPyWs
            let ds := (after.dropWhile isPyWs).takeWhile isDigit10
            if ws = [] ∨ ds = [] then none else some (charsToNat ds)
        else none
      match attempt with
      | some n => some n
      | none => searchKeyDigits lit colon rest

/-- Embedding of `_parse_servings_from_text` (url_recipe_parser.py lines
268-284): the three patterns are searched in order over the lowercased
text; `int` of a digit group cannot raise. -/
def _parse_servings_from_text (text : Str) : Option Int :=
  if text = [] then none
  else
    let lowered := pyLower text
    match searchKeyDigits ("serves".toList) false lowered with
    | some n => some (Int.ofNat n)
    | none =>
        match searchKeyDigits ("serve".toList) true lowered with
        | some n => some (Int.ofNat n)
        | none => (searchKeyDigits ("yield".toList) true lowered).map Int.ofNat

/-- One entry of the `_extract_instruction_text` loop (url_recipe_parser.py
lines 463-472): strings are cleaned and kept when non-empty; dicts
contribute `entry.get("text") or entry.get("description")` (a truthy
non-string raises in `_clean_text`); other entries are skipped. -/
def extractInstructionEntry (steps : List Str) : Json → Except PyExn (List Str)
  | Json.str s =>
      let cleaned := clean_text s
      Except.ok (if cleaned = [] then steps else steps ++ [cleaned])
  | Json.obj fs =>
      let entry := Json.obj fs
      let text_val := jor (entry.get ("text".toList)) (entry.get ("description".toList))
      match cleanTextJson (jor text_val (Json.str [])) with
      | Except.error e => Except.error e
      | Except.ok cleaned =>
          Except.ok (if cleaned = [] then steps else steps ++ [cleaned])
  | _ => Except.ok steps

/-- The `for entry in instructions` loop of `_extract_instruction_text`. -/
def extractInstructionsLoop : List Json → List Str → Except PyExn (List Str)
  | [], steps => Except.ok steps
  | entry :: rest, steps =>
      match extractInstructionEntry steps entry with
      | Except.error e => Except.error e
      | Except.ok steps2 => extractInstructionsLoop rest steps2

/-- Embedding of `_extract_instruction_text` (url_recipe_parser.py lines
460-477). -/
def _extract_instruction_text : Json → Except PyExn (List Str)
  | Json.arr entries => extractInstructionsLoop entries []
  | Json.str s =>
      let cleaned := clean_text s
      Except.ok (if cleaned = [] then [] else [cleaned])
  | _ => Except.ok []

/-- One entry of the `_extract_ingredients` loop (url_recipe_parser.py
lines 627-658): strings are cleaned and split; dicts with a truthy
`text`/`name` are split when no `amount`/`quantity`/`unit` is given, else
taken field-wise (truthy non-string fields raise in `_clean_text`). -/
def extractIngredientEntry (parsed : List ParsedIngredient) : Json →
    Except PyExn (List ParsedIngredient)
  | Json.str s =>
      let cleaned := clean_text s
      Except.ok (if cleaned = [] then parsed else parsed ++ [split_line cleaned])
  | Json.obj fs =>
      let raw := Json.obj fs
      let text_val := jor (raw.get ("text".toList)) (raw.get ("name".toList))
      if text_val.truthy then
        match cleanTextJson (jor (jor (raw.get ("amount".toList))
            (raw.get ("quantity".toList))) (Json.str [])) with
        | Except.error e => Except.error e
        | Except.ok quantity =>
            match cleanTextJson (jor (raw.get ("unit".toList)) (Json.str [])) with
            | Except.error e => Except.error e
            | Except.ok unit =>
                if quantity = [] ∧ unit = [] then
                  match splitLineJson text_val with
                  | Except.error e => Except.error e
                  | Except.ok ing => Except.ok (parsed ++ [ing])
                else
                  match cleanTextJson text_val with
                  | Except.error e => Except.error e
                  | Except.ok text =>
                      Except.ok (parsed ++
                        [{ text := text
                           quantity_display := if quantity = [] then none else some quantity
                           unit := if unit = [] then none else some unit }])
      else Except.ok parsed
  | _ => Except.ok parsed

/-- The `for idx, raw in enumerate(ingredients)` loop of
`_extract_ingredients`. -/
def extractIngredientsLoop : List Json → List ParsedIngredient →
    Except PyExn (List ParsedIngredient)
  | [], parsed => Except.ok parsed
  | raw :: rest, parsed =>
      match extractIngredientEntry parsed raw with
      | Except.error e => Except.error e
      | Except.ok parsed2 => extractIngredientsLoop rest parsed2

/-- Embedding of `_extract_ingredients` (url_recipe_parser.py lines
577-668). -/
def _extract_ingredients : Json → Except PyExn (List ParsedIngredient)
  | Json.arr xs => extractIngredientsLoop xs []
  | Json.str s =>
      let cleaned := clean_text s
      Except.ok (if cleaned = [] then [] else [split_line cleaned])
  | _ => Except.ok []

/-- Python `s.split(",")` (keeps empty pieces). -/
def splitCommaGo : Str → Str → List Str
  | [], acc => [acc.reverse]
  | c :: rest, acc =>
      if c = ',' then acc.reverse :: splitCommaGo rest []
      else splitCommaGo rest (c :: acc)

/-- Python `s.split(",")`. -/
def splitComma (s : Str) : List Str := splitCommaGo s []

/-- Fuel-driven worker for `pyReplace`; every replacement or copy step
consumes at least one character of the subject (patterns are non-empty). -/
def pyReplaceGo (pat : Str) : Nat → Str → Str
  | 0, s => s
  | _ + 1, [] => []
  | fuel + 1, c :: rest =>
      if startsWithStr (c :: rest) pat ∧ pat ≠ [] then
        pyReplaceGo pat fuel ((c :: rest).drop pat.length)
      else c :: pyReplaceGo pat fuel rest

/-- Python `s.replace(pat, "")`: left-to-right non-overlapping removal of
every occurrence. -/
def pyReplace (s pat : Str) : Str := pyReplaceGo pat s.length s

/-- The title-word set of `_coerce_keywords` (url_recipe_parser.py lines
383-391): lowercase the title, delete the common recipe words in order,
split on whitespace, and keep the distinct words longer than 3 characters
(the set is used only through membership, count of distinct common
elements, and non-emptiness, so a duplicate-free list embeds it). -/
def titleWordsOf (recipe_title : Str) : List Str :=
  let words := ["recipe".toList, "recipes".toList, "how to".toList,
    "how to make".toList, "easy".toList, "best".toList, "homemade".toList]
  let title_normalized := words.foldl pyReplace (pyLower recipe_title)
  ((wsTokens title_normalized).eraseDups).filter (fun w => 3 < w.length)

/-- The category keywords kept by `_coerce_keywords` (url_recipe_parser.py
lines 424-430). -/
def coerceCategories : List Str :=
  ["free".toList, "friendly".toList, "diet".toList, "cuisine".toList,
   "course".toList, "meal".toList, "type".toList, "vegetarian".toList,
   "vegan".toList, "gluten".toList, "dairy".toList, "nut".toList,
   "paleo".toList, "keto".toList, "breakfast".toList, "lunch".toList,
   "dinner".toList, "dessert".toList, "appetizer".toList, "snack".toList,
   "american".toList, "italian".toList, "mexican".toList, "asian".toList,
   "french".toList, "indian".toList, "chinese".toList, "quick".toList,
   "slow".toList, "cooker".toList, "instant".toList, "one-pot".toList,
   "sheet-pan".toList]

/-- The per-tag filter of `_coerce_keywords` (url_recipe_parser.py lines
395-432): `true` when the tag is appended to `filtered_tags`. -/
def coerceFilterTag (rtitle : Str) (titleWords : List Str) (tag : Str) : Bool :=
  let tag_lower := pyStrip (pyLower tag)
  if tag_lower = [] then false
  else if titleWords ≠ [] ∧
      (2 ≤ (((wsTokens tag_lower).eraseDups).filter
          (fun w => titleWords.contains w)).length ∨
        strContains (pyLower rtitle) tag_lower ∨
        strContains tag_lower (pyLower rtitle)) then false
  else if rtitle ≠ [] ∧ 3 ≤ (wsTokens tag_lower).length ∧
      titleWords.any (fun w => 4 < w.length ∧ strContains tag_lower w) then false
  else if (wsTokens tag_lower).length ≤ 2 then true
  else coerceCategories.any (fun cat => strContains tag_lower cat)

/-- Case-insensitive first-kept deduplication (url_recipe_parser.py lines
435-441); `seen` holds the lowercased tags already kept. -/
def dedupCaseGo : List Str → List Str → List Str
  | _, [] => []
  | seen, t :: rest =>
      let tl := pyLower t
      if seen.contains tl then dedupCaseGo seen rest
      else t :: dedupCaseGo (tl :: seen) rest

/-- Embedding of `_coerce_keywords` (url_recipe_parser.py lines 362-443):
raw tags are the stripped non-empty comma pieces of the string value, or of
each string item of a list value (other values are not strings and not
sequences, so they keep `raw_tags` empty); the filter and the
case-insensitive deduplication follow the source.  `recipe_title = none`
embeds the `None` default. -/
def _coerce_keywords (value : Json) (recipe_title : Option Str) : List Str :=
  if value.truthy = false then []
  else
    let pieces : Str → List Str := fun s =>
      ((splitComma s).map pyStrip).filter (fun kw => kw ≠ [])
    let raw_tags : List Str :=
      match value with
      | Json.str s => pieces s
      | Json.arr items =>
          items.foldl (fun acc it =>
            match it with
            | Json.str s => acc ++ pieces s
            | _ => acc) []
      | _ => []
    if raw_tags = [] then []
    else
      let rtitle := recipe_title.getD []
      let titleWords := if rtitle = [] then [] else titleWordsOf rtitle
      dedupCaseGo [] (raw_tags.filter (coerceFilterTag rtitle titleWords))

/-- The iterable built from a truthy `@type` value (url_recipe_parser.py
line 882): `[obj_type] if isinstance(obj_type, str) else obj_type`, then
iterated — a list yields its elements, a dict its keys, and a number or
boolean raises `TypeError` (not iterable). -/
def typeCandidates : Json → Except PyExn (List Json)
  | Json.str s => Except.ok [Json.str s]
  | Json.arr xs => Except.ok xs
  | Json.obj fs => Except.ok (fs.map (fun p => Json.str p.1))
  | j => Except.error (PyExn.typeError
      ('\'' :: pyTypeName j ++ "' object is not iterable".toList))

/-- `str(t).lower() == "recipe"` (url_recipe_parser.py line 886): `str()`
of a non-string JSON value is its Python rendering, which is never the
bare word `recipe`, so only string values can match. -/
def typeIsRecipe : Json → Bool
  | Json.str s => decide (pyLower s = "recipe".toList)
  | _ => false

/-- The candidate list built from one decoded JSON-LD block
(url_recipe_parser.py lines 862-873): the `@graph` items when the key is
present and its `or []` value is a list, followed by the elements of a
top-level list or the top-level dict itself. -/
def jsonLdCandidates (data : Json) : List Json :=
  let graphPart : List Json :=
    match data with
    | Json.obj fs =>
        if (fs.map Prod.fst).contains ("@graph".toList) then
          match jor ((Json.obj fs).get ("@graph".toList)) (Json.arr []) with
          | Json.arr xs => xs
          | _ => []
        else []
    | _ => []
  let tailPart : List Json :=
    match data with
    | Json.arr xs => xs
    | Json.obj fs => [Json.obj fs]
    | _ => []
  graphPart ++ tailPart

/-- One candidate of the JSON-LD loop (url_recipe_parser.py lines
875-958): `none` when a guard skips it (`continue`), `some` when a recipe
is returned.  Non-dict candidates, falsy `@type` values, non-`Recipe`
types, and empty title/ingredients/steps are skipped; the evaluation
order (title, then ingredients, then steps, then — after the guards —
tags and description) follows the source. -/
def schemaOrgCandidate (url : Str) (obj : Json) : Except PyExn (Option ParsedRecipe) :=
  match obj with
  | Json.obj _ =>
      let obj_type := obj.get ("@type".toList)
      if obj_type.truthy = false then Except.ok none
      else
        match typeCandidates obj_type with
        | Except.error e => Except.error e
        | Except.ok types =>
            if types.any typeIsRecipe = false then Except.ok none
            else
              match cleanTextJson (jor (obj.get ("name".toList)) (Json.str [])) with
              | Except.error e => Except.error e
              | Except.ok title =>
                  let recipe_ingredient_raw :=
                    jor (obj.get ("recipeIngredient".toList)) (Json.arr [])
                  let recipe_instructions_raw :=
                    jor (obj.get ("recipeInstructions".toList)) (Json.arr [])
                  match _extract_ingredients recipe_ingredient_raw with
                  | Except.error e => Except.error e
                  | Except.ok ingredients =>
                      match _extract_instruction_text recipe_instructions_raw with
                      | Except.error e => Except.error e
                      | Except.ok steps =>
                          if title = [] then Except.ok none
                          else if ingredients = [] then Except.ok none
                          else if steps = [] then Except.ok none
                          else
                            let keywords := obj.get ("keywords".toList)
                            let recipe_category :=
                              jor (obj.get ("recipeCategory".toList)) (Json.arr [])
                            let recipe_cuisine :=
                              jor (obj.get ("recipeCuisine".toList)) (Json.arr [])
                            let kw1 : List Json :=
                              if keywords.truthy then [keywords] else []
                            let kw2 : List Json := kw1 ++
                              (if recipe_category.truthy then
                                 match recipe_category with
                                 | Json.arr xs => xs
                                 | other => [other]
                               else [])
                            let all_keywords : List Json := kw2 ++
                              (if recipe_cuisine.truthy then
                                 match recipe_cuisine with
                                 | Json.arr xs => xs
                                 | other => [other]
                               else [])
                            let tags := _coerce_keywords
                              (if all_keywords.isEmpty then Json.null
                               else Json.arr all_keywords) (some title)
                            match cleanTextJson
                                (jor (obj.get ("description".toList)) (Json.str [])) with
                            | Except.error e => Except.error e
                            | Except.ok description =>
                                Except.ok (some
                                  { title := title
                                    description := some description
                                    source_url := some url
                                    image_url := _extract_image (obj.get ("image".toList))
                                    tags := tags
                                    servings := _parse_servings (obj.get ("recipeYield".toList))
                                    estimated_time_minutes :=
                                      _parse_minutes (obj.get ("totalTime".toList))
                                    ingredients := ingredients
                                    steps := steps })
  | _ => Except.ok none

/-- The `for obj_idx, obj in enumerate(candidates)` loop. -/
def schemaOrgCandidatesLoop (url : Str) : List Json → Except PyExn (Option ParsedRecipe)
  | [] => Except.ok none
  | obj :: rest =>
      match schemaOrgCandidate url obj with
      | Except.error e => Except.error e
      | Except.ok (some r) => Except.ok (some r)
      | Except.ok none => schemaOrgCandidatesLoop url rest

/-- Embedding of `extract_recipe_from_schema_org` (url_recipe_parser.py
lines 838-959) over the decoded JSON-LD script blocks of the document:
`none` stands for a block whose text is empty or fails `json.loads`
(both `continue`), `some data` for a decoded block. -/
def extract_recipe_from_schema_org : List (Option Json) → Str →
    Except PyExn (Option ParsedRecipe)
  | [], _ => Except.ok none
  | none :: rest, url => extract_recipe_from_schema_org rest url
  | some data :: rest, url =>
      match schemaOrgCandidatesLoop url (jsonLdCandidates data) with
      | Except.error e => Except.error e
      | Except.ok (some r) => Except.ok (some r)
      | Except.ok none => extract_recipe_from_schema_org rest url

/-- `extract_recipe_from_microdata` (url_recipe_parser.py lines 962-966) is
a placeholder that always returns `None`. -/
def extract_recipe_from_microdata (_html _url : Str) : Option ParsedRecipe := none

/-- DOM-derived inputs of `extract_recipe_heuristic` (url_recipe_parser.py
lines 969-1018), read through BeautifulSoup: the text of the `h1`/`title`
tag when one exists, whether a content container was found, the `li` texts
of each candidate `ul`/`ol` list, the raw step strings collected from the
instruction-heading sibling or the first ordered list (the value of
`steps` reaching line 1013), and the container text fed to the servings
scan. -/
structure HeuristicDoc where
  title_text : Option Str
  has_container : Bool
  list_items : List (List Str)
  steps_raw : List Str
  container_text : Str
deriving Repr, DecidableEq

/-- A regex word character (`\w`, ASCII part); the embedding treats
non-ASCII letters as non-word characters. -/
def isWordChar (c : Char) : Bool := isAsciiAlpha c || isDigit10 c || c = '_'

/-- The unit alternation of the ingredient-likeness regex
(url_recipe_parser.py line 992). -/
def ingredientUnitWords : List Str :=
  ["cup".toList, "tsp".toList, "tbsp".toList, "tablespoon".toList,
   "teaspoon".toList, "ounce".toList, "gram".toList, "kg".toList,
   "ml".toList, "l".toList]

/-- Does a word of the alternation match at the head of `s` with word
boundaries on both sides (the previous character being a word character is
passed in)? -/
def hasWordAt (prevIsWord : Bool) (s : Str) (w : Str) : Bool :=
  !prevIsWord && startsWithStr s w &&
    (match s.drop w.length with
     | [] => true
     | c :: _ => !isWordChar c)

/-- Scan for `\b(cup|tsp|...)\b` anywhere in the (lowercased) item. -/
def searchUnitWordGo (prev : Option Char) : Str → Bool
  | [] => false
  | c :: rest =>
      let prevW := match prev with
        | some p => isWordChar p
        | none => false
      ingredientUnitWords.any (hasWordAt prevW (c :: rest)) ||
        searchUnitWordGo (some c) rest

/-- One item of the ingredient-likeness count (url_recipe_parser.py lines
989-993): `re.search(r"\d|\b(cup|...)\b", item, flags=re.I)`. -/
def ingredientLikeItem (item : Str) : Bool :=
  item.any isDigit10 || searchUnitWordGo none (pyLower item)

/-- The best-ingredient-list loop (url_recipe_parser.py lines 985-996):
first candidate list with at least two items and enough matching items. -/
def bestIngredients : List (List Str) → List Str
  | [] => []
  | items :: rest =>
      if items.length < 2 then bestIngredients rest
      else if max 2 (items.length / 2) ≤ (items.filter ingredientLikeItem).length
      then items
      else bestIngredients rest

/-- Embedding of `extract_recipe_heuristic` (url_recipe_parser.py lines
969-1018) over the DOM oracle: the title is cleaned when a tag exists, the
candidate lists are scored, the raw steps are cleaned and filtered, and a
recipe is returned only when title, ingredients and steps are all
non-empty. -/
def extract_recipe_heuristic (doc : HeuristicDoc) (url : Str) : Option ParsedRecipe :=
  let title : Option Str := doc.title_text.map clean_text
  if doc.has_container = false then none
  else
    let best := bestIngredients doc.list_items
    let ingredients : List ParsedIngredient :=
      (best.filter (fun i => clean_text i ≠ [])).map
        (fun i => { text := clean_text i })
    let steps := (doc.steps_raw.map clean_text).filter (fun s => s ≠ [])
    let servings := _parse_servings_from_text doc.container_text
    match title with
    | some t =>
        if t ≠ [] ∧ ingredients ≠ [] ∧ steps ≠ [] then
          some { title := t, source_url := some url, ingredients := ingredients,
                 steps := steps, servings := servings }
        else none
    | none => none

/-- The nested `split_qty_tokens` of `_clean_parsed_ingredients`
(url_recipe_parser.py lines 294-311): numeric tokens are those before the
first recognized unit token, which becomes the unit. -/
def split_qty_tokens (qty : Str) : Option Str × Option Str :=
  if qty = [] then (none, none)
  else
    let tokens := wsTokens qty
    let numeric_tokens := tokens.takeWhile (fun t => is_known_unit t = false)
    let unit_token := (tokens.dropWhile (fun t => is_known_unit t = false)).head?
    let qd := if numeric_tokens = [] then none
              else normalize_fraction_display (some (joinSp numeric_tokens))
    (qd, unit_token)

/-- The nested `split_from_text` of `_clean_parsed_ingredients`
(url_recipe_parser.py lines 313-329): quantity+unit+name (accepted only
for a recognized unit), then quantity+name, else the cleaned text
unchanged — the name groups are cleaned with `_clean_text`, not
`clean_name`. -/
def split_from_text (text : Str) : Option Str × Option Str × Str :=
  let raw := clean_text text
  if raw = [] then (none, none, raw)
  else
    let viaUnit : Option (Option Str × Option Str × Str) :=
      match matchQuantityUnit raw with
      | some (g1, g2, g3) =>
          let qd := normalize_fraction_display (some (clean_text g1))
          let unit := clean_text g2
          let name := clean_text g3
          if is_known_unit unit then some (qd, some unit, name) else none
      | none => none
    match viaUnit with
    | some r => r
    | none =>
        match matchQuantityOnly raw with
        | some (g1, g2) =>
            (normalize_fraction_display (some (clean_text g1)), none, clean_text g2)
        | none => (none, none, raw)

/-- The per-ingredient body of `_clean_parsed_ingredients`
(url_recipe_parser.py lines 331-358). -/
def cleanOneIngredient (ing : ParsedIngredient) : ParsedIngredient :=
  let qty0 := normalize_fraction_display ing.quantity_display
  let unit0 : Option Str :=
    if optTruthy ing.unit then some (clean_text (ing.unit.getD [])) else none
  let name0 := clean_text ing.text
  let sft := split_from_text name0
  let qd2 := sft.1
  let unit2 := sft.2.1
  let name2 := sft.2.2
  let qty1 := if optTruthy qd2 ∧ optTruthy qty0 = false then qd2 else qty0
  let unit1 := if optTruthy unit2 ∧ optTruthy unit0 = false then unit2 else unit0
  let name1 := if name2 ≠ [] then name2 else name0
  let step2 : Option Str × Option Str :=
    if optTruthy qty1 ∧ optTruthy unit1 = false then
      let sq := split_qty_tokens (qty1.getD [])
      let unitNew := if optTruthy sq.2 ∧ is_known_unit (sq.2.getD []) then sq.2 else unit1
      let qtyNew := if optTruthy sq.1 then sq.1 else qty1
      (qtyNew, unitNew)
    else (qty1, unit1)
  let qty2 := step2.1
  let unit3 := step2.2
  let qty3 :=
    if optTruthy qty2 ∧ optTruthy unit3 then
      let unit_norm := normalize_unit_token (unit3.getD [])
      let tokens := (wsTokens (qty2.getD [])).filter
        (fun t => normalize_unit_token t ≠ unit_norm)
      match normalize_fraction_display (some (joinSp tokens)) with
      | some s => if s ≠ [] then some s else qty2
      | none => qty2
    else qty2
  { text := name1, quantity_display := qty3, unit := unit3 }

/-- Embedding of `_clean_parsed_ingredients` (url_recipe_parser.py lines
287-359): one output ingredient is appended per input ingredient. -/
def _clean_parsed_ingredients (items : List ParsedIngredient) : List ParsedIngredient :=
  items.map cleanOneIngredient

/-- Pydantic validation of an optional-string field (`Optional[str]`):
null is `None`, a string is itself, anything else fails. -/
def validateOptStr : Json → Option (Option Str)
  | Json.null => some none
  | Json.str s => some (some s)
  | _ => none

/-- Pydantic lax coercion into an `int` field: an integer, an integral
float, or a stripped (optionally signed) digit string. -/
def coerceInt : Json → Option Int
  | Json.num n => some n
  | Json.rat q => if q.den = 1 then some q.num else none
  | Json.str s =>
      let t := pyStrip s
      match t with
      | '-' :: ds =>
          if ds ≠ [] ∧ ds.all isDigit10 then some (-(charsToNat ds : Int)) else none
      | '+' :: ds =>
          if ds ≠ [] ∧ ds.all isDigit10 then some ((charsToNat ds : Int)) else none
      | ds => if ds ≠ [] ∧ ds.all isDigit10 then some ((charsToNat ds : Int)) else none
  | _ => none

/-- Pydantic validation of a `List[str]` field. -/
def validateStrList : Json → Option (List Str)
  | Json.arr xs => xs.mapM (fun v =>
      match v with
      | Json.str s => some s
      | _ => none)
  | _ => none

/-- Pydantic validation of one `ParsedIngredient` from a JSON value. -/
def validateIngredient (j : Json) : Option ParsedIngredient :=
  match j with
  | Json.obj _ => do
      let text ← match j.getOpt ("text".toList) with
        | some (Json.str s) => some s
        | _ => none
      let qd ← match j.getOpt ("quantity_display".toList) with
        | none => some none
        | some v => validateOptStr v
      let unit ← match j.getOpt ("unit".toList) with
        | none => some none
        | some v => validateOptStr v
      pure { text := text, quantity_display := qd, unit := unit }
  | _ => none

/-- Pydantic validation `ParsedRecipe(**parsed_json)` (url_recipe_parser.py
line 1354): required string title, optional strings, defaulted lists, lax
integer fields; extra keys are ignored, an absent optional field takes its
default while an explicit null must be allowed by the annotation. -/
def validateParsedRecipe (j : Json) : Option ParsedRecipe :=
  match j with
  | Json.obj _ => do
      let title ← match j.getOpt ("title".toList) with
        | some (Json.str s) => some s
        | _ => none
      let description ← match j.getOpt ("description".toList) with
        | none => some none
        | some v => validateOptStr v
      let source_url ← match j.getOpt ("source_url".toList) with
        | none => some none
        | some v => validateOptStr v
      let image_url ← match j.getOpt ("image_url".toList) with
        | none => some none
        | some v => validateOptStr v
      let tags ← match j.getOpt ("tags".toList) with
        | none => some ([] : List Str)
        | some v => validateStrList v
      let servings ← match j.getOpt ("servings".toList) with
        | none => some none
        | some Json.null => some none
        | some v => (coerceInt v).map some
      let etm ← match j.getOpt ("estimated_time_minutes".toList) with
        | none => some none
        | some Json.null => some none
        | some v => (coerceInt v).map some
      let ingredients ← match j.getOpt ("ingredients".toList) with
        | none => some ([] : List ParsedIngredient)
        | some (Json.arr xs) => xs.mapM validateIngredient
        | some _ => none
      let steps ← match j.getOpt ("steps".toList) with
        | none => some ([] : List Str)
        | some v => validateStrList v
      let notes ← match j.getOpt ("notes".toList) with
        | none => some ([] : List Str)
        | some v => validateStrList v
      pure { title := title, description := description, source_url := source_url,
             image_url := image_url, tags := tags, servings := servings,
             estimated_time_minutes := etm, ingredients := ingredients,
             steps := steps, notes := notes }
  | _ => none

/-- The notes normalization before validation (url_recipe_parser.py lines
1352-1353): `if parsed_json.get("notes") is None: parsed_json["notes"] = []`
(Python `dict.get` conflates an absent key with an explicit null). -/
def llmNormalizeNotes (j : Json) : Json :=
  match j with
  | Json.obj fs =>
      match (Json.obj fs).getOpt ("notes".toList) with
      | none => Json.obj (fs ++ [("notes".toList, Json.arr [])])
      | some Json.null =>
          Json.obj (fs.map (fun p =>
            if p.1 = "notes".toList then (p.1, Json.arr []) else p))
      | some _ => Json.obj fs
  | _ => j

/-- Outcome of the HTTP/model/JSON-repair chain of `extract_recipe_via_llm`
(a collaborator): the parsed JSON value reaching line 1351, or one of the
exception kinds the orchestrator handles. -/
inductive LlmOutcome where
  | content (parsed_json : Json)
  | valueError (msg : Str)
  | timeout (msg : Str)
  | jsonDecodeError
  | otherError (msg : Str)
deriving Repr

/-- The deterministic tail of `extract_recipe_via_llm`
(url_recipe_parser.py lines 1351-1357) applied to the collaborator
outcome: notes normalization, `ParsedRecipe(**parsed_json)` (an
`AttributeError` when the parsed value is not a dict, a pydantic
`ValidationError` — whose message reports field errors, not the
encoding/corruption wording — on a failing validation), and the
source-url default. -/
def extract_recipe_via_llm (outcome : LlmOutcome) (url : Str) :
    Except PyExn ParsedRecipe :=
  match outcome with
  | LlmOutcome.valueError msg => Except.error (PyExn.valueError msg)
  | LlmOutcome.timeout msg => Except.error (PyExn.timeout msg)
  | LlmOutcome.jsonDecodeError => Except.error PyExn.jsonDecodeError
  | LlmOutcome.otherError msg => Except.error (PyExn.otherError msg)
  | LlmOutcome.content parsed_json =>
      match parsed_json with
      | Json.obj fs =>
          match validateParsedRecipe (llmNormalizeNotes (Json.obj fs)) with
          | none => Except.error PyExn.validationError
          | some parsed_recipe =>
              if optTruthy parsed_recipe.source_url then Except.ok parsed_recipe
              else Except.ok { parsed_recipe with source_url := some url }
      | other =>
          Except.error (PyExn.attributeError
            ('\'' :: pyTypeName other ++ "' object has no attribute 'get'".toList))

/-- Outcome of `fetch_html` (a network collaborator): the fetched document
(whose JSON-LD blocks and DOM structure the downstream oracles describe),
or one of the exceptions `parse_recipe_from_url` handles (lines
1389-1427). -/
inductive FetchOutcome where
  | ok (html : Str)
  | valueError (msg : Str)
  | httpStatusError (status : Option Nat)
  | httpError (msg : Str)
deriving Repr, DecidableEq

/-- The collaborator inputs of one `parse_recipe_from_url` run: the fetch
outcome, the JSON-LD script blocks of the fetched document, the DOM
structure the heuristic pass reads, and the LLM chain outcome. -/
structure UrlParseEnv where
  fetch : FetchOutcome
  scripts : List (Option Json)
  doc : HeuristicDoc
  llm : LlmOutcome

/-- The encoding-error test on a fetch `ValueError` (url_recipe_parser.py
line 1392). -/
def fetchEncodingWorded (msg : Str) : Bool :=
  strContains (pyLower msg) ("encoding".toList) ||
    strContains (pyLower msg) ("corrupted".toList) ||
    strContains (pyLower msg) ("invalid encoding".toList)

/-- The encoding-error test on an LLM-path `ValueError`
(url_recipe_parser.py line 1453). -/
def llmEncodingWorded (msg : Str) : Bool :=
  strContains (pyLower msg) ("corrupted".toList) ||
    strContains (pyLower msg) ("encoding".toList)

/-- Embedding of `parse_recipe_from_url` (url_recipe_parser.py lines
1385-1497): fetch-error classification, then the fixed first-match-wins
strategy chain schema.org JSON-LD → microdata → heuristic → (when the
caller opted in) LLM fallback with its exception handling; an
`Except.error` is an exception escaping the endpoint (a `TypeError` from
an extractor, or a re-raised non-encoding `ValueError` of the LLM path). -/
def parse_recipe_from_url (env : UrlParseEnv) (url : Str) (use_llm_fallback : Bool) :
    Except PyExn ParseResult :=
  match env.fetch with
  | FetchOutcome.valueError msg =>
      if fetchEncodingWorded msg then
        Except.ok { success := false, error_code := some ("fetch_failed".toList),
                    error_message := some msg,
                    warnings := ["encoding_error".toList],
                    next_action := some ("webview_extract".toList),
                    next_action_reason := some ("encoding_error".toList) }
      else
        Except.ok { success := false, error_code := some ("invalid_url".toList),
                    error_message := some msg, warnings := [] }
  | FetchOutcome.httpStatusError status =>
      Except.ok { success := false, error_code := some ("fetch_failed".toList),
                  error_message := some (("status_".toList) ++
                    (match status with
                     | some c => natToCharsC c
                     | none => "unknown".toList)),
                  warnings := [if status = some 403 then "blocked_by_site".toList
                               else "fetch_http_error".toList] }
  | FetchOutcome.httpError msg =>
      Except.ok { success := false, error_code := some ("fetch_failed".toList),
                  error_message := some msg,
                  warnings := ["fetch_http_error".toList] }
  | FetchOutcome.ok html =>
      match extract_recipe_from_schema_org env.scripts url with
      | Except.error e => Except.error e
      | Except.ok (some parsed) =>
          Except.ok { success := true,
                      recipe := some { parsed with
                        ingredients := _clean_parsed_ingredients parsed.ingredients },
                      used_llm := false,
                      parser_strategy := some ("schema_org_json_ld".toList),
                      warnings := [] }
      | Except.ok none =>
          match extract_recipe_from_microdata html url with
          | some parsed =>
              Except.ok { success := true,
                          recipe := some { parsed with
                            ingredients := _clean_parsed_ingredients parsed.ingredients },
                          used_llm := false,
                          parser_strategy := some ("microdata".toList),
                          warnings := [] }
          | none =>
              match extract_recipe_heuristic env.doc url with
              | some parsed =>
                  Except.ok { success := true,
                              recipe := some { parsed with
                                ingredients := _clean_parsed_ingredients parsed.ingredients },
                              used_llm := false,
                              parser_strategy := some ("heuristic".toList),
                              warnings := [] }
              | none =>
                  if use_llm_fallback then
                    match extract_recipe_via_llm env.llm url with
                    | Except.ok parsed =>
                        Except.ok { success := true,
                                    recipe := some { parsed with
                                      ingredients :=
                                        _clean_parsed_ingredients parsed.ingredients },
                                    used_llm := true,
                                    parser_strategy := some ("llm_fallback".toList),
                                    warnings :=
                                      ["LLM fallback used; please verify ingredients.".toList] }
                    | Except.error (PyExn.valueError msg) =>
                        if llmEncodingWorded msg then
                          Except.ok { success := false,
                                      error_code := some ("fetch_failed".toList),
                                      error_message := some msg,
                                      warnings := ["encoding_error".toList],
                                      next_action := some ("webview_extract".toList),
                                      next_action_reason := some ("encoding_error".toList) }
                        else Except.error (PyExn.valueError msg)
                    | Except.error PyExn.validationError =>
                        Except.error PyExn.validationError
                    | Except.error (PyExn.timeout msg) =>
                        Except.ok { success := false, used_llm := true,
                                    parser_strategy := some ("llm_fallback".toList),
                                    error_code := some ("llm_timeout".toList),
                                    error_message := some msg, warnings := [] }
                    | Except.error PyExn.jsonDecodeError =>
                        Except.ok { success := false, used_llm := true,
                                    parser_strategy := some ("llm_fallback".toList),
                                    error_code := some ("llm_failed".toList),
                                    error_message := some ("Invalid JSON from LLM".toList),
                                    warnings := [] }
                    | Except.error (PyExn.attributeError msg) =>
                        Except.ok { success := false, used_llm := true,
                                    parser_strategy := some ("llm_fallback".toList),
                                    error_code := some ("llm_failed".toList),
                                    error_message := some msg, warnings := [] }
                    | Except.error (PyExn.typeError msg) =>
                        Except.ok { success := false, used_llm := true,
                                    parser_strategy := some ("llm_fallback".toList),
                                    error_code := some ("llm_failed".toList),
                                    error_message := some msg, warnings := [] }
                    | Except.error (PyExn.otherError msg) =>
                        Except.ok { success := false, used_llm := true,
                                    parser_strategy := some ("llm_fallback".toList),
                                    error_code := some ("llm_failed".toList),
                                    error_message := some msg, warnings := [] }
                  else
                    Except.ok { success := false,
                                error_code := some ("parse_failed".toList),
                                error_message := some ("Unable to parse recipe".toList),
                                warnings := [] }

/-! ### The OCR-completion worker (queue_worker.py `_process_ocr_completed`,
schemas/ingestion.py `RecipeDraft`) -/

/-- Embedding of `RecipeDraftIngredient` (schemas/ingestion.py lines 6-10). -/
structure RecipeDraftIngredient where
  name : Str
  quantity : Option Str := none
  unit : Option Str := none
  notes : Option Str := none
deriving Repr, DecidableEq

/-- Embedding of `RecipeDraftSource` (schemas/ingestion.py lines 13-16). -/
structure RecipeDraftSource where
  type : Str := "image".toList
  original_filename : Option Str := none
  ocr_tier_used : Option Int := none
deriving Repr, DecidableEq

/-- Embedding of `RecipeDraft` (schemas/ingestion.py lines 19-29). -/
structure RecipeDraft where
  title : Str
  description : Option Str := none
  ingredients : List RecipeDraftIngredient
  steps : List Str
  prep_time_minutes : Int := 0
  cook_time_minutes : Int := 0
  total_time_minutes : Int := 0
  servings : Option Str := none
  tags : List Str := []
  source : RecipeDraftSource
deriving Repr, DecidableEq

/-- Embedding of `RecipeDraft.validate_minimums` (schemas/ingestion.py lines
31-37): the message of the `ValueError` it raises, or `none` when the draft
passes. -/
def validate_minimums (d : RecipeDraft) : Option Str :=
  if d.title = [] ∨ d.title.length < 3 then some ("title too short".toList)
  else if d.ingredients.length < 3 then some ("not enough ingredients".toList)
  else if d.steps.length < 2 then some ("not enough steps".toList)
  else none

/-- Modelled from the spec: `parse_job_service.is_canceled`, which the
worker calls at queue_worker.py lines 233, 302 and 356, is not among the
files of the snapshot (src/jarvis_recipes/app/services/parse_job_service.py
does not define it); the spec describes the check as observing CANCELED on
a freshly-read job status, so the embedding takes the status returned by
the `db.refresh(job)` read. -/
def is_canceled (status : JobStatus) : Bool := status = JobStatus.CANCELED

/-- Python integer rendering with sign. -/
def intToChars : Int → Str
  | Int.ofNat n => natToCharsC n
  | Int.negSucc n => '-' :: natToCharsC (n + 1)

/-- An opening brace character (`Char.ofNat 123`). -/
def braceL : Char := Char.ofNat 123

/-- A closing brace character (`Char.ofNat 125`). -/
def braceR : Char := Char.ofNat 125

/-- Join with a separator (Python `sep.join` over strings). -/
def joinWith (sep : Str) : List Str → Str
  | [] => []
  | [s] => s
  | s :: rest => s ++ sep ++ joinWith sep rest

mutual
/-- Python `repr` of a decoded JSON value (used through `str()` in the
error f-strings at queue_worker.py line 207): exact for the scalar cases
that can reach those strings; containers render structurally (string
escaping corners are not modelled) and a rational stands for a float whose
repr is not modelled (no float reaches `str()` on these paths). -/
def pyReprJson : Json → Str
  | Json.null => "None".toList
  | Json.bool true => "True".toList
  | Json.bool false => "False".toList
  | Json.num n => intToChars n
  | Json.rat q => intToChars q.num ++ '/' :: natToCharsC q.den
  | Json.str s => '\'' :: s ++ ['\'']
  | Json.arr xs => '[' :: joinWith (", ".toList) (pyReprJsonList xs) ++ [']']
  | Json.obj fs => braceL :: joinWith (", ".toList) (pyReprJsonFields fs) ++ [braceR]

/-- `repr` of the elements of a list. -/
def pyReprJsonList : List Json → List Str
  | [] => []
  | j :: rest => pyReprJson j :: pyReprJsonList rest

/-- `repr` of the entries of a dict. -/
def pyReprJsonFields : List (Str × Json) → List Str
  | [] => []
  | (k, v) :: rest =>
      ('\'' :: k ++ "': ".toList ++ pyReprJson v) :: pyReprJsonFields rest
end

/-- Python `str()` of a decoded JSON value: the string itself, `repr`
otherwise. -/
def pyStrJson : Json → Str
  | Json.str s => s
  | j => pyReprJson j

/-- `str(exc)` of an embedded exception (the blank cases carry messages the
embedding does not model and are unreachable on the worker paths). -/
def pyExnStr : PyExn → Str
  | PyExn.typeError m => m
  | PyExn.attributeError m => m
  | PyExn.valueError m => m
  | PyExn.validationError => []
  | PyExn.timeout m => m
  | PyExn.jsonDecodeError => []
  | PyExn.otherError m => m

/-- `d.get(k)` raising `AttributeError` on a non-dict, as Python does. -/
def jGetExn (j : Json) (k : Str) : Except PyExn Json :=
  match j with
  | Json.obj _ => Except.ok (j.get k)
  | _ => Except.error (PyExn.attributeError
      ('\'' :: pyTypeName j ++ "' object has no attribute 'get'".toList))

/-- `d.get(k, default)` on a dict (the call sites guarantee a dict). -/
def jGetD (j : Json) (k : Str) (d : Json) : Json :=
  match j with
  | Json.obj _ =>
      match j.getOpt k with
      | some v => v
      | none => d
  | _ => d

/-- `d.get(k, default)` raising `AttributeError` on a non-dict. -/
def jGetDExn (j : Json) (k : Str) (d : Json) : Except PyExn Json :=
  match j with
  | Json.obj _ => Except.ok (jGetD j k d)
  | _ => Except.error (PyExn.attributeError
      ('\'' :: pyTypeName j ++ "' object has no attribute 'get'".toList))

/-- A JSON value as an exact rational, for the numeric types `sum()`
accepts (booleans are ints in Python). -/
def jsonToQ : Json → Option ℚ
  | Json.num n => some (n : ℚ)
  | Json.rat q => some q
  | Json.bool b => some (if b then 1 else 0)
  | _ => none

/-- The sort key of one OCR result (`r.get("index", 0)`, queue_worker.py
line 181): a non-dict entry raises `AttributeError` when the key function
is applied, and a non-integer key raises `TypeError` when compared (keys
that are uniformly of one non-integer orderable type would sort in Python;
the OCR payload schema fixes `index` to an integer, and the embedding
treats that corner as the heterogeneous case). -/
def ocrSortKey (r : Json) : Except PyExn Int :=
  match r with
  | Json.obj _ =>
      match jGetD r ("index".toList) (Json.num 0) with
      | Json.num n => Except.ok n
      | Json.bool b => Except.ok (if b then 1 else 0)
      | j => Except.error (PyExn.typeError
          ("'<' not supported between instances of '".toList ++
            pyTypeName j ++ "' and 'int'".toList))
  | j => Except.error (PyExn.attributeError
      ('\'' :: pyTypeName j ++ "' object has no attribute 'get'".toList))

/-- Decorate each result with its sort key (Python computes every key, in
order, before sorting). -/
def ocrKeyedList : List Json → Except PyExn (List (Int × Json))
  | [] => Except.ok []
  | r :: rest =>
      match ocrSortKey r with
      | Except.error e => Except.error e
      | Except.ok key =>
          match ocrKeyedList rest with
          | Except.error e => Except.error e
          | Except.ok tail => Except.ok ((key, r) :: tail)

/-- Insert after every element with a key not above the new key. -/
def insertByKey (x : Int × Json) : List (Int × Json) → List (Int × Json)
  | [] => [x]
  | y :: rest => if y.1 ≤ x.1 then y :: insertByKey x rest else x :: y :: rest

/-- Stable ascending sort by key: elements are inserted left to right after
all earlier elements with a key ≤ theirs, which is exactly the stable order
Python's `sorted` produces. -/
def sortByKey (xs : List (Int × Json)) : List (Int × Json) :=
  xs.foldl (fun acc x => insertByKey x acc) []

/-- `sorted(results, key=lambda r: r.get("index", 0))` (queue_worker.py
line 181); a single element is never compared, so only the dict check
applies to it. -/
def sortedResults (rs : List Json) : Except PyExn (List Json) :=
  match rs with
  | [] => Except.ok []
  | [r] =>
      match r with
      | Json.obj _ => Except.ok [r]
      | j => Except.error (PyExn.attributeError
          ('\'' :: pyTypeName j ++ "' object has no attribute 'get'".toList))
  | _ =>
      match ocrKeyedList rs with
      | Except.error e => Except.error e
      | Except.ok ks => Except.ok ((sortByKey ks).map Prod.snd)

/-- A per-image failure record (queue_worker.py lines 190-193). -/
structure ImageFailure where
  index : Json
  error : Json

/-- The partition loop over the sorted results (queue_worker.py lines
184-203): an entry whose `error` is truthy with a truthy `code` is a
failure, every other entry a success; a truthy non-dict `error` raises. -/
def perImagePartition : List Json → List Json → List ImageFailure →
    Except PyExn (List Json × List ImageFailure)
  | [], succ, failed => Except.ok (succ, failed)
  | result :: rest, succ, failed =>
      let result_error := result.get ("error".toList)
      if result_error.truthy then
        match result_error with
        | Json.obj _ =>
            if (result_error.get ("code".toList)).truthy then
              perImagePartition rest succ
                (failed ++ [⟨jGetD result ("index".toList) (Json.num (-1)), result_error⟩])
            else perImagePartition rest (succ ++ [result]) failed
        | j => Except.error (PyExn.attributeError
            ('\'' :: pyTypeName j ++ "' object has no attribute 'get'".toList))
      else perImagePartition rest (succ ++ [result]) failed

/-- `f"Image {r['index']}: {r['error'].get('message', 'Unknown error')}"`
(queue_worker.py line 207). -/
def imageFailureMsg (f : ImageFailure) : Str :=
  "Image ".toList ++ pyStrJson f.index ++ ": ".toList ++
    pyStrJson (jGetD f.error ("message".toList) (Json.str "Unknown error".toList))

/-- The error code of the all-images-failed branch (queue_worker.py line
208). -/
def allFailedCode (failed : List ImageFailure) : Json :=
  match failed.head? with
  | some f => jGetD f.error ("code".toList) (Json.str "ocr_all_images_failed".toList)
  | none => Json.str "ocr_all_images_failed".toList

/-- The message of the all-images-failed branch (queue_worker.py line
209). -/
def allFailedMsg (failed : List ImageFailure) : Str :=
  "All images failed OCR: ".toList ++
    joinWith ("; ".toList) (failed.map imageFailureMsg)

/-- The truthy `ocr_text` values of the successful results (queue_worker.py
lines 223-228). -/
def ocrTextsOf (succ : List Json) : List Json :=
  (succ.map (fun r => jGetD r ("ocr_text".toList) (Json.str []))).filter Json.truthy

/-- The `meta` dicts of the successful results (queue_worker.py line
229). -/
def allMetasOf (succ : List Json) : List Json :=
  succ.map (fun r => jGetD r ("meta".toList) (Json.obj []))

/-- `"\n\n".join(ocr_texts)` over the collected values (queue_worker.py
line 238): every element must be a string. -/
def joinNNStrs : Nat → List Json → Except PyExn (List Str)
  | _, [] => Except.ok []
  | i, Json.str s :: rest =>
      match joinNNStrs (i + 1) rest with
      | Except.error e => Except.error e
      | Except.ok tail => Except.ok (s :: tail)
  | i, j :: _ => Except.error (PyExn.typeError
      ("sequence item ".toList ++ natToCharsC i ++ ": expected str instance, ".toList ++
        pyTypeName j ++ " found".toList))

/-- `"\n\n".join(ocr_texts)`. -/
def joinNN (xs : List Json) : Except PyExn Str :=
  match joinNNStrs 0 xs with
  | Except.error e => Except.error e
  | Except.ok ss => Except.ok (joinWith ("\n\n".toList) ss)

/-- The confidence values of the successful metas (queue_worker.py line
248): present non-null `confidence` entries, as exact rationals; a
non-dict meta raises `AttributeError` and a non-numeric value makes the
`sum()` raise (the embedding raises at the value rather than after the
comprehension, which only reorders raising paths). -/
def confidencesOf : List Json → Except PyExn (List ℚ)
  | [] => Except.ok []
  | meta :: rest =>
      match meta with
      | Json.obj _ =>
          match meta.get ("confidence".toList) with
          | Json.null => confidencesOf rest
          | c =>
              match jsonToQ c with
              | some q =>
                  match confidencesOf rest with
                  | Except.error e => Except.error e
                  | Except.ok tail => Except.ok (q :: tail)
              | none => Except.error (PyExn.typeError
                  ("unsupported operand type(s) for +: 'float' and '".toList ++
                    pyTypeName c ++ ['\'']))
      | j => Except.error (PyExn.attributeError
          ('\'' :: pyTypeName j ++ "' object has no attribute 'get'".toList))

/-- `sum(confidences) / len(confidences) if confidences else None`
(queue_worker.py line 249), the float mean as an exact rational. -/
def meanOf (qs : List ℚ) : Option ℚ :=
  if qs.isEmpty then none else some (qs.sum / (qs.length : ℚ))

/-- `all_metas[0].get("tier", "unknown") if all_metas else "unknown"`
(queue_worker.py line 252). -/
def tierOf (all_metas : List Json) : Except PyExn Json :=
  match all_metas with
  | [] => Except.ok (Json.str "unknown".toList)
  | m :: _ => jGetDExn m ("tier".toList) (Json.str "unknown".toList)

/-- `job.job_data or {}` (queue_worker.py line 255). -/
def jobDataOf (job : Job) : Json :=
  match job.job_data with
  | some j => jor j (Json.obj [])
  | none => Json.obj []

/-- The dict `score_quality` returns (ocr_quality.py lines 56-68), as the
worker stores it under `"metrics"`; the float ratios are exact rationals. -/
def qualityResultJson (qr : QualityResult) : Json :=
  Json.obj
    [("char_count".toList, Json.num qr.char_count),
     ("line_count".toList, Json.num qr.line_count),
     ("hard_fail".toList, Json.bool qr.hard_fail),
     ("gibberish".toList, Json.bool qr.gibberish),
     ("alpha_ratio".toList, Json.rat
        (if qr.flags.total_chars = 0 then 0
         else (qr.flags.alpha_chars : ℚ) / (qr.flags.total_chars : ℚ))),
     ("vowel_ratio".toList, Json.rat ((qr.flags.vowels : ℚ) / (qr.flags.token_chars : ℚ))),
     ("token_count".toList, Json.num qr.flags.token_count),
     ("vowelful_tokens".toList, Json.num qr.flags.vowelful_tokens),
     ("score".toList, Json.num qr.score),
     ("pass_gate".toList, Json.bool qr.pass_gate),
     ("warnings".toList, Json.arr [])]

/-- The quality-gate failure message (queue_worker.py line 285). -/
def qualityFailMsg (qr : QualityResult) : Str :=
  "OCR quality insufficient: char_count=".toList ++ natToCharsC qr.char_count ++
    ", gibberish=".toList ++ (if qr.gibberish then "True".toList else "False".toList)

/-- The `per_image_errors` entry of the success pipeline (queue_worker.py
lines 399-402). -/
def perImageErrorsJson (failed : List ImageFailure) : Json :=
  if failed.isEmpty then Json.null
  else Json.arr (failed.map (fun f => Json.obj
    [("index".toList, f.index),
     ("code".toList, f.error.get ("code".toList)),
     ("message".toList, f.error.get ("message".toList))]))

/-- The success `pipeline_json` (queue_worker.py lines 390-405). -/
def successPipelineJson (qr : QualityResult) (tier : Json)
    (results_len succ_len failed_len : Nat) (failed : List ImageFailure) : Json :=
  Json.obj
    [("attempts".toList, Json.arr [Json.obj
       [("tier".toList, Json.num 1),
        ("status".toList, Json.str "success".toList),
        ("metrics".toList, qualityResultJson qr),
        ("provider".toList, tier),
        ("image_count".toList, Json.num results_len),
        ("successful_images".toList, Json.num succ_len),
        ("failed_images".toList, Json.num failed_len),
        ("per_image_errors".toList, perImageErrorsJson failed)]]),
     ("selected_tier".toList, Json.num 1)]

/-- Pydantic `model_dump` of one draft ingredient. -/
def recipeDraftIngredientJson (i : RecipeDraftIngredient) : Json :=
  Json.obj [("name".toList, Json.str i.name),
            ("quantity".toList, optStrJson i.quantity),
            ("unit".toList, optStrJson i.unit),
            ("notes".toList, optStrJson i.notes)]

/-- Pydantic `model_dump` of a draft source. -/
def recipeDraftSourceJson (s : RecipeDraftSource) : Json :=
  Json.obj [("type".toList, Json.str s.type),
            ("original_filename".toList, optStrJson s.original_filename),
            ("ocr_tier_used".toList, optIntJson s.ocr_tier_used)]

/-- Pydantic `model_dump` of a `RecipeDraft` (queue_worker.py lines 416,
424). -/
def recipeDraftToJson (d : RecipeDraft) : Json :=
  Json.obj [("title".toList, Json.str d.title),
            ("description".toList, optStrJson d.description),
            ("ingredients".toList, Json.arr (d.ingredients.map recipeDraftIngredientJson)),
            ("steps".toList, Json.arr (d.steps.map Json.str)),
            ("prep_time_minutes".toList, Json.num d.prep_time_minutes),
            ("cook_time_minutes".toList, Json.num d.cook_time_minutes),
            ("total_time_minutes".toList, Json.num d.total_time_minutes),
            ("servings".toList, optStrJson d.servings),
            ("tags".toList, Json.arr (d.tags.map Json.str)),
            ("source".toList, recipeDraftSourceJson d.source)]

/-- The unit vocabulary of the draft cleanup trigger (queue_worker.py line
338). -/
def ocrCommonUnits : List Str :=
  ["cup".toList, "cups".toList, "tsp".toList, "teaspoon".toList,
   "tbsp".toList, "tablespoon".toList, "oz".toList, "ounce".toList,
   "lb".toList, "pound".toList, "g".toList, "gram".toList, "kg".toList,
   "ml".toList, "liter".toList, "clove".toList, "cloves".toList]

/-- One ingredient of the cleanup-trigger loop (queue_worker.py lines
335-347): a common unit inside the name with no unit field, or a combined
ingredient (an `" and "` or a comma inside the name). -/
def draftNameIssue (ing : RecipeDraftIngredient) : Bool :=
  let name_lower := if ing.name ≠ [] then pyLower ing.name else []
  (ocrCommonUnits.any (fun u => strContains name_lower u) ∧ optTruthy ing.unit = false) ∨
    (strContains name_lower (" and ".toList) ∨
      (strContains name_lower (",".toList) ∧ 1 < (splitComma name_lower).length))

/-- The collaborator inputs of one `_process_ocr_completed` run: the OCR
payload, the job statuses returned by the three `db.refresh(job)` reads
(lines 232, 301 and 355), the ingestion lookup, and the outcomes of the
two model collaborators `call_text_structuring` (a draft, `None`, or a
raised exception message) and `clean_and_validate_draft`. -/
structure OcrEnv where
  payload : Json
  statusRead1 : JobStatus
  statusRead2 : JobStatus
  statusRead3 : JobStatus
  ingestion_found : Bool
  structuring : Except Str (Option RecipeDraft)
  cleaning : Except Str RecipeDraft

/-- The externally visible outcome of one `_process_ocr_completed` run —
the effect log of a handler that returns `None` in the source:
`markError code msg` is a `parse_job_service.mark_error(db, job, code,
msg)` call with no ingestion update; `abortCanceled n` an early `return`
after the n-th cancellation checkpoint observed CANCELED (no model call
after checkpoint 2, no error);  `qualityFailed`, `validationFailed`,
`structuringFailed` and `structuringRaised` are the mark_error calls of
lines 287, 373, 432 and 444 together with the FAILED ingestion
`pipeline_json`; `completed` is the success path (ingestion SUCCEEDED,
mailbox publish, job COMPLETE) with the written `result_json` and
`pipeline_json`. -/
inductive OcrOutcome where
  | markError (code msg : Json)
  | abortCanceled (checkpoint : Nat)
  | qualityFailed (code msg : Str) (pipeline : Json)
  | validationFailed (msg : Str) (pipeline : Json)
  | structuringFailed (pipeline : Json)
  | structuringRaised (msg : Str) (pipeline : Json)
  | completed (result_json pipeline : Json)

/-- The tail of the draft-processing block (queue_worker.py lines
368-441): re-validate the (possibly cleaned) draft, then fail or build the
success pipeline and result payload. -/
def ocrFinish (draftF : RecipeDraft) (qr : QualityResult) (tier : Json)
    (results_len succ_len : Nat) (failed : List ImageFailure) : OcrOutcome :=
  match validate_minimums draftF with
  | some msg =>
      OcrOutcome.validationFailed msg
        (Json.obj [("attempts".toList, Json.arr [Json.obj
          [("tier".toList, Json.num 1),
           ("status".toList, Json.str "failed_validation".toList),
           ("metrics".toList, qualityResultJson qr),
           ("error".toList, Json.str msg)]])])
  | none =>
      let pipeline := successPipelineJson qr tier results_len succ_len failed.length failed
      OcrOutcome.completed
        (Json.obj [("recipe_draft".toList, recipeDraftToJson draftF),
                   ("pipeline".toList, pipeline)])
        pipeline

/-- Lines 222-453 of `_process_ocr_completed`, from the per-image
partition on: text combination, the first cancellation checkpoint,
confidence mean, ingestion lookup, quality gate, the second checkpoint,
and the text-structuring block (whose `tier_max` local is computed and
never used).  A raised exception propagates to the outer handler. -/
def ocrAfterPartition (job : Job) (env : OcrEnv) (results_len : Nat)
    (succ : List Json) (failed : List ImageFailure) : Except PyExn OcrOutcome :=
  if is_canceled env.statusRead1 then Except.ok (OcrOutcome.abortCanceled 1)
  else
    match joinNN (ocrTextsOf succ) with
    | Except.error e => Except.error e
    | Except.ok combined_text =>
        if combined_text = [] then
          Except.ok (OcrOutcome.markError (Json.str "ocr_no_text".toList)
            (Json.str ("No OCR text extracted from any successful image".toList ++
              (if failed.isEmpty then []
               else " (".toList ++ natToCharsC failed.length ++
                 " image(s) failed)".toList))))
        else
          match confidencesOf (allMetasOf succ) with
          | Except.error e => Except.error e
          | Except.ok confidences =>
              match tierOf (allMetasOf succ) with
              | Except.error e => Except.error e
              | Except.ok tier =>
                  match jGetExn (jobDataOf job) ("ingestion_id".toList) with
                  | Except.error e => Except.error e
                  | Except.ok ingestion_id =>
                      if ingestion_id.truthy = false then
                        Except.ok (OcrOutcome.markError
                          (Json.str "invalid_job_data".toList)
                          (Json.str "Missing ingestion_id in job data".toList))
                      else if env.ingestion_found = false then
                        Except.ok (OcrOutcome.markError
                          (Json.str "invalid_ingestion".toList)
                          (Json.str "Ingestion not found".toList))
                      else
                        let quality_result :=
                          score_quality combined_text (meanOf confidences)
                        if quality_result.hard_fail = true ∨
                            quality_result.pass_gate = false then
                          Except.ok (OcrOutcome.qualityFailed
                            ("quality_gate_failed".toList)
                            (qualityFailMsg quality_result)
                            (Json.obj [("attempts".toList, Json.arr [Json.obj
                              [("tier".toList, Json.num 1),
                               ("status".toList, Json.str "failed_quality".toList),
                               ("metrics".toList, qualityResultJson quality_result)]]),
                              ("error".toList,
                                Json.str (qualityFailMsg quality_result))]))
                        else if is_canceled env.statusRead2 then
                          Except.ok (OcrOutcome.abortCanceled 2)
                        else
                          match env.structuring with
                          | Except.error exc =>
                              Except.ok (OcrOutcome.structuringRaised exc
                                (Json.obj [("attempts".toList, Json.arr [Json.obj
                                  [("tier".toList, Json.num 1),
                                   ("status".toList,
                                     Json.str "failed_text_structuring".toList),
                                   ("error".toList, Json.str exc)]])]))
                          | Except.ok none =>
                              Except.ok (OcrOutcome.structuringFailed
                                (Json.obj [("attempts".toList, Json.arr [Json.obj
                                  [("tier".toList, Json.num 1),
                                   ("status".toList,
                                     Json.str "failed_text_structuring".toList),
                                   ("metrics".toList,
                                     qualityResultJson quality_result)]])]))
                          | Except.ok (some draft) =>
                              let validation_passed := validate_minimums draft = none
                              let needs_cleaning : Bool :=
                                if validation_passed = false then true
                                else draft.ingredients.any draftNameIssue ||
                                  !optTruthy draft.description
                              if needs_cleaning then
                                if is_canceled env.statusRead3 then
                                  Except.ok (OcrOutcome.abortCanceled 3)
                                else
                                  let draft2 := match env.cleaning with
                                    | Except.ok d2 => d2
                                    | Except.error _ => draft
                                  Except.ok (ocrFinish draft2 quality_result tier
                                    results_len succ.length failed)
                              else
                                Except.ok (ocrFinish draft quality_result tier
                                  results_len succ.length failed)

/-- Lines 154-211 of `_process_ocr_completed`: payload checks, the
per-image sort and partition, and the all-images-failed branch. -/
def ocrRun (job : Job) (env : OcrEnv) : Except PyExn OcrOutcome :=
  match jGetExn env.payload ("status".toList) with
  | Except.error e => Except.error e
  | Except.ok status =>
  match jGetDExn env.payload ("results".toList) (Json.arr []) with
  | Except.error e => Except.error e
  | Except.ok results =>
  match jGetExn env.payload ("error".toList) with
  | Except.error e => Except.error e
  | Except.ok perr =>
  match (if perr.truthy then
           match perr with
           | Json.obj _ =>
               Except.ok ((jor (perr.get ("code".toList))
                 (perr.get ("message".toList))).truthy)
           | j => Except.error (PyExn.attributeError
               ('\'' :: pyTypeName j ++ "' object has no attribute 'get'".toList))
         else Except.ok false) with
  | Except.error e => Except.error e
  | Except.ok has_error =>
  if (match status with
      | Json.str s => decide (s ≠ "success".toList)
      | _ => true) = true ∨ has_error = true then
    Except.ok (OcrOutcome.markError
      (if perr.truthy then jGetD perr ("code".toList) (Json.str "ocr_failed".toList)
       else Json.str "ocr_failed".toList)
      (if perr.truthy then
         jGetD perr ("message".toList) (Json.str "OCR extraction failed".toList)
       else Json.str "OCR extraction failed".toList))
  else if results.truthy = false then
    Except.ok (OcrOutcome.markError (Json.str "ocr_no_results".toList)
      (Json.str "OCR service returned no results".toList))
  else
    match (match results with
           | Json.arr rs => Except.ok rs
           | Json.str _ => Except.error (PyExn.attributeError
               ("'str' object has no attribute 'get'".toList))
           | Json.obj _ => Except.error (PyExn.attributeError
               ("'str' object has no attribute 'get'".toList))
           | j => Except.error (PyExn.typeError
               ('\'' :: pyTypeName j ++ "' object is not iterable".toList))) with
    | Except.error e => Except.error e
    | Except.ok rs =>
        match sortedResults rs with
        | Except.error e => Except.error e
        | Except.ok sorted_results =>
            match perImagePartition sorted_results [] [] with
            | Except.error e => Except.error e
            | Except.ok (successful_results, failed_results) =>
                if successful_results.isEmpty then
                  Except.ok (OcrOutcome.markError (allFailedCode failed_results)
                    (Json.str (allFailedMsg failed_results)))
                else
                  ocrAfterPartition job env rs.length successful_results
                    failed_results

/-- The outer `except Exception` of the handler (queue_worker.py lines
455-460): a raised exception becomes a `mark_error("ocr_completion_error",
str(exc))`. -/
def ocrResolve : Except PyExn OcrOutcome → OcrOutcome
  | Except.ok out => out
  | Except.error e =>
      OcrOutcome.markError (Json.str "ocr_completion_error".toList)
        (Json.str (pyExnStr e))

/-- Embedding of `_process_ocr_completed` (queue_worker.py lines
145-460). -/
def _process_ocr_completed (job : Job) (env : OcrEnv) : OcrOutcome :=
  ocrResolve (ocrRun job env)

/-! ### Concrete jobs and results used as evaluation inputs -/

/-- A URL job that already completed (at instant 0). -/
def c1job : Job :=
  { id := "j1".toList, user_id := "u1".toList, job_type := "url".toList,
    status := JobStatus.COMPLETE, completed_at := some 0 }

/-- A canceled URL job (canceled at instant 0). -/
def c1canceled : Job :=
  { id := "j2".toList, user_id := "u1".toList, job_type := "url".toList,
    status := JobStatus.CANCELED, canceled_at := some 0 }

/-- A pending URL job. -/
def c1pending : Job :=
  { id := "j3".toList, user_id := "u1".toList, job_type := "url".toList,
    status := JobStatus.PENDING }

/-- A successful parse result with no recipe payload. -/
def c1res : ParseResult := { success := true }

/-- A completed-but-unreviewed job submitted to the cancel endpoint. -/
def c2job : Job :=
  { id := "j4".toList, user_id := "u2".toList, job_type := "url".toList,
    status := JobStatus.COMPLETE, completed_at := some 3 }

/-- A running URL job on its first attempt. -/
def c3job : Job :=
  { id := "j5".toList, user_id := "u3".toList, job_type := "url".toList,
    status := JobStatus.RUNNING, attempts := 1 }

/-- The encoding-corruption failure: `fetch_failed` carrying the
`webview_extract` next-action hint (url_recipe_parser.py lines 1396-1403). -/
def c3res : ParseResult :=
  { success := false, error_code := some "fetch_failed".toList,
    error_message := some "invalid encoding".toList,
    warnings := ["encoding_error".toList],
    next_action := some "webview_extract".toList,
    next_action_reason := some "encoding_error".toList }

/-- A pending job on its first attempt, for the retry-eligible case. -/
def c3wjob : Job :=
  { id := "j6".toList, user_id := "u3".toList, job_type := "url".toList,
    status := JobStatus.RUNNING, attempts := 0 }

/-- A transient model-timeout failure with no next-action hint. -/
def c3wres : ParseResult :=
  { success := false, error_code := some "llm_timeout".toList,
    error_message := some "timed out".toList }

/-- URL of the LLM-fallback evaluation run. -/
def c4url : Str := "http://e/x".toList

/-- A DOM oracle on which the heuristic pass finds nothing. -/
def c4doc : HeuristicDoc :=
  { title_text := none, has_container := false, list_items := [],
    steps_raw := [], container_text := [] }

/-- An environment whose document carries no structured or heuristic recipe
and whose LLM chain answers with a JSON object whose title is empty. -/
def c4env : UrlParseEnv :=
  { fetch := FetchOutcome.ok ("<html></html>".toList), scripts := [],
    doc := c4doc,
    llm := LlmOutcome.content (Json.obj [("title".toList, Json.str [])]) }

/-- The recipe the LLM fallback produces from `{"title": ""}`: empty title,
no ingredients, no steps. -/
def c4rec : ParsedRecipe := { title := [], source_url := some c4url }

/-- URL of the schema.org evaluation run backing the amended invariant. -/
def c4wurl : Str := "http://e/w".toList

/-- An environment carrying one JSON-LD recipe block. -/
def c4wenv : UrlParseEnv :=
  { fetch := FetchOutcome.ok ("<html></html>".toList),
    scripts := [some (Json.obj [("@type".toList, Json.str "Recipe".toList),
      ("name".toList, Json.str "Stew".toList),
      ("recipeIngredient".toList, Json.arr [Json.str "1 cup rice".toList]),
      ("recipeInstructions".toList, Json.arr [Json.str "Cook the rice".toList])])],
    doc := c4doc, llm := LlmOutcome.jsonDecodeError }

/-- The recipe extracted from the `c4wenv` JSON-LD block (after ingredient
cleaning). -/
def c4wrec : ParsedRecipe :=
  { title := "Stew".toList, description := some [], source_url := some c4wurl,
    ingredients := [{ text := "rice".toList, quantity_display := some "1".toList,
                      unit := some "cup".toList }],
    steps := ["Cook the rice".toList] }

/-- The parse result of the `c4wenv` run. -/
def c4wres : ParseResult :=
  { success := true, recipe := some c4wrec, used_llm := false,
    parser_strategy := some ("schema_org_json_ld".toList), warnings := [] }

/-- URL of the strategy-order evaluation run. -/
def c5url : Str := "http://e/5".toList

/-- One JSON-LD recipe block. -/
def c5json : Json :=
  Json.obj [("@type".toList, Json.str "Recipe".toList),
    ("name".toList, Json.str "Lemon Cake".toList),
    ("recipeIngredient".toList, Json.arr [Json.str "2 cups flour".toList,
                                          Json.str "1 lemon".toList]),
    ("recipeInstructions".toList, Json.arr [Json.str "Mix everything".toList,
                                            Json.str "Bake well".toList])]

/-- A DOM oracle on which the heuristic pass would ALSO succeed (a title
tag, a container, a qualifying ingredient list and raw steps). -/
def c5doc : HeuristicDoc :=
  { title_text := some "Heuristic Title".toList, has_container := true,
    list_items := [["1 cup milk".toList, "2 tsp salt".toList]],
    steps_raw := ["Mix".toList, "Bake".toList],
    container_text := "serves 4".toList }

/-- An environment where both the schema.org and the heuristic extractors
succeed. -/
def c5env : UrlParseEnv :=
  { fetch := FetchOutcome.ok ("<html></html>".toList),
    scripts := [some c5json], doc := c5doc, llm := LlmOutcome.jsonDecodeError }

/-- The recipe the schema.org extractor finds in `c5json`. -/
def c5rec : ParsedRecipe :=
  { title := "Lemon Cake".toList, description := some [], source_url := some c5url,
    ingredients := [{ text := "flour".toList, quantity_display := some "2".toList,
                      unit := some "cups".toList },
                    { text := "lemon".toList, quantity_display := some "1".toList }],
    steps := ["Mix everything".toList, "Bake well".toList] }

/-- A valid recipe draft (passes `validate_minimums`, triggers no cleanup:
a description and no unit-in-name or combined-ingredient issue). -/
def c6draft : RecipeDraft :=
  { title := "Apple pie".toList,
    ingredients := [{ name := "x".toList, unit := some "cup".toList },
                    { name := "y".toList }, { name := "z".toList }],
    steps := ["s1".toList, "s2".toList], description := some "desc".toList,
    source := {} }

/-- A failed per-image result (index 1). -/
def c6resA : Json :=
  Json.obj [("index".toList, Json.num 1),
            ("error".toList, Json.obj [("code".toList, Json.str "e1".toList),
                                       ("message".toList, Json.str "mm".toList)])]

/-- A successful per-image result (index 0) whose text passes the quality
gate. -/
def c6resB : Json :=
  Json.obj [("index".toList, Json.num 0), ("ocr_text".toList, Json.str c7text)]

/-- The payload results list as sent (failure first, out of index order). -/
def c6rs : List Json := [c6resA, c6resB]

/-- The index-sorted results. -/
def c6sorted : List Json := [c6resB, c6resA]

/-- The successful partition. -/
def c6succ : List Json := [c6resB]

/-- The failed partition. -/
def c6failed : List ImageFailure :=
  [⟨Json.num 1, Json.obj [("code".toList, Json.str "e1".toList),
                          ("message".toList, Json.str "mm".toList)]⟩]

/-- A job carrying an ingestion id. -/
def c6job : Job :=
  { id := "j1".toList, user_id := "u1".toList, job_type := "image".toList,
    status := JobStatus.RUNNING,
    job_data := some (Json.obj [("ingestion_id".toList, Json.str "ing1".toList)]) }

/-- A partial-failure batch environment: one failed and one successful
image, no cancellation, a valid draft from the model. -/
def c6env : OcrEnv :=
  { payload := Json.obj [("status".toList, Json.str "success".toList),
                         ("results".toList, Json.arr c6rs),
                         ("error".toList, Json.null)],
    statusRead1 := JobStatus.RUNNING, statusRead2 := JobStatus.RUNNING,
    statusRead3 := JobStatus.RUNNING, ingestion_found := true,
    structuring := Except.ok (some c6draft), cleaning := Except.error [] }

/-- An all-failed batch environment: the only image failed. -/
def c6envAll : OcrEnv :=
  { payload := Json.obj [("status".toList, Json.str "success".toList),
                         ("results".toList, Json.arr [c6resA]),
                         ("error".toList, Json.null)],
    statusRead1 := JobStatus.RUNNING, statusRead2 := JobStatus.RUNNING,
    statusRead3 := JobStatus.RUNNING, ingestion_found := true,
    structuring := Except.ok (some c6draft), cleaning := Except.error [] }

/-- The `c6env` environment with the first fresh status read returning
CANCELED. -/
def c8env1 : OcrEnv :=
  { payload := c6env.payload,
    statusRead1 := JobStatus.CANCELED, statusRead2 := JobStatus.RUNNING,
    statusRead3 := JobStatus.RUNNING, ingestion_found := true,
    structuring := Except.ok (some c6draft), cleaning := Except.error [] }

/-- The `c6env` environment with the second fresh status read (before the
model call) returning CANCELED. -/
def c8env2 : OcrEnv :=
  { payload := c6env.payload,
    statusRead1 := JobStatus.RUNNING, statusRead2 := JobStatus.CANCELED,
    statusRead3 := JobStatus.RUNNING, ingestion_found := true,
    structuring := Except.ok (some c6draft), cleaning := Except.error [] }

/-! ### General list lemmas -/

theorem takeWhile_append_all {p : Char → Bool} {l r : Str} (h : ∀ c ∈ l, p c) :
    (l ++ r).takeWhile p = l ++ r.takeWhile p := by
  induction l with
  | nil => rfl
  | cons a t ih => simp_all [List.takeWhile_cons]

theorem dropWhile_append_all {p : Char → Bool} {l r : Str} (h : ∀ c ∈ l, p c) :
    (l ++ r).dropWhile p = r.dropWhile p := by
  induction l with
  | nil => rfl
  | cons a t ih => simp_all [List.dropWhile_cons]

theorem takeWhile_all {p : Char → Bool} {l : Str} (h : ∀ c ∈ l, p c) :
    l.takeWhile p = l := by
  have := @takeWhile_append_all p l [] h
  simpa using this

theorem dropWhile_all {p : Char → Bool} {l : Str} (h : ∀ c ∈ l, p c) :
    l.dropWhile p = [] := by
  have := @dropWhile_append_all p l [] h
  simpa using this

theorem mem_of_mem_dropWhile {p : Char → Bool} {l : Str} {c : Char}
    (h : c ∈ l.dropWhile p) : c ∈ l := by
  induction l with
  | nil => simp [List.dropWhile] at h
  | cons a t ih =>
    rw [List.dropWhile_cons] at h
    split at h
    · simp [ih h]
    · simpa using h

theorem mem_of_mem_takeWhile {p : Char → Bool} {l : Str} {c : Char}
    (h : c ∈ l.takeWhile p) : c ∈ l := by
  induction l with
  | nil => simp [List.takeWhile] at h
  | cons a t ih =>
    rw [List.takeWhile_cons] at h
    split at h
    · rcases List.mem_cons.1 h with h | h
      · simp [h]
      · simp [ih h]
    · simp at h

theorem takeWhile_mem_sat {p : Char → Bool} {l : Str} {c : Char}
    (h : c ∈ l.takeWhile p) : p c = true := by
  induction l with
  | nil => simp [List.takeWhile] at h
  | cons a t ih =>
    rw [List.takeWhile_cons] at h
    split at h
    · rcases List.mem_cons.1 h with h | h
      · subst h; assumption
      · exact ih h
    · simp at h

theorem dropWhile_head_false {p : Char → Bool} {l r : Str} {c : Char}
    (h : l.dropWhile p = c :: r) : p c = false := by
  induction l with
  | nil => simp [List.dropWhile] at h
  | cons a t ih =>
    rw [List.dropWhile_cons] at h
    split at h
    · exact ih h
    · cases h
      rename_i hnc
      simpa using hnc

theorem dropWhile_idem {p : Char → Bool} (l : Str) :
    (l.dropWhile p).dropWhile p = l.dropWhile p := by
  cases h : l.dropWhile p with
  | nil => rfl
  | cons c r => rw [List.dropWhile_cons, dropWhile_head_false h]; simp

/-! ### Lemmas about whitespace tokenisation and `clean_text` -/

theorem wsTokensGo_good (s : Str) : ∀ (acc : Option Str),
    (∀ a, acc = some a → a ≠ [] ∧ ∀ c ∈ a, isPyWs c = false) →
    ∀ t ∈ wsTokensGo s acc, t ≠ [] ∧ ∀ c ∈ t, isPyWs c = false := by
  induction s with
  | nil =>
    intro acc hacc t ht
    match acc with
    | none => simp [wsTokensGo] at ht
    | some a =>
      simp only [wsTokensGo, List.mem_singleton] at ht
      subst ht
      obtain ⟨hne, hch⟩ := hacc a rfl
      refine ⟨by simpa using hne, fun c hc => hch c (by simpa using hc)⟩
  | cons d rest ih =>
    intro acc hacc t ht
    match acc with
    | none =>
      rw [wsTokensGo] at ht
      split at ht
      · exact ih none (by simp) t ht
      · rename_i hnd
        refine ih (some [d]) ?_ t ht
        intro a ha
        cases ha
        refine ⟨by simp, ?_⟩
        intro c hc
        simp at hc
        subst hc
        simpa using hnd
    | some a =>
      rw [wsTokensGo] at ht
      split at ht
      · rcases List.mem_cons.1 ht with h | h
        · subst h
          obtain ⟨hne, hch⟩ := hacc a rfl
          exact ⟨by simpa using hne, fun c hc => hch c (by simpa using hc)⟩
        · exact ih none (by simp) t h
      · rename_i hnd
        refine ih (some (d :: a)) ?_ t ht
        intro b hb
        cases hb
        obtain ⟨hne, hch⟩ := hacc a rfl
        refine ⟨by simp, ?_⟩
        intro c hc
        rcases List.mem_cons.1 hc with h | h
        · subst h; simpa using hnd
        · exact hch c h

theorem wsTokens_good {s : Str} : ∀ t ∈ wsTokens s, t ≠ [] ∧ ∀ c ∈ t, isPyWs c = false :=
  wsTokensGo_good s none (by simp)

theorem wsTokensGo_all_nonws {s : Str} (h : ∀ c ∈ s, isPyWs c = false) (a : Str) :
    wsTokensGo s (some a) = [a.reverse ++ s] := by
  induction s generalizing a with
  | nil => simp [wsTokensGo]
  | cons c rest ih =>
    have hc : isPyWs c = false := h c (by simp)
    rw [wsTokensGo, if_neg (by simp [hc]), ih (fun d hd => h d (by simp [hd])) (c :: a)]
    simp

theorem wsTokens_all_nonws {s : Str} (hne : s ≠ []) (h : ∀ c ∈ s, isPyWs c = false) :
    wsTokens s = [s] := by
  match s with
  | [] => exact absurd rfl hne
  | c :: rest =>
    have hc : isPyWs c = false := h c (by simp)
    rw [wsTokens, wsTokensGo, if_neg (by simp [hc]),
      wsTokensGo_all_nonws (fun d hd => h d (by simp [hd])) [c]]
    rfl

theorem wsTokensGo_append_sep {u : Str} (hu : ∀ c ∈ u, isPyWs c = false) (r a : Str) :
    wsTokensGo (u ++ ' ' :: r) (some a) = (a.reverse ++ u) :: wsTokensGo r none := by
  induction u generalizing a with
  | nil =>
    simp only [List.nil_append]
    rw [wsTokensGo, if_pos (by decide)]
    simp [wsTokens]
  | cons c u' ih =>
    have hc : isPyWs c = false := hu c (by simp)
    simp only [List.cons_append]
    rw [wsTokensGo, if_neg (by simp [hc]), ih (fun d hd => hu d (by simp [hd])) (c :: a)]
    simp

theorem wsTokens_append_sep {t : Str} (hne : t ≠ []) (ht : ∀ c ∈ t, isPyWs c = false)
    (r : Str) : wsTokens (t ++ ' ' :: r) = t :: wsTokens r := by
  match t with
  | [] => exact absurd rfl hne
  | c :: t' =>
    have hc : isPyWs c = false := ht c (by simp)
    rw [wsTokens, List.cons_append, wsTokensGo, if_neg (by simp [hc]),
      wsTokensGo_append_sep (fun d hd => ht d (by simp [hd])) r [c]]
    simp [wsTokens]

theorem wsTokens_joinSp {ts : List Str}
    (h : ∀ t ∈ ts, t ≠ [] ∧ ∀ c ∈ t, isPyWs c = false) :
    wsTokens (joinSp ts) = ts := by
  induction ts with
  | nil => rfl
  | cons t ts' ih =>
    match ts' with
    | [] =>
      obtain ⟨hne, hch⟩ := h t (by simp)
      exact wsTokens_all_nonws hne hch
    | t' :: rs =>
      obtain ⟨hne, hch⟩ := h t (by simp)
      show wsTokens (t ++ ' ' :: joinSp (t' :: rs)) = _
      rw [wsTokens_append_sep hne hch, ih (fun u hu => h u (by simp [hu]))]

theorem wsTokensGo_mem (s : Str) : ∀ (acc : Option Str) (t : Str) (c : Char),
    t ∈ wsTokensGo s acc → c ∈ t → c ∈ s ∨ (∃ a, acc = some a ∧ c ∈ a) := by
  induction s with
  | nil =>
    intro acc t c ht hc
    match acc with
    | none => simp [wsTokensGo] at ht
    | some a =>
      simp only [wsTokensGo, List.mem_singleton] at ht
      subst ht
      exact Or.inr ⟨a, rfl, by simpa using hc⟩
  | cons d rest ih =>
    intro acc t c ht hc
    match acc with
    | none =>
      rw [wsTokensGo] at ht
      split at ht
      · rcases ih none t c ht hc with h | ⟨a, ha, _⟩
        · exact Or.inl (by simp [h])
        · cases ha
      · rcases ih (some [d]) t c ht hc with h | ⟨a, ha, hm⟩
        · exact Or.inl (by simp [h])
        · cases ha; simp at hm; subst hm; exact Or.inl (by simp)
    | some a =>
      rw [wsTokensGo] at ht
      split at ht
      · rcases List.mem_cons.1 ht with h | h
        · subst h; exact Or.inr ⟨a, rfl, by simpa using hc⟩
        · rcases ih none t c h hc with h2 | ⟨b, hb, _⟩
          · exact Or.inl (by simp [h2])
          · cases hb
      · rcases ih (some (d :: a)) t c ht hc with h | ⟨b, hb, hm⟩
        · exact Or.inl (by simp [h])
        · cases hb
          rcases List.mem_cons.1 hm with h | h
          · exact Or.inl (by simp [h])
          · exact Or.inr ⟨a, rfl, h⟩

theorem mem_joinSp {ts : List Str} {c : Char} (h : c ∈ joinSp ts) :
    c = ' ' ∨ ∃ t ∈ ts, c ∈ t := by
  induction ts with
  | nil => simp [joinSp] at h
  | cons t ts' ih =>
    match ts' with
    | [] => exact Or.inr ⟨t, by simp, h⟩
    | t' :: rs =>
      rcases List.mem_append.1 h with h2 | h2
      · exact Or.inr ⟨t, by simp, h2⟩
      · rcases List.mem_cons.1 h2 with h3 | h3
        · exact Or.inl h3
        · rcases ih h3 with h4 | ⟨u, hu, hcu⟩
          · exact Or.inl h4
          · exact Or.inr ⟨u, by simp [hu], hcu⟩

theorem mem_clean_text {s : Str} {c : Char} (h : c ∈ clean_text s) :
    c = ' ' ∨ c ∈ s := by
  rcases mem_joinSp h with h2 | ⟨t, ht, hct⟩
  · exact Or.inl h2
  · rcases wsTokensGo_mem s none t c ht hct with h3 | ⟨a, ha, _⟩
    · exact Or.inr h3
    · cases ha

theorem wsTokensGo_ne_nil_some (s : Str) (a : Str) : wsTokensGo s (some a) ≠ [] := by
  induction s generalizing a with
  | nil => simp [wsTokensGo]
  | cons c rest ih =>
    rw [wsTokensGo]
    split
    · simp
    · exact ih (c :: a)

theorem wsTokens_ne_nil {s : Str} {c : Char} (hc : c ∈ s) (hw : isPyWs c = false) :
    wsTokens s ≠ [] := by
  induction s with
  | nil => simp at hc
  | cons d rest ih =>
    rw [wsTokens, wsTokensGo]
    split
    · rcases List.mem_cons.1 hc with h | h
      · subst h; simp_all
      · exact ih h
    · exact wsTokensGo_ne_nil_some rest [d]

theorem joinSp_ne_nil {ts : List Str} (hne : ts ≠ [])
    (h : ∀ t ∈ ts, t ≠ []) : joinSp ts ≠ [] := by
  match ts with
  | [] => exact absurd rfl hne
  | [t] => exact h t (by simp)
  | t :: t' :: rs =>
    show t ++ ' ' :: joinSp (t' :: rs) ≠ []
    simp

theorem clean_text_idem (s : Str) : clean_text (clean_text s) = clean_text s := by
  unfold clean_text
  rw [wsTokens_joinSp wsTokens_good]

theorem clean_text_no_ws_id {s : Str} (hne : s ≠ [])
    (h : ∀ c ∈ s, isPyWs c = false) : clean_text s = s := by
  unfold clean_text
  rw [wsTokens_all_nonws hne h]
  rfl

theorem clean_text_ne_nil {s : Str} {c : Char} (hc : c ∈ s)
    (hw : isPyWs c = false) : clean_text s ≠ [] := by
  unfold clean_text
  exact joinSp_ne_nil (wsTokens_ne_nil hc hw) (fun t ht => (wsTokens_good t ht).1)

/-! ### Lemmas about fraction-glyph handling -/

theorem insertSpaces_no_glyph {s : Str} (h : ∀ c ∈ s, isFracGlyph c = false) :
    insertSpaces s = s := by
  induction s with
  | nil => rfl
  | cons a s' ih =>
    match s' with
    | [] => rfl
    | b :: rest =>
      have hb : isFracGlyph b = false := h b (by simp)
      rw [insertSpaces, if_neg (by simp [hb])]
      rw [ih (fun c hc => h c (by simp at hc ⊢; tauto))]

theorem mem_insertSpaces {s : Str} {c : Char} (hc : c ∈ s) : c ∈ insertSpaces s := by
  induction s using insertSpaces.induct with
  | case1 => simp at hc
  | case2 d => simpa [insertSpaces] using hc
  | case3 a b rest hab ih =>
    rw [insertSpaces, if_pos hab]
    rcases List.mem_cons.1 hc with h | h
    · simp [h]
    · rcases List.mem_cons.1 h with h2 | h2
      · simp [h2]
      · simp [ih h2]
  | case4 a b rest hab ih =>
    rw [insertSpaces, if_neg hab]
    rcases List.mem_cons.1 hc with h | h
    · simp [h]
    · simp [ih h]

theorem mem_replaceChar {k : Char} {v s : Str} {c : Char}
    (h : c ∈ replaceChar k v s) : (c ∈ s ∧ c ≠ k) ∨ c ∈ v := by
  rcases List.mem_flatMap.1 h with ⟨a, ha, hc⟩
  by_cases hak : a = k
  · subst hak; rw [if_pos rfl] at hc; exact Or.inr hc
  · rw [if_neg hak] at hc; simp at hc; subst hc; exact Or.inl ⟨ha, hak⟩

theorem replaceChar_not_mem {k : Char} {v : Str} {s : Str} (h : k ∉ s) :
    replaceChar k v s = s := by
  induction s with
  | nil => rfl
  | cons a t ih =>
    have hak : a ≠ k := fun e => h (by simp [e])
    show (if a = k then v else [a]) ++ replaceChar k v t = a :: t
    rw [if_neg hak, ih (fun m => h (by simp [m]))]
    rfl

theorem mem_replaceChar_of_ne {k : Char} {v s : Str} {c : Char}
    (hc : c ∈ s) (hck : c ≠ k) : c ∈ replaceChar k v s :=
  List.mem_flatMap.2 ⟨c, hc, by rw [if_neg hck]; simp⟩

theorem mem_replaceChar_of_key {k : Char} {v s : Str} {d : Char}
    (hk : k ∈ s) (hd : d ∈ v) : d ∈ replaceChar k v s :=
  List.mem_flatMap.2 ⟨k, hk, by rw [if_pos rfl]; exact hd⟩

theorem foldl_replace_no_glyph : ∀ (ps : List (Char × Str)),
    (∀ p ∈ ps, ∀ c ∈ p.2, isFracGlyph c = false) →
    ∀ (s : Str), (∀ c ∈ s, isFracGlyph c = true → c ∈ ps.map Prod.fst) →
    ∀ c ∈ ps.foldl (fun acc p => replaceChar p.1 p.2 acc) s, isFracGlyph c = false := by
  intro ps
  induction ps with
  | nil =>
    intro _ s hs c hc
    simp only [List.foldl_nil] at hc
    cases hg : isFracGlyph c
    · rfl
    · exact absurd (hs c hc hg) (by simp)
  | cons p ps' ih =>
    intro hv s hs c hc
    simp only [List.foldl_cons] at hc
    refine ih (fun q hq => hv q (by simp [hq])) (replaceChar p.1 p.2 s) ?_ c hc
    intro d hd hg
    rcases mem_replaceChar hd with ⟨hds, hdk⟩ | hdv
    · have := hs d hds hg
      simp only [List.map_cons, List.mem_cons] at this
      rcases this with h | h
      · exact absurd h hdk
      · simpa using h
    · exact absurd hg (by simp [hv p (by simp) d hdv])

theorem replaceFracs_no_glyph (s : Str) : ∀ c ∈ replaceFracs s, isFracGlyph c = false := by
  refine foldl_replace_no_glyph FRACTION_MAP (by decide) s ?_
  intro c _ hg
  simpa [isFracGlyph] using hg

theorem foldl_replace_id : ∀ (ps : List (Char × Str)),
    (∀ p ∈ ps, isFracGlyph p.1 = true) →
    ∀ (s : Str), (∀ c ∈ s, isFracGlyph c = false) →
    ps.foldl (fun acc p => replaceChar p.1 p.2 acc) s = s := by
  intro ps
  induction ps with
  | nil => intro _ s _; rfl
  | cons p ps' ih =>
    intro hk s hs
    simp only [List.foldl_cons]
    have : replaceChar p.1 p.2 s = s := by
      refine replaceChar_not_mem ?_
      intro hmem
      have := hs p.1 hmem
      rw [hk p (by simp)] at this
      cases this
    rw [this]
    exact ih (fun q hq => hk q (by simp [hq])) s hs

theorem replaceFracs_id {s : Str} (h : ∀ c ∈ s, isFracGlyph c = false) :
    replaceFracs s = s :=
  foldl_replace_id FRACTION_MAP (by decide) s h

theorem foldl_replace_has_nonws : ∀ (ps : List (Char × Str)),
    (∀ p ∈ ps, ∃ d ∈ p.2, isPyWs d = false) →
    ∀ (s : Str), (∃ c ∈ s, isPyWs c = false) →
    ∃ c ∈ ps.foldl (fun acc p => replaceChar p.1 p.2 acc) s, isPyWs c = false := by
  intro ps
  induction ps with
  | nil => intro _ s hs; simpa using hs
  | cons p ps' ih =>
    intro hv s hs
    simp only [List.foldl_cons]
    refine ih (fun q hq => hv q (by simp [hq])) _ ?_
    obtain ⟨c, hc, hw⟩ := hs
    by_cases hck : c = p.1
    · obtain ⟨d, hd, hdw⟩ := hv p (by simp)
      exact ⟨d, mem_replaceChar_of_key (hck ▸ hc) hd, hdw⟩
    · exact ⟨c, mem_replaceChar_of_ne hc hck, hw⟩

theorem replaceFracs_has_nonws {s : Str} (h : ∃ c ∈ s, isPyWs c = false) :
    ∃ c ∈ replaceFracs s, isPyWs c = false :=
  foldl_replace_has_nonws FRACTION_MAP (by decide) s h

/-! ### Lemmas about decimal rendering and the numeric canonicalization -/

theorem digitToChar_spec (d : Nat) :
    isDigit10 (digitToChar d) = true ∧ isPyWs (digitToChar d) = false ∧
      isFracGlyph (digitToChar d) = false := by
  unfold digitToChar
  split <;> decide

theorem charToDigit_digitToChar {d : Nat} (h : d < 10) :
    charToDigit (digitToChar d) = d := by
  interval_cases d <;> decide

theorem natDigitsGo_eq {fuel n : Nat} (h : n ≤ fuel) :
    natDigitsGo fuel n = Nat.digits 10 n := by
  induction fuel generalizing n with
  | zero =>
      have h0 : n = 0 := Nat.le_zero.mp h
      subst h0
      simp [natDigitsGo]
  | succ f ih =>
      match n with
      | 0 => simp [natDigitsGo]
      | m + 1 =>
          rw [show natDigitsGo (f + 1) (m + 1) =
                (m + 1) % 10 :: natDigitsGo f ((m + 1) / 10) from rfl]
          rw [Nat.digits_def' (show (1 : ℕ) < 10 by norm_num) (Nat.succ_pos m)]
          rw [ih (Nat.le_of_lt_succ
            (Nat.lt_of_lt_of_le (Nat.div_lt_self (Nat.succ_pos m) (by norm_num)) h))]

theorem natToChars_eq (n : Nat) :
    natToChars n = ((Nat.digits 10 n).map digitToChar).reverse := by
  unfold natToChars
  rw [natDigitsGo_eq (Nat.le_refl n)]

theorem mem_natToChars {n : Nat} {c : Char} (h : c ∈ natToChars n) :
    ∃ d, c = digitToChar d := by
  rw [natToChars_eq] at h
  rw [List.mem_reverse, List.mem_map] at h
  obtain ⟨d, _, hd⟩ := h
  exact ⟨d, hd.symm⟩

theorem natToChars_ne_nil {n : Nat} (h : n ≠ 0) : natToChars n ≠ [] := by
  rw [natToChars_eq]
  simp only [ne_eq, List.reverse_eq_nil_iff, List.map_eq_nil_iff]
  exact Nat.digits_ne_nil_iff_ne_zero.2 h

theorem charsToNat_natToChars (n : Nat) : charsToNat (natToChars n) = n := by
  rw [natToChars_eq]
  unfold charsToNat
  rw [List.map_reverse, List.reverse_reverse, List.map_map]
  have e : (Nat.digits 10 n).map (charToDigit ∘ digitToChar) = Nat.digits 10 n := by
    conv_rhs => rw [← List.map_id (Nat.digits 10 n)]
    exact List.map_congr_left
      (fun d hd => charToDigit_digitToChar (Nat.digits_lt_base (by norm_num) hd))
  rw [e, Nat.ofDigits_digits]

theorem natToCharsC_ne_nil (n : Nat) : natToCharsC n ≠ [] := by
  unfold natToCharsC
  split
  · simp
  · exact natToChars_ne_nil (by assumption)

theorem mem_natToCharsC {n : Nat} {c : Char} (h : c ∈ natToCharsC n) :
    ∃ d, c = digitToChar d := by
  unfold natToCharsC at h
  split at h
  · simp at h
    exact ⟨0, by simp [h, digitToChar]⟩
  · exact mem_natToChars h

theorem natToCharsC_digits {n : Nat} : ∀ c ∈ natToCharsC n, isDigit10 c = true := by
  intro c hc
  obtain ⟨d, hd⟩ := mem_natToCharsC hc
  rw [hd]
  exact (digitToChar_spec d).1

theorem charsToNat_natToCharsC (n : Nat) : charsToNat (natToCharsC n) = n := by
  unfold natToCharsC
  split
  · rename_i h0
    rw [h0]
    simp [charsToNat, charToDigit, Nat.ofDigits]
  · exact charsToNat_natToChars n

theorem digit_ne_dash {c : Char} (h : isDigit10 c = true) : c ≠ '-' := by
  intro e
  rw [e] at h
  exact absurd h (by decide)

theorem matchNumCore_int {t : Str} (hne : t ≠ []) (h : ∀ c ∈ t, isDigit10 c = true) :
    matchNumCore t = some (t, none) := by
  unfold matchNumCore
  rw [takeWhile_all h, dropWhile_all h, if_neg hne]

theorem matchNumCore_frac {ds fr : Str} (hds : ds ≠ [])
    (hds2 : ∀ c ∈ ds, isDigit10 c = true)
    (hfr : fr ≠ []) (hfr2 : ∀ c ∈ fr, isDigit10 c = true) :
    matchNumCore (ds ++ '.' :: fr) = some (ds, some fr) := by
  have hdot : isDigit10 '.' = false := by decide
  have e1 : (ds ++ '.' :: fr).takeWhile isDigit10 = ds := by
    rw [takeWhile_append_all hds2]
    simp [List.takeWhile_cons, hdot]
  have e2 : (ds ++ '.' :: fr).dropWhile isDigit10 = '.' :: fr := by
    rw [dropWhile_append_all hds2]
    simp [List.dropWhile_cons, hdot]
  unfold matchNumCore
  rw [e1, e2, if_neg hds]
  show (if fr.takeWhile isDigit10 = [] ∨ fr.dropWhile isDigit10 ≠ [] then none
        else some (ds, some (fr.takeWhile isDigit10))) = some (ds, some fr)
  rw [takeWhile_all hfr2, dropWhile_all hfr2, if_neg (by simp [hfr])]

theorem matchNumeric_int_nonneg {ds : Str} (hne : ds ≠ [])
    (h : ∀ c ∈ ds, isDigit10 c = true) :
    matchNumeric ds = some (false, ds, none) := by
  match ds with
  | [] => exact absurd rfl hne
  | c :: t =>
    have hc : c ≠ '-' := digit_ne_dash (h c (by simp))
    show (if c = '-' then (matchNumCore t).map (fun p => (true, p.1, p.2))
          else (matchNumCore (c :: t)).map (fun p => (false, p.1, p.2))) = _
    rw [if_neg hc, matchNumCore_int hne h]
    rfl

theorem matchNumeric_int_neg {ds : Str} (hne : ds ≠ [])
    (h : ∀ c ∈ ds, isDigit10 c = true) :
    matchNumeric ('-' :: ds) = some (true, ds, none) := by
  show (if '-' = '-' then (matchNumCore ds).map (fun p => (true, p.1, p.2))
        else (matchNumCore ('-' :: ds)).map (fun p => (false, p.1, p.2))) = _
  rw [if_pos rfl, matchNumCore_int hne h]
  rfl

theorem matchNumeric_frac_nonneg {ds fr : Str} (hds : ds ≠ [])
    (hds2 : ∀ c ∈ ds, isDigit10 c = true)
    (hfr : fr ≠ []) (hfr2 : ∀ c ∈ fr, isDigit10 c = true) :
    matchNumeric (ds ++ '.' :: fr) = some (false, ds, some fr) := by
  match ds with
  | [] => exact absurd rfl hds
  | c :: t =>
    have hc : c ≠ '-' := digit_ne_dash (hds2 c (by simp))
    show (if c = '-' then (matchNumCore (t ++ '.' :: fr)).map (fun p => (true, p.1, p.2))
          else (matchNumCore (c :: (t ++ '.' :: fr))).map (fun p => (false, p.1, p.2))) = _
    rw [if_neg hc]
    rw [show (c :: (t ++ '.' :: fr)) = ((c :: t) ++ '.' :: fr) from rfl]
    rw [matchNumCore_frac hds hds2 hfr hfr2]
    rfl

theorem matchNumeric_frac_neg {ds fr : Str} (hds : ds ≠ [])
    (hds2 : ∀ c ∈ ds, isDigit10 c = true)
    (hfr : fr ≠ []) (hfr2 : ∀ c ∈ fr, isDigit10 c = true) :
    matchNumeric ('-' :: (ds ++ '.' :: fr)) = some (true, ds, some fr) := by
  show (if '-' = '-' then
          (matchNumCore (ds ++ '.' :: fr)).map (fun p => (true, p.1, p.2))
        else (matchNumCore ('-' :: (ds ++ '.' :: fr))).map
          (fun p => (false, p.1, p.2))) = _
  rw [if_pos rfl, matchNumCore_frac hds hds2 hfr hfr2]
  rfl

theorem matchNumCore_digits {t ip : Str} {fp : Option Str}
    (h : matchNumCore t = some (ip, fp)) :
    ip ≠ [] ∧ (∀ c ∈ ip, isDigit10 c = true) ∧
      ∀ fr, fp = some fr → fr ≠ [] ∧ ∀ c ∈ fr, isDigit10 c = true := by
  unfold matchNumCore at h
  split at h
  · cases h
  · rename_i hip
    split at h
    · rename_i hdrop
      cases h
      exact ⟨hip, fun c hc => takeWhile_mem_sat hc, fun fr hfr => by cases hfr⟩
    · rename_i u hdrop
      split at h
      · cases h
      · rename_i hcond
        rw [not_or, not_not] at hcond
        cases h
        refine ⟨hip, fun c hc => takeWhile_mem_sat hc, ?_⟩
        intro fr hfr
        cases hfr
        exact ⟨hcond.1, fun c hc => takeWhile_mem_sat hc⟩
    · cases h

theorem matchNumeric_digits {s ip : Str} {neg : Bool} {fp : Option Str}
    (h : matchNumeric s = some (neg, ip, fp)) :
    ip ≠ [] ∧ (∀ c ∈ ip, isDigit10 c = true) ∧
      ∀ fr, fp = some fr → fr ≠ [] ∧ ∀ c ∈ fr, isDigit10 c = true := by
  cases s with
  | nil => cases h
  | cons c t =>
    rw [show matchNumeric (c :: t) =
        (if c = '-' then (matchNumCore t).map (fun p => (true, p.1, p.2))
         else (matchNumCore (c :: t)).map (fun p => (false, p.1, p.2)))
      from rfl] at h
    split at h
    · obtain ⟨p, hp, he⟩ := Option.map_eq_some'.1 h
      obtain ⟨ip0, fp0⟩ := p
      cases he
      exact matchNumCore_digits hp
    · obtain ⟨p, hp, he⟩ := Option.map_eq_some'.1 h
      obtain ⟨ip0, fp0⟩ := p
      cases he
      exact matchNumCore_digits hp

theorem stripZerosRight_sub {l : Str} {c : Char} (h : c ∈ stripZerosRight l) :
    c ∈ l := by
  unfold stripZerosRight at h
  rw [List.mem_reverse] at h
  have := mem_of_mem_dropWhile h
  simpa using this

theorem dropWhile_ne_nil_of_mem {p : Char → Bool} {l : Str} {c : Char}
    (hc : c ∈ l) (hpc : p c = false) : l.dropWhile p ≠ [] := by
  induction l with
  | nil => simp at hc
  | cons a t ih =>
    rw [List.dropWhile_cons]
    split
    · rename_i hpa
      rcases List.mem_cons.1 hc with h | h
      · subst h; simp_all
      · exact ih h
    · simp

theorem stripZerosRight_not_all {l : Str} (h : l.all (· = '0') = false) :
    stripZerosRight l ≠ [] ∧ (stripZerosRight l).all (· = '0') = false := by
  obtain ⟨x, hx, hx0⟩ := List.all_eq_false.1 h
  have hx' : x ∈ l.reverse := List.mem_reverse.2 hx
  have hdne : l.reverse.dropWhile (· = '0') ≠ [] :=
    dropWhile_ne_nil_of_mem hx' (by simpa using hx0)
  cases hd : l.reverse.dropWhile (· = '0') with
  | nil => exact absurd hd hdne
  | cons a r =>
    have ha : ¬ (a = '0') := by
      have := dropWhile_head_false hd
      simpa using this
    constructor
    · unfold stripZerosRight
      rw [hd]
      simp
    · refine List.all_eq_false.2 ⟨a, ?_, by simpa using ha⟩
      unfold stripZerosRight
      rw [hd]
      simp

theorem stripZerosRight_idem (l : Str) :
    stripZerosRight (stripZerosRight l) = stripZerosRight l := by
  unfold stripZerosRight
  rw [List.reverse_reverse, dropWhile_idem]

theorem isDigit10_bounds {c : Char} (h : isDigit10 c = true) :
    48 ≤ c.toNat ∧ c.toNat ≤ 57 := by
  simp only [isDigit10, Bool.and_eq_true, decide_eq_true_eq] at h
  exact ⟨h.1, h.2⟩

theorem isDigit10_not_ws {c : Char} (h : isDigit10 c = true) : isPyWs c = false := by
  obtain ⟨h1, h2⟩ := isDigit10_bounds h
  by_contra hw
  rw [Bool.not_eq_false] at hw
  simp only [isPyWs, Bool.or_eq_true, decide_eq_true_eq, Bool.and_eq_true] at hw
  omega

theorem isDigit10_not_glyph {c : Char} (h : isDigit10 c = true) :
    isFracGlyph c = false := by
  obtain ⟨h1, h2⟩ := isDigit10_bounds h
  by_contra hg
  rw [Bool.not_eq_false] at hg
  have hmem : c ∈ FRACTION_MAP.map Prod.fst := by simpa [isFracGlyph] using hg
  fin_cases hmem <;> exact absurd h2 (by decide)

theorem natToCharsC_props {n : Nat} :
    ∀ c ∈ natToCharsC n, isPyWs c = false ∧ isFracGlyph c = false := by
  intro c hc
  obtain ⟨d, hd⟩ := mem_natToCharsC hc
  rw [hd]
  exact ⟨(digitToChar_spec d).2.1, (digitToChar_spec d).2.2⟩

theorem canonNum_out (s : Str) :
    canonNum s = s ∨
      ((∀ c ∈ canonNum s, isPyWs c = false ∧ isFracGlyph c = false) ∧
        canonNum s ≠ []) := by
  unfold canonNum
  cases hm : matchNumeric s with
  | none => exact Or.inl rfl
  | some x =>
    obtain ⟨neg, ip, fp⟩ := x
    have hd := matchNumeric_digits hm
    right
    simp only
    split
    · split
      · refine ⟨?_, by simp⟩
        intro c hc
        rcases List.mem_cons.1 hc with h | h
        · subst h; exact ⟨by decide, by decide⟩
        · exact natToCharsC_props c h
      · exact ⟨fun c hc => natToCharsC_props c hc, natToCharsC_ne_nil _⟩
    · rename_i hz
      have hfp : ∃ fr, fp = some fr ∧ fr.all (· = '0') = false := by
        cases fp with
        | none => simp at hz
        | some fr => exact ⟨fr, rfl, by simpa using hz⟩
      obtain ⟨fr, hfr, hfrz⟩ := hfp
      have hdig := (hd.2.2 fr hfr).2
      constructor
      · intro c hc
        rcases List.mem_append.1 hc with h | h
        · rcases List.mem_append.1 h with h1 | h1
          · have : c = '-' := by
              split at h1
              · simpa using h1
              · simp at h1
            subst this
            exact ⟨by decide, by decide⟩
          · exact natToCharsC_props c h1
        · rcases List.mem_cons.1 h with h2 | h2
          · subst h2; exact ⟨by decide, by decide⟩
          · have hcfr : c ∈ fr := by
              have := stripZerosRight_sub h2
              rw [hfr] at this
              simpa using this
            have hcd := hdig c hcfr
            exact ⟨isDigit10_not_ws hcd, isDigit10_not_glyph hcd⟩
      · simp

theorem canonNum_ne_nil {s : Str} (h : s ≠ []) : canonNum s ≠ [] := by
  rcases canonNum_out s with he | ⟨-, hne⟩
  · rw [he]; exact h
  · exact hne

theorem canonNum_glyph_free {s : Str} (h : ∀ c ∈ s, isFracGlyph c = false) :
    ∀ c ∈ canonNum s, isFracGlyph c = false := by
  rcases canonNum_out s with he | ⟨hp, -⟩
  · rw [he]; exact h
  · exact fun c hc => (hp c hc).2

theorem clean_text_canonNum_fix {s : Str} (hfix : clean_text s = s) :
    clean_text (canonNum s) = canonNum s := by
  rcases canonNum_out s with he | ⟨hp, hne⟩
  · rw [he]; exact hfix
  · exact clean_text_no_ws_id hne (fun c hc => (hp c hc).1)

theorem canonNum_eq_of_match {s : Str} {neg : Bool} {ip : Str} {fp : Option Str}
    (hm : matchNumeric s = some (neg, ip, fp)) :
    canonNum s =
      (if (fp.getD []).all (· = '0') = true then
        if neg = true ∧ charsToNat ip ≠ 0 then '-' :: natToCharsC (charsToNat ip)
        else natToCharsC (charsToNat ip)
      else
        (if neg = true then ['-'] else []) ++ natToCharsC (charsToNat ip) ++
          '.' :: stripZerosRight (fp.getD [])) := by
  unfold canonNum
  rw [hm]

theorem canonNum_idem (s : Str) : canonNum (canonNum s) = canonNum s := by
  cases hm : matchNumeric s with
  | none =>
    have e : canonNum s = s := by unfold canonNum; rw [hm]
    rw [e]
    exact e
  | some x =>
    obtain ⟨neg, ip, fp⟩ := x
    have hd := matchNumeric_digits hm
    have e := canonNum_eq_of_match hm
    by_cases hz : (fp.getD []).all (· = '0') = true
    · -- integer branch of the first pass
      rw [if_pos hz] at e
      by_cases hneg : neg = true ∧ charsToNat ip ≠ 0
      · rw [if_pos hneg] at e
        rw [e, canonNum_eq_of_match
          (matchNumeric_int_neg (natToCharsC_ne_nil _) natToCharsC_digits)]
        rw [if_pos (show (((none : Option Str).getD []).all (· = '0')) = true
          from rfl)]
        rw [charsToNat_natToCharsC]
        rw [if_pos ⟨rfl, hneg.2⟩]
      · rw [if_neg hneg] at e
        rw [e, canonNum_eq_of_match
          (matchNumeric_int_nonneg (natToCharsC_ne_nil _) natToCharsC_digits)]
        rw [if_pos (show (((none : Option Str).getD []).all (· = '0')) = true
          from rfl)]
        rw [if_neg (show ¬ (false = true ∧
          charsToNat (natToCharsC (charsToNat ip)) ≠ 0) from fun hx => by
            simp at hx)]
        rw [charsToNat_natToCharsC]
    · -- fractional branch of the first pass
      rw [if_neg hz] at e
      have hfp : ∃ fr, fp = some fr ∧ fr.all (· = '0') = false := by
        cases fp with
        | none => simp at hz
        | some fr => exact ⟨fr, rfl, by simpa using hz⟩
      obtain ⟨fr, hfr, hfrz⟩ := hfp
      obtain ⟨hsne, hsz⟩ := stripZerosRight_not_all hfrz
      have hfrd : ∀ c ∈ stripZerosRight fr, isDigit10 c = true :=
        fun c hc => (hd.2.2 fr hfr).2 c (stripZerosRight_sub hc)
      rw [hfr] at e
      simp only [Option.getD_some] at e
      cases neg with
      | false =>
        rw [if_neg (show ¬ (false = true) from by simp)] at e
        rw [List.nil_append] at e
        rw [e, canonNum_eq_of_match
          (matchNumeric_frac_nonneg (natToCharsC_ne_nil _) natToCharsC_digits
            hsne hfrd)]
        simp only [Option.getD_some]
        rw [if_neg (show ¬ ((stripZerosRight fr).all (· = '0') = true) from by
          simp [hsz])]
        rw [if_neg (show ¬ (false = true) from by simp), List.nil_append,
          charsToNat_natToCharsC, stripZerosRight_idem]
      | true =>
        rw [if_pos (show (true = true) from rfl)] at e
        rw [List.singleton_append] at e
        have e2 : canonNum s =
            '-' :: (natToCharsC (charsToNat ip) ++ '.' :: stripZerosRight fr) := by
          rw [e, List.cons_append]
        rw [e2, canonNum_eq_of_match
          (matchNumeric_frac_neg (natToCharsC_ne_nil _) natToCharsC_digits
            hsne hfrd)]
        simp only [Option.getD_some]
        rw [if_neg (show ¬ ((stripZerosRight fr).all (· = '0') = true) from by
          simp [hsz])]
        simp [charsToNat_natToCharsC, stripZerosRight_idem]

theorem normalize_some_ne {q : Str} (hq : q ≠ []) :
    normalize_fraction_display (some q) =
      (if canonNum (clean_text (replaceFracs (insertSpaces q))) = [] then none
       else some (canonNum (clean_text (replaceFracs (insertSpaces q))))) := by
  show (if q = [] then some [] else _) = _
  rw [if_neg hq]

/-- C10: `normalize_fraction_display` is idempotent — for every string `x`
(and for the `None` passthrough), normalizing twice equals normalizing once. -/
theorem C10_normalize_fraction_display_idempotent (x : Option Str) :
    normalize_fraction_display (normalize_fraction_display x) =
      normalize_fraction_display x := by
  match x with
  | none => rfl
  | some q =>
    by_cases hq : q = []
    · subst hq; rfl
    · rw [normalize_some_ne hq]
      by_cases h2 : canonNum (clean_text (replaceFracs (insertSpaces q))) = []
      · rw [if_pos h2]
        rfl
      · rw [if_neg h2]
        have hglyph1 : ∀ c ∈ clean_text (replaceFracs (insertSpaces q)),
            isFracGlyph c = false := by
          intro c hc
          rcases mem_clean_text hc with h | h
          · subst h; decide
          · exact replaceFracs_no_glyph _ c h
        have hglyph2 : ∀ c ∈ canonNum (clean_text (replaceFracs (insertSpaces q))),
            isFracGlyph c = false := canonNum_glyph_free hglyph1
        have hins := insertSpaces_no_glyph hglyph2
        have hrep := replaceFracs_id hglyph2
        have hclean :=
          clean_text_canonNum_fix (clean_text_idem (replaceFracs (insertSpaces q)))
        have hcanon := canonNum_idem (clean_text (replaceFracs (insertSpaces q)))
        rw [normalize_some_ne h2, hins, hrep, hclean, hcanon, if_neg h2]

/-- C7: `score_quality` returns `pass_gate = true` only when the text passes
the hard floors (at least 500 characters and 10 non-blank lines), is not
flagged as gibberish, and its 0-4 soft score (one point each for mean
confidence at least 50, two keyword lines, a quantity-looking line, a
numbered-step line) is at least 2; moreover any text whose
alphabetic-character ratio is below 0.65 (exactly: the text is empty or
`100 * alpha_chars < 65 * total_chars`) fails the gate regardless of the
soft score. -/
theorem C7_quality_gate (text : Str) (conf : Option ℚ) :
    ((score_quality text conf).pass_gate = true →
      500 ≤ (score_quality text conf).char_count ∧
      10 ≤ (score_quality text conf).line_count ∧
      (score_quality text conf).gibberish = false ∧
      2 ≤ (score_quality text conf).score) ∧
    (alphaRatioLow (score_quality text conf).flags.alpha_chars
        (score_quality text conf).flags.total_chars = true →
      (score_quality text conf).pass_gate = false) := by
  constructor
  · intro hp
    simp only [score_quality, Bool.and_eq_true, Bool.not_eq_true',
      Bool.or_eq_false_iff, decide_eq_true_eq, decide_eq_false_iff_not] at hp
    obtain ⟨⟨⟨hc, hl⟩, hsc⟩, hgib⟩ := hp
    simp only [score_quality]
    exact ⟨by omega, by omega, hgib, hsc⟩
  · intro hlow
    simp only [score_quality, gibberish_flags] at hlow ⊢
    rw [hlow]
    simp

theorem C7_quality_gate_witness :
    (score_quality c7text (some 80)).pass_gate = true ∧
    500 ≤ (score_quality c7text (some 80)).char_count ∧
    10 ≤ (score_quality c7text (some 80)).line_count ∧
    (score_quality c7text (some 80)).gibberish = false ∧
    2 ≤ (score_quality c7text (some 80)).score ∧
    alphaRatioLow (score_quality c7low none).flags.alpha_chars
      (score_quality c7low none).flags.total_chars = true ∧
    (score_quality c7low none).pass_gate = false := by
  refine ⟨by decide, ?_, ?_, ?_, ?_, by decide, ?_⟩
  · exact ((C7_quality_gate c7text (some 80)).1 (by decide)).1
  · exact ((C7_quality_gate c7text (some 80)).1 (by decide)).2.1
  · exact ((C7_quality_gate c7text (some 80)).1 (by decide)).2.2.1
  · exact ((C7_quality_gate c7text (some 80)).1 (by decide)).2.2.2
  · exact (C7_quality_gate c7low none).2 (by decide)

/-! ### Soundness of the regex-element matcher, and the C9 theorems -/

theorem tryStar_sound {k : Str → Option (List Str)} {s : Str} :
    ∀ {n₀ : Nat} {pre : Str} {gs : List Str}, tryStar k s n₀ = some (pre, gs) →
    ∃ n, n ≤ n₀ ∧ pre = s.take n ∧ k (s.drop n) = some gs := by
  intro n₀
  induction n₀ with
  | zero =>
    intro pre gs h
    simp only [tryStar] at h
    obtain ⟨gs0, hk, he⟩ := Option.map_eq_some'.1 h
    injection he with he1 he2
    subst he1
    subst he2
    exact ⟨0, Nat.le_refl _, rfl, hk⟩
  | succ n ih =>
    intro pre gs h
    rw [tryStar] at h
    cases hk : k (s.drop (n + 1)) with
    | some gs0 =>
      rw [hk] at h
      injection h with he
      injection he with he1 he2
      subst he1
      subst he2
      exact ⟨n + 1, Nat.le_refl _, rfl, hk⟩
    | none =>
      rw [hk] at h
      obtain ⟨m, hm, h2, h3⟩ := ih h
      exact ⟨m, Nat.le_succ_of_le hm, h2, h3⟩

theorem tryPlus_sound {k : Str → Option (List Str)} {s : Str} :
    ∀ {n₀ : Nat} {pre : Str} {gs : List Str}, tryPlus k s n₀ = some (pre, gs) →
    ∃ n, 1 ≤ n ∧ n ≤ n₀ ∧ pre = s.take n ∧ k (s.drop n) = some gs := by
  intro n₀
  induction n₀ with
  | zero => intro pre gs h; cases h
  | succ n ih =>
    intro pre gs h
    rw [tryPlus] at h
    cases hk : k (s.drop (n + 1)) with
    | some gs0 =>
      rw [hk] at h
      injection h with he
      injection he with he1 he2
      subst he1
      subst he2
      exact ⟨n + 1, by omega, Nat.le_refl _, rfl, hk⟩
    | none =>
      rw [hk] at h
      obtain ⟨m, hm1, hm, h2, h3⟩ := ih h
      exact ⟨m, hm1, Nat.le_succ_of_le hm, h2, h3⟩

theorem mem_take_sat {p : Char → Bool} {s : Str} {n : Nat}
    (hn : n ≤ (s.takeWhile p).length) {c : Char} (hc : c ∈ s.take n) :
    p c = true := by
  have e : s.take n = (s.takeWhile p).take n := by
    conv_lhs => rw [← List.takeWhile_append_dropWhile p s]
    rw [List.take_append_of_le_length hn]
  rw [e] at hc
  exact takeWhile_mem_sat (List.mem_of_mem_take hc)

theorem takeWhile_length_le (p : Char → Bool) (s : Str) :
    (s.takeWhile p).length ≤ s.length := by
  conv_rhs => rw [← List.takeWhile_append_dropWhile p s]
  rw [List.length_append]
  omega

theorem matchItems_sound : ∀ (its : List RItem) (s : Str) (gs : List Str),
    matchItems its s = some gs →
    ∃ t, (t = [] ∨ t = ['\n']) ∧ s = gs.flatten ++ t ∧
      List.Forall₂ (fun (it : RItem) (g : Str) =>
        (∀ c ∈ g, it.p c = true) ∧ (it.kind = RKind.plus → g ≠ [])) its gs := by
  intro its
  induction its with
  | nil =>
    intro s gs h
    simp only [matchItems] at h
    split at h
    · injection h with he
      subst he
      rename_i ht
      exact ⟨s, ht, by simp, List.Forall₂.nil⟩
    · cases h
  | cons it rest ih =>
    intro s gs h
    simp only [matchItems] at h
    split at h
    · -- kind = one
      rename_i hkind
      cases s with
      | nil => cases h
      | cons c t =>
        replace h : (if it.p c = true then
            (matchItems rest t).map (fun gs => [c] :: gs) else none) = some gs := h
        by_cases hpc : it.p c = true
        · rw [if_pos hpc] at h
          obtain ⟨gs0, hk, he⟩ := Option.map_eq_some'.1 h
          replace he : [c] :: gs0 = gs := he
          subst he
          obtain ⟨tl, htl, he2, hfa⟩ := ih t gs0 hk
          refine ⟨tl, htl, by simp [he2], List.Forall₂.cons ⟨?_, ?_⟩ hfa⟩
          · intro d hd
            simp at hd
            subst hd
            exact hpc
          · intro hp
            rw [hkind] at hp
            cases hp
        · rw [if_neg hpc] at h
          cases h
    · -- kind = star
      rename_i hkind
      obtain ⟨r, htry, he⟩ := Option.map_eq_some'.1 h
      obtain ⟨pre, gs0⟩ := r
      replace he : pre :: gs0 = gs := he
      subst he
      obtain ⟨n, hn, hpre, hk⟩ := tryStar_sound htry
      obtain ⟨tl, htl, he2, hfa⟩ := ih _ gs0 hk
      refine ⟨tl, htl, ?_, List.Forall₂.cons ⟨?_, ?_⟩ hfa⟩
      · conv_lhs => rw [← List.take_append_drop n s]
        rw [he2, hpre]
        simp
      · intro d hd
        rw [hpre] at hd
        exact mem_take_sat hn hd
      · intro hp
        rw [hkind] at hp
        cases hp
    · -- kind = plus
      rename_i hkind
      obtain ⟨r, htry, he⟩ := Option.map_eq_some'.1 h
      obtain ⟨pre, gs0⟩ := r
      replace he : pre :: gs0 = gs := he
      subst he
      obtain ⟨n, hn1, hn, hpre, hk⟩ := tryPlus_sound htry
      obtain ⟨tl, htl, he2, hfa⟩ := ih _ gs0 hk
      refine ⟨tl, htl, ?_, List.Forall₂.cons ⟨?_, ?_⟩ hfa⟩
      · conv_lhs => rw [← List.take_append_drop n s]
        rw [he2, hpre]
        simp
      · intro d hd
        rw [hpre] at hd
        exact mem_take_sat hn hd
      · intro _
        rw [hpre]
        have hlen : n ≤ s.length := le_trans hn (takeWhile_length_le it.p s)
        intro he3
        have h0 : (s.take n).length = 0 := by rw [he3]; rfl
        rw [List.length_take] at h0
        omega

theorem clean_text_head_not_ws {s : Str} {c : Char} {r : Str}
    (h : clean_text s = c :: r) : isPyWs c = false := by
  unfold clean_text at h
  cases ht : wsTokens s with
  | nil =>
    rw [ht] at h
    cases h
  | cons t ts =>
    rw [ht] at h
    have hgood : t ≠ [] ∧ ∀ d ∈ t, isPyWs d = false := by
      refine @wsTokens_good s t ?_
      rw [ht]
      simp
    cases ts with
    | nil =>
      have e : joinSp [t] = t := rfl
      rw [e] at h
      exact hgood.2 c (by rw [h]; simp)
    | cons t2 ts2 =>
      have e : joinSp (t :: t2 :: ts2) = t ++ ' ' :: joinSp (t2 :: ts2) := rfl
      rw [e] at h
      cases t with
      | nil => exact absurd rfl hgood.1
      | cons c0 t' =>
        rw [List.cons_append] at h
        injection h with h1 _
        exact hgood.2 c (by rw [h1]; simp)

theorem normalize_some_of_nonws {x : Str} (h : ∃ c ∈ x, isPyWs c = false) :
    ∃ y, normalize_fraction_display (some x) = some y := by
  have hne : x ≠ [] := by
    rintro rfl
    simp at h
  rw [normalize_some_ne hne]
  have h2 : ∃ c ∈ insertSpaces x, isPyWs c = false := by
    obtain ⟨c, hc, hw⟩ := h
    exact ⟨c, mem_insertSpaces hc, hw⟩
  obtain ⟨c, hc, hw⟩ := replaceFracs_has_nonws h2
  have h5 := canonNum_ne_nil (clean_text_ne_nil hc hw)
  rw [if_neg h5]
  exact ⟨_, rfl⟩

theorem normalize_clean_some {x : Str} (h : ∃ c ∈ x, isPyWs c = false) :
    ∃ y, normalize_fraction_display (some (clean_text x)) = some y := by
  obtain ⟨c, hc, hw⟩ := h
  have hne := clean_text_ne_nil hc hw
  match hx : clean_text x with
  | [] => exact absurd hx hne
  | d :: r =>
    refine normalize_some_of_nonws ⟨d, by simp, clean_text_head_not_ws hx⟩

theorem matchQuantityOnly_q1_nonws {s : Str} {q1 q2 : Str}
    (h : matchQuantityOnly s = some (q1, q2)) {c0 : Char} {r0 : Str}
    (hs : s = c0 :: r0) (hw0 : isPyWs c0 = false) :
    ∃ c ∈ q1, isPyWs c = false := by
  unfold matchQuantityOnly at h
  split at h
  · rename_i g0 g1' g2' g3' hmi
    injection h with he
    injection he with he1 he2
    subst he1
    subst he2
    obtain ⟨tl, htl, he, hfa⟩ := matchItems_sound _ _ _ hmi
    cases hfa with
    | cons h0 hfa1 =>
      cases hfa1 with
      | cons h1 hfa2 =>
        -- s = g0 ++ q1 ++ ...
        simp only [List.flatten, List.append_assoc] at he
        rw [hs] at he
        cases hg0 : g0 with
        | nil =>
          rw [hg0] at he
          simp only [List.nil_append] at he
          cases hq1 : g1' with
          | nil => exact absurd hq1 (h1.2 rfl)
          | cons c1 r1 =>
            rw [hq1, List.cons_append] at he
            injection he with he1 _
            exact ⟨c1, by simp [hq1], by rw [← he1]; exact hw0⟩
        | cons d g0' =>
          rw [hg0, List.cons_append] at he
          injection he with he1 _
          have hws : isPyWs c0 = true := by
            have := h0.1 d (by rw [hg0]; simp)
            rw [he1]
            exact this
          rw [hws] at hw0
          cases hw0
  · cases h

theorem C9_counterexample_split_line :
    split_line "salt (to taste)".toList =
      { text := "salt".toList, quantity_display := none, unit := none } ∧
    "salt".toList ≠ "salt (to taste)".toList := by
  constructor
  · decide
  · decide

/-- C9 (amended): the ingredient line splitter is a total function (it never
raises), and whenever it recognizes neither a quantity nor a unit it returns
null `quantity_display` and null `unit` with `text` equal to the cleaned
ingredient name (whitespace collapsed, parenthesised asides and stray
parentheses removed, trailing spaces and parentheses stripped, and a leading
"recipe " prefix dropped) — not necessarily the verbatim original text. -/
theorem C9_split_line_cleaned (line : Str)
    (hq : (split_line line).quantity_display = none)
    (hu : (split_line line).unit = none) :
    (split_line line).text = clean_name (clean_text line) := by
  by_cases hraw : clean_text line = []
  · have e : split_line line = { text := clean_text line } := by
      unfold split_line
      rw [if_pos hraw]
    rw [e, hraw]
    decide
  · cases hqu : matchQuantityUnit (clean_text line) with
    | some g =>
      obtain ⟨g1, g2, g3⟩ := g
      by_cases hknown : is_known_unit (clean_text g2) = true
      · have e : split_line line =
            { text := clean_name g3
              quantity_display :=
                normalize_fraction_display (some (clean_text g1))
              unit := some (clean_text g2) } := by
          unfold split_line
          rw [if_neg hraw, hqu]
          simp [hknown]
        rw [e] at hu
        cases hu
      · cases hqo : matchQuantityOnly (clean_text line) with
        | some g12 =>
          obtain ⟨q1, q2⟩ := g12
          have e : split_line line =
              { text := clean_name q2
                quantity_display :=
                  normalize_fraction_display (some (clean_text q1))
                unit := none } := by
            unfold split_line
            rw [if_neg hraw, hqu, hqo]
            simp [hknown]
          rw [e] at hq
          obtain ⟨c0, r0, hs⟩ : ∃ c0 r0, clean_text line = c0 :: r0 := by
            cases hx : clean_text line with
            | nil => exact absurd hx hraw
            | cons a b => exact ⟨a, b, rfl⟩
          obtain ⟨y, hy⟩ := normalize_clean_some
            (matchQuantityOnly_q1_nonws hqo hs (clean_text_head_not_ws hs))
          rw [hy] at hq
          cases hq
        | none =>
          have e : split_line line = { text := clean_name (clean_text line) } := by
            unfold split_line
            rw [if_neg hraw, hqu, hqo]
            simp [hknown]
          rw [e]
    | none =>
      cases hqo : matchQuantityOnly (clean_text line) with
      | some g12 =>
        obtain ⟨q1, q2⟩ := g12
        have e : split_line line =
            { text := clean_name q2
              quantity_display :=
                normalize_fraction_display (some (clean_text q1))
              unit := none } := by
          unfold split_line
          rw [if_neg hraw, hqu, hqo]
        rw [e] at hq
        obtain ⟨c0, r0, hs⟩ : ∃ c0 r0, clean_text line = c0 :: r0 := by
          cases hx : clean_text line with
          | nil => exact absurd hx hraw
          | cons a b => exact ⟨a, b, rfl⟩
        obtain ⟨y, hy⟩ := normalize_clean_some
          (matchQuantityOnly_q1_nonws hqo hs (clean_text_head_not_ws hs))
        rw [hy] at hq
        cases hq
      | none =>
        have e : split_line line = { text := clean_name (clean_text line) } := by
          unfold split_line
          rw [if_neg hraw, hqu, hqo]
        rw [e]

/-- C1 counterexample: a second `mark_complete` on an already-COMPLETE job is
not a no-op — it overwrites `completed_at` with the new instant. -/
theorem C1_counterexample_second_complete :
    c1job.status = JobStatus.COMPLETE ∧ c1job.completed_at = some 0 ∧
    (mark_complete 1 c1job c1res).completed_at = some 1 ∧
    mark_complete 1 c1job c1res ≠ c1job := by
  refine ⟨rfl, rfl, rfl, ?_⟩
  intro h
  have h2 := congrArg Job.completed_at h
  rw [show (mark_complete 1 c1job c1res).completed_at = some 1 from rfl,
    show c1job.completed_at = some 0 from rfl] at h2
  simp at h2

/-- C1 (amended): `mark_complete` and `mark_error` are no-ops — the whole row
is unchanged, in particular status, `canceled_at`, `result_json` and the
error fields — on a CANCELED, COMMITTED or ABANDONED job; consequently
`mark_complete` after `mark_canceled` leaves the job CANCELED with the
original cancellation timestamp.  On an already-COMPLETE job, however,
`mark_complete` is not a no-op: the status stays COMPLETE but `completed_at`
is refreshed to the new instant (and `result_json` is rewritten). -/
theorem C1_state_machine_guards (now now2 : Nat) (res : ParseResult)
    (code msg : Str) (j : Job) :
    (j.status = JobStatus.CANCELED ∨ j.status = JobStatus.COMMITTED ∨
        j.status = JobStatus.ABANDONED →
      mark_complete now j res = j ∧ mark_error now j code msg = j) ∧
    (j.status = JobStatus.PENDING ∨ j.status = JobStatus.RUNNING →
      mark_complete now2 (mark_canceled now j).2 res = (mark_canceled now j).2 ∧
      (mark_canceled now j).2.status = JobStatus.CANCELED ∧
      (mark_canceled now j).2.canceled_at = some now) ∧
    (j.status = JobStatus.COMPLETE →
      (mark_complete now j res).status = JobStatus.COMPLETE ∧
      (mark_complete now j res).completed_at = some now) := by
  refine ⟨?_, ?_, ?_⟩
  · intro h
    have hg : guardedStatuses.contains j.status = true := by
      rcases h with h | h | h <;> rw [h] <;> decide
    constructor
    · unfold mark_complete
      rw [if_pos hg]
    · unfold mark_error
      rw [if_pos hg]
  · intro h
    have hm : mark_canceled now j =
        (true, { j with status := JobStatus.CANCELED, canceled_at := some now }) := by
      unfold mark_canceled
      rw [if_pos h]
    have h2 : (mark_canceled now j).2.status = JobStatus.CANCELED := by rw [hm]
    have h3 : (mark_canceled now j).2.canceled_at = some now := by rw [hm]
    refine ⟨?_, h2, h3⟩
    unfold mark_complete
    rw [if_pos (by rw [h2]; decide)]
  · intro h
    have hg : guardedStatuses.contains j.status = false := by
      rw [h]
      decide
    unfold mark_complete
    rw [if_neg (by simp only [hg]; decide)]
    exact ⟨rfl, rfl⟩

theorem C1_state_machine_guards_witness :
    c1canceled.status = JobStatus.CANCELED ∧
    mark_complete 7 c1canceled c1res = c1canceled ∧
    mark_error 7 c1canceled "llm_failed".toList "boom".toList = c1canceled ∧
    c1pending.status = JobStatus.PENDING ∧
    mark_complete 8 (mark_canceled 5 c1pending).2 c1res = (mark_canceled 5 c1pending).2 ∧
    (mark_canceled 5 c1pending).2.status = JobStatus.CANCELED ∧
    (mark_canceled 5 c1pending).2.canceled_at = some 5 ∧
    c1job.status = JobStatus.COMPLETE ∧
    (mark_complete 1 c1job c1res).status = JobStatus.COMPLETE ∧
    (mark_complete 1 c1job c1res).completed_at = some 1 := by
  refine ⟨rfl, ?_, ?_, rfl, ?_, ?_, ?_, rfl, ?_, ?_⟩
  · exact ((C1_state_machine_guards 7 0 c1res "llm_failed".toList "boom".toList
      c1canceled).1 (Or.inl rfl)).1
  · exact ((C1_state_machine_guards 7 0 c1res "llm_failed".toList "boom".toList
      c1canceled).1 (Or.inl rfl)).2
  · exact ((C1_state_machine_guards 5 8 c1res [] [] c1pending).2.1
      (Or.inl rfl)).1
  · exact ((C1_state_machine_guards 5 8 c1res [] [] c1pending).2.1
      (Or.inl rfl)).2.1
  · exact ((C1_state_machine_guards 5 8 c1res [] [] c1pending).2.1
      (Or.inl rfl)).2.2
  · exact ((C1_state_machine_guards 1 0 c1res [] [] c1job).2.2 rfl).1
  · exact ((C1_state_machine_guards 1 0 c1res [] [] c1job).2.2 rfl).2

/-- C2: the cancel endpoint's explicit COMPLETE allowance does not actually
cancel — `mark_canceled` only transitions PENDING or RUNNING rows, so for a
COMPLETE job the endpoint responds 200 echoing status COMPLETE while the row
is returned unchanged (still COMPLETE, `canceled_at` unset), contradicting
the in-code comment "Allow canceling COMPLETE jobs - just mark as
CANCELED". -/
theorem C2_cancel_complete_stays_complete :
    c2job.status = JobStatus.COMPLETE ∧
    cancel_parse_job 9 (some c2job) =
      (CancelOutcome.ok JobStatus.COMPLETE, some c2job) ∧
    (mark_canceled 9 c2job).1 = false := by
  exact ⟨rfl, rfl, rfl⟩

/-- C3 counterexample: a `fetch_failed` URL-job result carrying the
`webview_extract` next-action hint IS re-enqueued when the attempt budget
remains — `_process_url_job` never consults `next_action`. -/
theorem C3_counterexample_url_retries_next_action :
    c3res.error_code = some "fetch_failed".toList ∧
    c3res.next_action = some "webview_extract".toList ∧
    c3job.attempts < 3 ∧
    _process_url_job c3job 3 c3res =
      WorkerAction.reenqueue c3res.error_code c3res.error_message := by
  refine ⟨rfl, rfl, by decide, ?_⟩
  decide

/-- C3 (amended): on a failed result, a URL job is re-enqueued at PENDING
(preserving `job_data`) iff its error code is in the fixed retryable set and
its attempt count is below the configured max — the URL path never consults
`next_action`; an ingestion job is re-enqueued iff additionally the result
is not encoding-flavored (`fetch_failed` with an `encoding_error` warning or
a `webview_extract` hint) and carries no `next_action` hint. -/
theorem C3_retry_policy (job : Job) (mx : Nat) (result : ParseResult)
    (h : result.success = false) :
    (_process_url_job job mx result =
        WorkerAction.reenqueue result.error_code result.error_message ↔
      job.attempts < mx ∧ retryableCode result = true) ∧
    (_process_ingestion_job job mx result =
        WorkerAction.reenqueue result.error_code result.error_message ↔
      ¬ (isEncodingError result = true) ∧ result.next_action = none ∧
        job.attempts < mx ∧ retryableCode result = true) := by
  constructor
  · unfold _process_url_job
    rw [if_neg (by simp [h])]
    by_cases hc : job.attempts < mx ∧ retryableCode result = true
    · rw [if_pos hc]
      exact ⟨fun _ => hc, fun _ => rfl⟩
    · rw [if_neg hc]
      exact ⟨fun he => WorkerAction.noConfusion he, fun hc2 => absurd hc2 hc⟩
  · unfold _process_ingestion_job
    rw [if_neg (by simp [h])]
    by_cases hc : ¬ (isEncodingError result = true) ∧ result.next_action = none ∧
        job.attempts < mx ∧ retryableCode result = true
    · rw [if_pos hc]
      exact ⟨fun _ => hc, fun _ => rfl⟩
    · rw [if_neg hc]
      split
      · exact ⟨fun he => WorkerAction.noConfusion he, fun hc2 => absurd hc2 hc⟩
      · exact ⟨fun he => WorkerAction.noConfusion he, fun hc2 => absurd hc2 hc⟩

theorem C3_retry_policy_witness :
    c3wres.success = false ∧
    _process_url_job c3wjob 3 c3wres =
      WorkerAction.reenqueue c3wres.error_code c3wres.error_message ∧
    _process_ingestion_job c3wjob 3 c3wres =
      WorkerAction.reenqueue c3wres.error_code c3wres.error_message := by
  refine ⟨rfl, ?_, ?_⟩
  · exact (C3_retry_policy c3wjob 3 c3wres rfl).1.mpr ⟨by decide, by decide⟩
  · exact (C3_retry_policy c3wjob 3 c3wres rfl).2.mpr
      ⟨by decide, rfl, by decide, by decide⟩

/-! ### Helper lemmas for the extractor invariants (C4, C5) -/

set_option maxHeartbeats 1000000 in
theorem schemaOrgCandidate_nonempty {url : Str} {obj : Json} {r : ParsedRecipe}
    (h : schemaOrgCandidate url obj = Except.ok (some r)) :
    r.title ≠ [] ∧ r.ingredients ≠ [] ∧ r.steps ≠ [] := by
  unfold schemaOrgCandidate at h
  iterate 24 ((all_goals try simp only [] at h); all_goals try split at h)
  all_goals simp only [Except.ok.injEq, Option.some.injEq, reduceCtorEq] at h
  all_goals subst h
  all_goals exact ⟨by assumption, by assumption, by assumption⟩

theorem schemaOrgCandidatesLoop_nonempty {url : Str} {r : ParsedRecipe}
    (cands : List Json)
    (h : schemaOrgCandidatesLoop url cands = Except.ok (some r)) :
    r.title ≠ [] ∧ r.ingredients ≠ [] ∧ r.steps ≠ [] := by
  induction cands with
  | nil => simp [schemaOrgCandidatesLoop] at h
  | cons obj rest ih =>
      unfold schemaOrgCandidatesLoop at h
      split at h
      · simp at h
      · rename_i r0 heq
        simp only [Except.ok.injEq, Option.some.injEq] at h
        subst h
        exact schemaOrgCandidate_nonempty heq
      · exact ih h

theorem extract_schema_org_nonempty {url : Str} {r : ParsedRecipe}
    (scripts : List (Option Json))
    (h : extract_recipe_from_schema_org scripts url = Except.ok (some r)) :
    r.title ≠ [] ∧ r.ingredients ≠ [] ∧ r.steps ≠ [] := by
  induction scripts with
  | nil => simp [extract_recipe_from_schema_org] at h
  | cons s rest ih =>
      cases s with
      | none =>
          exact ih (by simpa [extract_recipe_from_schema_org] using h)
      | some data =>
          unfold extract_recipe_from_schema_org at h
          split at h
          · simp at h
          · rename_i r0 heq
            simp only [Except.ok.injEq, Option.some.injEq] at h
            subst h
            exact schemaOrgCandidatesLoop_nonempty _ heq
          · exact ih h

theorem extract_recipe_heuristic_nonempty {doc : HeuristicDoc} {url : Str}
    {r : ParsedRecipe} (h : extract_recipe_heuristic doc url = some r) :
    r.title ≠ [] ∧ r.ingredients ≠ [] ∧ r.steps ≠ [] := by
  unfold extract_recipe_heuristic at h
  iterate 24 ((all_goals try simp only [] at h); all_goals try split at h)
  all_goals simp only [Option.some.injEq, reduceCtorEq] at h
  all_goals subst h
  all_goals rename_i hcond
  all_goals exact ⟨hcond.1, hcond.2.1, hcond.2.2⟩

theorem clean_parsed_ingredients_ne_nil {l : List ParsedIngredient}
    (h : l ≠ []) : _clean_parsed_ingredients l ≠ [] := by
  cases l with
  | nil => exact absurd rfl h
  | cons a t => simp [_clean_parsed_ingredients]

theorem parse_url_schema_first {env : UrlParseEnv} {url html : Str}
    {r : ParsedRecipe} (hfetch : env.fetch = FetchOutcome.ok html)
    (hschema : extract_recipe_from_schema_org env.scripts url = Except.ok (some r))
    (flag : Bool) :
    parse_recipe_from_url env url flag =
      Except.ok { success := true,
                  recipe := some { r with
                    ingredients := _clean_parsed_ingredients r.ingredients },
                  used_llm := false,
                  parser_strategy := some ("schema_org_json_ld".toList),
                  warnings := [] } := by
  unfold parse_recipe_from_url
  rw [hfetch]
  simp only [hschema]

theorem parse_url_no_llm_indep (env2 : UrlParseEnv) (url : Str)
    (l1 l2 : LlmOutcome) :
    parse_recipe_from_url { env2 with llm := l1 } url false =
      parse_recipe_from_url { env2 with llm := l2 } url false := by
  obtain ⟨f, sc, d, l⟩ := env2
  unfold parse_recipe_from_url
  cases f with
  | ok html =>
      cases hs : extract_recipe_from_schema_org sc url with
      | error e => simp [hs]
      | ok v =>
          cases v with
          | some r0 => simp [hs]
          | none =>
              simp only [hs, extract_recipe_from_microdata]
              cases hh : extract_recipe_heuristic d url with
              | some r0 => simp [hh]
              | none => simp [hh]
  | valueError msg => rfl
  | httpStatusError st => rfl
  | httpError msg => rfl

/-- C4 counterexample: the LLM fallback does not enforce the non-empty
invariant — a model answer `{"title": ""}` validates (pydantic accepts an
empty string title and defaults the lists) and is returned inside a
successful `ParseResult` with empty title, no ingredients and no steps. -/
theorem C4_counterexample_llm_empty_fields :
    parse_recipe_from_url c4env c4url true =
      Except.ok { success := true, recipe := some c4rec, used_llm := true,
                  parser_strategy := some ("llm_fallback".toList),
                  warnings := ["LLM fallback used; please verify ingredients.".toList] } ∧
    c4rec.title = [] ∧ c4rec.ingredients = [] ∧ c4rec.steps = [] :=
  ⟨rfl, rfl, rfl, rfl⟩

/-- C4 (amended): a `ParsedRecipe` carried in a successful `ParseResult` of
`parse_recipe_from_url` has a non-empty title, non-empty ingredients and
non-empty steps whenever it was produced by a non-LLM strategy
(`used_llm = false`, i.e. schema.org JSON-LD, microdata or heuristic):
those extractors discard partial matches rather than returning them.  The
model-assisted fallback does NOT enforce this invariant (see the
counterexample). -/
theorem C4_nonllm_extractors_nonempty (env : UrlParseEnv) (url : Str)
    (use_llm_fallback : Bool) (res : ParseResult) (r : ParsedRecipe)
    (hok : parse_recipe_from_url env url use_llm_fallback = Except.ok res)
    (hsucc : res.success = true) (hllm : res.used_llm = false)
    (hrec : res.recipe = some r) :
    r.title ≠ [] ∧ r.ingredients ≠ [] ∧ r.steps ≠ [] := by
  unfold parse_recipe_from_url at hok
  simp only [extract_recipe_from_microdata] at hok
  iterate 24 ((all_goals try simp only [] at hok); all_goals try split at hok)
  all_goals try simp only [reduceCtorEq] at hok
  all_goals simp only [Except.ok.injEq] at hok
  all_goals subst hok
  all_goals try simp at hsucc
  all_goals try simp at hllm
  all_goals
    rename_i parsed heq
    replace hrec : some { parsed with
        ingredients := _clean_parsed_ingredients parsed.ingredients } = some r := hrec
    rw [Option.some.injEq] at hrec
    subst hrec
    first
      | (obtain ⟨h1, h2, h3⟩ := extract_schema_org_nonempty _ heq
         exact ⟨h1, clean_parsed_ingredients_ne_nil h2, h3⟩)
      | (obtain ⟨h1, h2, h3⟩ := extract_recipe_heuristic_nonempty heq
         exact ⟨h1, clean_parsed_ingredients_ne_nil h2, h3⟩)

set_option maxHeartbeats 4000000 in
theorem C4_nonllm_extractors_nonempty_witness :
    parse_recipe_from_url c4wenv c4wurl false = Except.ok c4wres ∧
    c4wres.success = true ∧ c4wres.used_llm = false ∧
    c4wres.recipe = some c4wrec ∧
    (c4wrec.title ≠ [] ∧ c4wrec.ingredients ≠ [] ∧ c4wrec.steps ≠ []) :=
  ⟨by decide, rfl, rfl, rfl,
    C4_nonllm_extractors_nonempty c4wenv c4wurl false c4wres c4wrec (by decide)
      rfl rfl rfl⟩

/-- C5: when the structured-data extractor succeeds on the fetched
document, `parse_recipe_from_url` returns success with strategy
`schema_org_json_ld` and `used_llm = false` — whatever the heuristic pass
would have found (the environment quantifies over any DOM) and whatever
the LLM would have answered; moreover the outcome never depends on the
LLM collaborator when the structured extractor succeeds, nor — for any
document — when the caller did not opt in to the fallback. -/
theorem C5_strategy_order (env : UrlParseEnv) (url html : Str)
    (r : ParsedRecipe) (flag : Bool)
    (hfetch : env.fetch = FetchOutcome.ok html)
    (hschema : extract_recipe_from_schema_org env.scripts url = Except.ok (some r)) :
    parse_recipe_from_url env url flag =
      Except.ok { success := true,
                  recipe := some { r with
                    ingredients := _clean_parsed_ingredients r.ingredients },
                  used_llm := false,
                  parser_strategy := some ("schema_org_json_ld".toList),
                  warnings := [] } ∧
    (∀ l1 l2 : LlmOutcome,
      parse_recipe_from_url { env with llm := l1 } url flag =
        parse_recipe_from_url { env with llm := l2 } url flag) ∧
    (∀ env2 : UrlParseEnv, ∀ l1 l2 : LlmOutcome,
      parse_recipe_from_url { env2 with llm := l1 } url false =
        parse_recipe_from_url { env2 with llm := l2 } url false) := by
  refine ⟨parse_url_schema_first hfetch hschema flag, ?_, ?_⟩
  · intro l1 l2
    rw [@parse_url_schema_first { env with llm := l1 } url html r hfetch hschema flag,
        @parse_url_schema_first { env with llm := l2 } url html r hfetch hschema flag]
  · intro env2 l1 l2
    exact parse_url_no_llm_indep env2 url l1 l2

set_option maxHeartbeats 4000000 in
theorem C5_strategy_order_witness :
    c5env.fetch = FetchOutcome.ok ("<html></html>".toList) ∧
    extract_recipe_from_schema_org c5env.scripts c5url = Except.ok (some c5rec) ∧
    (extract_recipe_heuristic c5env.doc c5url).isSome = true ∧
    parse_recipe_from_url c5env c5url true =
      Except.ok { success := true,
                  recipe := some { c5rec with
                    ingredients := _clean_parsed_ingredients c5rec.ingredients },
                  used_llm := false,
                  parser_strategy := some ("schema_org_json_ld".toList),
                  warnings := [] } := by
  refine ⟨rfl, by decide, by decide, ?_⟩
  exact (C5_strategy_order c5env c5url ("<html></html>".toList) c5rec true rfl
    (by decide)).1

theorem C9_split_line_cleaned_witness :
    (split_line "salt (to taste)".toList).quantity_display = none ∧
    (split_line "salt (to taste)".toList).unit = none ∧
    (split_line "salt (to taste)".toList).text =
      clean_name (clean_text "salt (to taste)".toList) := by
  refine ⟨by decide, by decide, ?_⟩
  exact C9_split_line_cleaned _ (by decide) (by decide)

/-! ### Helper lemmas for the OCR-completion worker (C6, C8) -/

theorem ocrFinish_completed {draftF : RecipeDraft} {qr : QualityResult}
    {tier : Json} {results_len succ_len : Nat} {failed : List ImageFailure}
    {rj pl : Json}
    (h : ocrFinish draftF qr tier results_len succ_len failed =
      OcrOutcome.completed rj pl) :
    pl = successPipelineJson qr tier results_len succ_len failed.length failed := by
  unfold ocrFinish at h
  split at h
  · simp at h
  · simp only [] at h
    simp only [OcrOutcome.completed.injEq] at h
    exact h.2.symm

theorem ocrAfterPartition_completed {job : Job} {env : OcrEnv}
    {results_len : Nat} {succ : List Json} {failed : List ImageFailure}
    {rj pl : Json}
    (h : ocrAfterPartition job env results_len succ failed =
      Except.ok (OcrOutcome.completed rj pl)) :
    ∃ qr tier,
      pl = successPipelineJson qr tier results_len succ.length failed.length failed := by
  unfold ocrAfterPartition at h
  iterate 24 ((all_goals try simp only [] at h); all_goals try split at h)
  all_goals simp only [Except.ok.injEq, reduceCtorEq] at h
  all_goals exact ⟨_, _, ocrFinish_completed h⟩

theorem ocr_main_eq (job : Job) (env : OcrEnv) (rs sorted succ : List Json)
    (failed : List ImageFailure)
    (hstatus : jGetExn env.payload ("status".toList) =
      Except.ok (Json.str ("success".toList)))
    (herr : jGetExn env.payload ("error".toList) = Except.ok Json.null)
    (hresults : jGetDExn env.payload ("results".toList) (Json.arr []) =
      Except.ok (Json.arr rs))
    (hne : rs ≠ [])
    (hsort : sortedResults rs = Except.ok sorted)
    (hpart : perImagePartition sorted [] [] = Except.ok (succ, failed)) :
    _process_ocr_completed job env =
      if succ.isEmpty then
        OcrOutcome.markError (allFailedCode failed) (Json.str (allFailedMsg failed))
      else ocrResolve (ocrAfterPartition job env rs.length succ failed) := by
  have htr : (Json.arr rs).truthy = true := by
    cases rs with
    | nil => exact absurd rfl hne
    | cons a t => rfl
  unfold _process_ocr_completed ocrRun
  simp only [hstatus, herr, hresults, hsort, hpart, htr,
    show Json.null.truthy = false from rfl,
    show (decide ("success".toList ≠ "success".toList)) = false from by decide,
    Bool.false_eq_true, Bool.true_eq_false, false_or, if_false]
  by_cases hse : succ.isEmpty = true
  · rw [if_pos hse, if_pos hse]
    rfl
  · rw [if_neg hse, if_neg hse]

/-- C6: with a well-formed successful OCR payload (status `success`, no
top-level error, a non-empty results list that sorts and partitions
cleanly), the job is marked ERROR for OCR failure exactly when every image
failed (with the first failure's code and the combined failure message);
when at least one image succeeded, the handler instead continues into the
post-partition pipeline — built on the successful results in index-sorted
order, whose truthy `ocr_text` values form the combined text — and on the
success path the per-image failures are recorded in the ingestion
`pipeline_json` (its single attempt carries `per_image_errors` for the
failed images, with `image_count`, `successful_images` and
`failed_images` counts) rather than surfaced as a job-level error. -/
theorem C6_partial_failure_tolerance (job : Job) (env : OcrEnv)
    (rs sorted succ : List Json) (failed : List ImageFailure)
    (hstatus : jGetExn env.payload ("status".toList) =
      Except.ok (Json.str ("success".toList)))
    (herr : jGetExn env.payload ("error".toList) = Except.ok Json.null)
    (hresults : jGetDExn env.payload ("results".toList) (Json.arr []) =
      Except.ok (Json.arr rs))
    (hne : rs ≠ [])
    (hsort : sortedResults rs = Except.ok sorted)
    (hpart : perImagePartition sorted [] [] = Except.ok (succ, failed)) :
    (succ = [] →
      _process_ocr_completed job env =
        OcrOutcome.markError (allFailedCode failed) (Json.str (allFailedMsg failed))) ∧
    (succ ≠ [] →
      _process_ocr_completed job env =
        ocrResolve (ocrAfterPartition job env rs.length succ failed)) ∧
    (∀ rj pl, _process_ocr_completed job env = OcrOutcome.completed rj pl →
      ∃ qr tier,
        pl = successPipelineJson qr tier rs.length succ.length failed.length failed) := by
  have hmain := ocr_main_eq job env rs sorted succ failed hstatus herr hresults
    hne hsort hpart
  refine ⟨?_, ?_, ?_⟩
  · intro hempty
    rw [hmain, if_pos (by simp [hempty])]
  · intro hnemp
    rw [hmain, if_neg (by simp [hnemp])]
  · intro rj pl hcomp
    rw [hmain] at hcomp
    by_cases hempty : succ.isEmpty
    · rw [if_pos hempty] at hcomp
      exact absurd hcomp (by simp)
    · rw [if_neg hempty] at hcomp
      unfold ocrResolve at hcomp
      split at hcomp
      · rename_i out heq
        rw [hcomp] at heq
        exact ocrAfterPartition_completed heq
      · exact absurd hcomp (by simp)

set_option maxHeartbeats 4000000 in
theorem C6_partial_failure_tolerance_witness :
    sortedResults c6rs = Except.ok c6sorted ∧
    perImagePartition c6sorted [] [] = Except.ok (c6succ, c6failed) ∧
    _process_ocr_completed c6job c6envAll =
      OcrOutcome.markError (allFailedCode c6failed) (Json.str (allFailedMsg c6failed)) ∧
    _process_ocr_completed c6job c6env =
      ocrResolve (ocrAfterPartition c6job c6env c6rs.length c6succ c6failed) ∧
    (match _process_ocr_completed c6job c6env with
     | OcrOutcome.completed _ _ => true
     | _ => false) = true := by
  refine ⟨rfl, rfl, ?_, ?_, by rfl⟩
  · exact (C6_partial_failure_tolerance c6job c6envAll [c6resA] [c6resA] [] c6failed
      rfl rfl rfl (by simp) rfl rfl).1 rfl
  · exact (C6_partial_failure_tolerance c6job c6env c6rs c6sorted c6succ c6failed
      rfl rfl rfl (by simp [c6rs]) rfl rfl).2.1 (by simp [c6succ])

/-- C8: the worker re-reads the job status before each expensive step and
aborts as a clean no-op on CANCELED.  With a well-formed payload that
leaves at least one successful image, (1) if the fresh read after
receiving the OCR results observes CANCELED, the handler returns
`abortCanceled 1` — no model call, no error marked; (2) if that read does
not observe CANCELED and the pipeline reaches the quality gate and passes
it, a CANCELED observation on the fresh read before the text-structuring
model call makes the handler return `abortCanceled 2` — whatever the model
collaborators would have answered, since the environment is arbitrary in
them. -/
theorem C8_cancellation_checkpoints (job : Job) (env : OcrEnv)
    (rs sorted succ : List Json) (failed : List ImageFailure)
    (hstatus : jGetExn env.payload ("status".toList) =
      Except.ok (Json.str ("success".toList)))
    (herr : jGetExn env.payload ("error".toList) = Except.ok Json.null)
    (hresults : jGetDExn env.payload ("results".toList) (Json.arr []) =
      Except.ok (Json.arr rs))
    (hne : rs ≠ [])
    (hsort : sortedResults rs = Except.ok sorted)
    (hpart : perImagePartition sorted [] [] = Except.ok (succ, failed))
    (hsucc : succ ≠ []) :
    (is_canceled env.statusRead1 = true →
      _process_ocr_completed job env = OcrOutcome.abortCanceled 1) ∧
    (∀ combined qs tier iid,
      is_canceled env.statusRead1 = false →
      joinNN (ocrTextsOf succ) = Except.ok combined →
      combined ≠ [] →
      confidencesOf (allMetasOf succ) = Except.ok qs →
      tierOf (allMetasOf succ) = Except.ok tier →
      jGetExn (jobDataOf job) ("ingestion_id".toList) = Except.ok iid →
      iid.truthy = true →
      env.ingestion_found = true →
      (score_quality combined (meanOf qs)).hard_fail = false →
      (score_quality combined (meanOf qs)).pass_gate = true →
      is_canceled env.statusRead2 = true →
      _process_ocr_completed job env = OcrOutcome.abortCanceled 2) := by
  have hmain := ocr_main_eq job env rs sorted succ failed hstatus herr hresults
    hne hsort hpart
  have hnemp : succ.isEmpty = false := by
    cases succ with
    | nil => exact absurd rfl hsucc
    | cons a t => rfl
  constructor
  · intro h1
    rw [hmain, if_neg (by simp [hnemp])]
    unfold ocrAfterPartition
    rw [if_pos h1]
    rfl
  · intro combined qs tier iid h1 hjoin hcomb hconf htier hjd hiid hfound
      hhf hpg h2
    rw [hmain, if_neg (by simp [hnemp])]
    unfold ocrAfterPartition
    rw [if_neg (by simp [h1])]
    simp only [hjoin, hconf, htier, hjd]
    rw [if_neg (by simp [hcomb])]
    rw [if_neg (by simp [hiid])]
    rw [if_neg (by simp [hfound])]
    rw [if_neg (by simp [hhf, hpg])]
    rw [if_pos h2]
    rfl

set_option maxHeartbeats 4000000 in
theorem C8_cancellation_checkpoints_witness :
    _process_ocr_completed c6job c8env1 = OcrOutcome.abortCanceled 1 ∧
    _process_ocr_completed c6job c8env2 = OcrOutcome.abortCanceled 2 := by
  constructor
  · exact (C8_cancellation_checkpoints c6job c8env1 c6rs c6sorted c6succ c6failed
      rfl rfl rfl (by simp [c6rs]) rfl rfl (by simp [c6succ])).1 rfl
  · exact (C8_cancellation_checkpoints c6job c8env2 c6rs c6sorted c6succ c6failed
      rfl rfl rfl (by simp [c6rs]) rfl rfl (by simp [c6succ])).2
      c7text [] (Json.str "unknown".toList) (Json.str "ing1".toList)
      rfl rfl (by decide) rfl rfl rfl rfl rfl (by decide) (by decide) rfl

end Jarvis
